import Mathlib

/-!
# PowerHell: navigation core, menu framework and account store

A shallow embedding of the Go sources of the PowerHell terminal application
(`pkg/menus`, `pkg/auth`, `pkg/views`, `pkg/app`) together with theorems about
them.

Conventions of the embedding:

* Go `string` is `String`; Go `len(s)` is the UTF-8 byte size.
* Go `int` is `Int` (no arithmetic in these sources comes near the word size).
* A pointer that may be `nil` is an `Option`; objects reached through a pointer
  are carried by value and passed on explicitly.
* A Go closure `func() T` is a state transformer `σ → T × σ` over the state it
  captures.
-/

namespace PowerHell

/-! ## Commands returned to the bubbletea runtime -/

/-- The `tea.Cmd` values these sources produce: `nil`, `tea.Quit`, the
animation tick of `tickCmd()`, the cursor blink returned by
`textinput.Focus()`, and the command returned by `textinput.Update`. -/
inductive Cmd where
  | nil
  | quit
  | tick
  | blink
  | input
  deriving DecidableEq, Repr

/-! ## pkg/menus/types -/

/-- The Go enumeration `MenuAction` of `menu.go`. -/
inductive MenuAction where
  | ActionNone
  | ActionNavigate
  | ActionExecute
  | ActionBack
  | ActionExit
  deriving DecidableEq, Repr

open MenuAction

/-- The Go struct `MenuResult`. `Data` is `interface{}` in the source; every
payload in the repository is a string or `nil`. The defaults are Go's zero
values. -/
structure MenuResult where
  Action : MenuAction := ActionNone
  NextState : Int := 0
  Data : Option String := none
  Message : String := ""
  TeaCmd : Cmd := Cmd.nil
  deriving DecidableEq, Repr

/-- The Go struct `MenuOption`. `Handler` is a `func() MenuResult`; `σ` is the
state such a closure may capture and change. -/
structure MenuOption (σ : Type) where
  Label : String := ""
  Description : String := ""
  Action : MenuAction := ActionNone
  Target : Int := 0
  Handler : Option (σ → MenuResult × σ) := none

/-- The Go struct `BaseMenu`. -/
structure BaseMenu (σ : Type) where
  title : String
  description : String
  options : List (MenuOption σ)
  backIndex : Int

namespace BaseMenu

variable {σ : Type}

/-- Go `NewBaseMenu`. -/
def NewBaseMenu (title description : String) : BaseMenu σ :=
  { title := title, description := description, options := [], backIndex := -1 }

/-- Go `GetTitle`. -/
def GetTitle (m : BaseMenu σ) : String := m.title

/-- Go `GetDescription`. -/
def GetDescription (m : BaseMenu σ) : String := m.description

/-- Go `GetOptions`. -/
def GetOptions (m : BaseMenu σ) : List (MenuOption σ) := m.options

/-- Go `GetBackOption`. -/
def GetBackOption (m : BaseMenu σ) : Int := m.backIndex

/-- Go `AddOption`. -/
def AddOption (m : BaseMenu σ) (option : MenuOption σ) : BaseMenu σ :=
  { m with options := m.options ++ [option] }

/-- Go `AddSimpleOption`. -/
def AddSimpleOption (m : BaseMenu σ) (label : String) (targetState : Int) : BaseMenu σ :=
  m.AddOption { Label := label, Action := ActionNavigate, Target := targetState }

/-- Go `AddExecuteOption`. -/
def AddExecuteOption (m : BaseMenu σ) (label description : String)
    (handler : Option (σ → MenuResult × σ)) : BaseMenu σ :=
  m.AddOption
    { Label := label, Description := description, Action := ActionExecute, Handler := handler }

/-- Go `AddBackOption`. -/
def AddBackOption (m : BaseMenu σ) (label : String) (targetState : Int) : BaseMenu σ :=
  ({ m with backIndex := (m.options.length : Int) } : BaseMenu σ).AddOption
    { Label := label, Action := ActionBack, Target := targetState }

/-- Go `(*BaseMenu).HandleSelection`. The receiver is a pointer, so the menu
after the call is returned next to the result, and `w` is the state of the
handlers before the call. -/
def HandleSelection (m : BaseMenu σ) (index : Int) (w : σ) : MenuResult × BaseMenu σ × σ :=
  if index < 0 ∨ index ≥ (m.options.length : Int) then
    ({ Action := ActionNone }, m, w)
  else
    match m.options[index.toNat]? with
    | none => ({ Action := ActionNone }, m, w)
    | some option =>
      match option.Handler with
      | some handler =>
        let r := handler w
        (r.1, m, r.2)
      | none =>
        ({ Action := option.Action, NextState := option.Target,
           Message := "Selected: " ++ option.Label }, m, w)

end BaseMenu

/-! ## pkg/menus: the concrete menus -/

/-- The state constants shared by `pkg/menus/mainmenu`, `pkg/menus/auth` and
`pkg/app` (Go `iota` block plus `StateExit = -1` and the three states that
`app.go` adds). -/
abbrev StateIntro : Int := 0
/-- Go `StateAccountCreation`. -/
abbrev StateAccountCreation : Int := 1
/-- Go `StateMainMenu` (legacy). -/
abbrev StateMainMenu : Int := 2
/-- Go `StateLearnMenu` (legacy). -/
abbrev StateLearnMenu : Int := 3
/-- Go `StateStudio` (legacy). -/
abbrev StateStudio : Int := 4
/-- Go `StateSettings` (legacy). -/
abbrev StateSettings : Int := 5
/-- Go `StateAuthMenu`. -/
abbrev StateAuthMenu : Int := 6
/-- Go `StateSignInPlaceholder` (legacy). -/
abbrev StateSignInPlaceholder : Int := 7
/-- Go `StateModuleExplorer`. -/
abbrev StateModuleExplorer : Int := 8
/-- Go `StateExit`. -/
abbrev StateExit : Int := -1
/-- Go `StateDashboard`. -/
abbrev StateDashboard : Int := 100
/-- Go `StateLesson`. -/
abbrev StateLesson : Int := 101
/-- Go `StateSignIn`. -/
abbrev StateSignIn : Int := 102

/-- The interface `types.Menu`: every implementation in the repository embeds
`*BaseMenu` and overrides nothing, and its handlers are methods that return a
constant result, so they capture no state. -/
abbrev Menu := BaseMenu Unit

/-- A handler method that returns the constant result `r`. -/
def constHandler (r : MenuResult) : Option (Unit → MenuResult × Unit) :=
  some (fun w => (r, w))

/-- Go `(*AuthMenu).handleSignUp`. -/
def handleSignUp : MenuResult :=
  { Action := ActionNavigate, NextState := StateAccountCreation,
    Message := "Starting account creation process..." }

/-- Go `(*AuthMenu).handleSignIn`. -/
def handleSignIn : MenuResult :=
  { Action := ActionNavigate, NextState := StateSignInPlaceholder,
    Message := "Opening sign-in form..." }

/-- Go `auth.NewAuthMenu` with its `setupOptions`. -/
def NewAuthMenu : Menu :=
  (((BaseMenu.NewBaseMenu "PowerHell Authentication"
      "Sign up for a new account or sign in to continue").AddExecuteOption
      "Sign Up" "Create a new PowerHell learning account" (constHandler handleSignUp)).AddExecuteOption
      "Login" "Login to your existing PowerHell account" (constHandler handleSignIn)).AddBackOption
      "Exit" StateExit

/-- Go `mainmenu.NewMainMenu` with its `setupOptions`. -/
def NewMainMenu : Menu :=
  (((((BaseMenu.NewBaseMenu "PowerHell Main Menu"
      "Choose your learning path or manage your session").AddSimpleOption
      "Learn" StateLearnMenu).AddSimpleOption
      "Studio" StateStudio).AddSimpleOption
      "Settings" StateSettings).AddSimpleOption
      "Log Out" StateAuthMenu).AddBackOption
      "Exit" StateExit

/-- The result of the six handlers of `learn_menu.go`. -/
def learnResult (data message : String) : MenuResult :=
  { Action := ActionNavigate, NextState := StateModuleExplorer, Data := some data,
    Message := message }

/-- Go `learn.NewLearnMenu` with its `setupOptions`. -/
def NewLearnMenu : Menu :=
  (((((((BaseMenu.NewBaseMenu "PowerHell Learning Modules"
      "Select a PowerShell learning module to explore").AddExecuteOption
      "On-Premise Learning"
      "Learn PowerShell for on-premise environments (AD, file servers, local management)"
      (constHandler (learnResult "onprem" "Loading On-Premise Learning Module..."))).AddExecuteOption
      "MSGraph Module" "Learn Microsoft Graph PowerShell SDK for cloud management"
      (constHandler (learnResult "mggraph" "Loading MSGraph Learning Module..."))).AddExecuteOption
      "Exchange Module" "Learn Exchange PowerShell for email system management"
      (constHandler (learnResult "exchange" "Loading Exchange Learning Module..."))).AddExecuteOption
      "HTTP Client (Invoke-WebRequest, Graph API)"
      "Learn web requests and API interactions with PowerShell"
      (constHandler (learnResult "httpclient" "Loading HTTP Client Learning Module..."))).AddExecuteOption
      "Custom & Popular Modules (EntraExporter)"
      "Learn popular community modules and custom PowerShell tools"
      (constHandler (learnResult "custommodules" "Loading Custom Modules Learning..."))).AddExecuteOption
      "PowerShell SDK Learning" "Learn PowerShell SDK development with C#"
      (constHandler (learnResult "sdklearning" "Loading PowerShell SDK Learning..."))).AddBackOption
      "Back to Main Menu" StateMainMenu

/-- The result of the handlers of `settings_menu.go` and `studio_menu.go`. -/
def executeResult (data message : String) : MenuResult :=
  { Action := ActionExecute, Message := message, Data := some data }

/-- Go `settings.NewSettingsMenu` with its `setupOptions`. -/
def NewSettingsMenu : Menu :=
  (((((((BaseMenu.NewBaseMenu "PowerHell Settings"
      "Configure your PowerHell learning experience").AddExecuteOption
      "Theme Settings" "Configure color themes and visual preferences"
      (constHandler (executeResult "theme_settings"
        "Theme settings functionality coming soon..."))).AddExecuteOption
      "Learning Preferences" "Set your skill level and learning pace preferences"
      (constHandler (executeResult "learning_preferences"
        "Learning preferences functionality coming soon..."))).AddExecuteOption
      "Notification Settings" "Configure learning reminders and progress notifications"
      (constHandler (executeResult "notification_settings"
        "Notification settings functionality coming soon..."))).AddExecuteOption
      "Account Settings" "Manage your account information and privacy settings"
      (constHandler (executeResult "account_settings"
        "Account settings functionality coming soon..."))).AddExecuteOption
      "Export/Import Progress" "Backup or restore your learning progress"
      (constHandler (executeResult "progress_management"
        "Progress management functionality coming soon..."))).AddExecuteOption
      "Reset to Defaults" "Reset all settings to their default values"
      (constHandler (executeResult "reset_settings"
        "Settings reset functionality coming soon..."))).AddBackOption
      "Back to Main Menu" StateMainMenu

/-- Go `studio.NewStudioMenu` with its `setupOptions`. -/
def NewStudioMenu : Menu :=
  (((((((BaseMenu.NewBaseMenu "PowerHell Studio"
      "Practice PowerShell in interactive environments").AddExecuteOption
      "Interactive Console" "Launch an interactive PowerShell console for practice"
      (constHandler (executeResult "interactive_console"
        "Launching interactive PowerShell console..."))).AddExecuteOption
      "Script Editor" "Create and edit PowerShell scripts with syntax highlighting"
      (constHandler (executeResult "script_editor"
        "Opening PowerShell script editor..."))).AddExecuteOption
      "Sandbox Environment" "Practice in a safe, isolated PowerShell environment"
      (constHandler (executeResult "sandbox_environment"
        "Initializing sandbox environment..."))).AddExecuteOption
      "Code Challenges" "Solve PowerShell coding challenges to test your skills"
      (constHandler (executeResult "code_challenges"
        "Loading code challenges..."))).AddExecuteOption
      "Snippet Library" "Browse and save useful PowerShell code snippets"
      (constHandler (executeResult "snippet_library"
        "Opening snippet library..."))).AddExecuteOption
      "Project Templates" "Start new PowerShell projects from pre-built templates"
      (constHandler (executeResult "project_templates"
        "Loading project templates..."))).AddBackOption
      "Back to Main Menu" StateMainMenu

/-! ## pkg/menus/manager.go -/

/-- The Go struct `MenuManager`. The map `menus` is a list of pairs with
distinct keys; `currentMenu` is `nil` until a menu is selected. -/
structure MenuManager where
  menus : List (Int × Menu)
  currentMenu : Option Menu
  currentState : Int

namespace MenuManager

/-- Go `NewMenuManager` with `initializeMenus`; `Initialize` of every menu is
the no-op of `BaseMenu`. -/
def NewMenuManager : MenuManager :=
  { menus := [(StateMainMenu, NewMainMenu), (StateLearnMenu, NewLearnMenu),
              (StateAuthMenu, NewAuthMenu), (StateSettings, NewSettingsMenu),
              (StateStudio, NewStudioMenu)],
    currentMenu := none,
    currentState := 0 }

/-- Go `SetCurrentMenu`: the error (as its message) and the manager after the
call. `Cleanup` of the previous menu is the no-op of `BaseMenu`. -/
def SetCurrentMenu (m : MenuManager) (state : Int) : Option String × MenuManager :=
  match m.menus.lookup state with
  | none => (some ("menu for state " ++ toString state ++ " not found"), m)
  | some menu => (none, { m with currentMenu := some menu, currentState := state })

/-- Go `GetCurrentState`. -/
def GetCurrentState (m : MenuManager) : Int := m.currentState

/-- Go `(*MenuManager).HandleSelection`. -/
def HandleSelection (m : MenuManager) (index : Int) : MenuResult :=
  match m.currentMenu with
  | none => { Action := ActionNone }
  | some menu => (menu.HandleSelection index ()).1

/-- Go `GetMenuOptions`. -/
def GetMenuOptions (m : MenuManager) : List (MenuOption Unit) :=
  match m.currentMenu with
  | none => []
  | some menu => menu.GetOptions

/-- Go `GetMenuOptionsAsStrings`. -/
def GetMenuOptionsAsStrings (m : MenuManager) : List String :=
  m.GetMenuOptions.map (fun option => option.Label)

end MenuManager

/-! ## Go strings -/

/-- Go `len(s)` of a string: its number of bytes. -/
def len (s : String) : Nat := s.utf8ByteSize

/-- Go `strings.ReplaceAll(s, " ", "")`: every space is deleted. -/
def removeSpaces (s : String) : String := String.mk (s.data.filter (fun c => c ≠ ' '))

/-- The runes left after skipping the first `n` bytes; `none` when byte `n`
falls inside a multi-byte rune or past the end. -/
def dropBytes : List Char → Nat → Option (List Char)
  | cs, 0 => some cs
  | [], _ + 1 => none
  | c :: cs, n + 1 =>
    if c.utf8Size ≤ n + 1 then dropBytes cs (n + 1 - c.utf8Size) else none

/-- The runes that make up the first `n` bytes; `none` when byte `n` falls
inside a multi-byte rune or past the end. -/
def takeBytes : List Char → Nat → Option (List Char)
  | _, 0 => some []
  | [], _ + 1 => none
  | c :: cs, n + 1 =>
    if c.utf8Size ≤ n + 1 then (takeBytes cs (n + 1 - c.utf8Size)).map (fun r => c :: r)
    else none

/-- Go `s[i:j]` on a string, which slices bytes. `none` stands for a result that
cuts a multi-byte rune: such a Go string is not valid UTF-8 and is equal to no
`String`. -/
def byteSlice (s : String) (i j : Nat) : Option String :=
  ((dropBytes s.data i).bind (fun r => takeBytes r (j - i))).map String.mk

/-! ## pkg/auth/types.go -/

/-- The error values of `pkg/auth`: the three sentinels of `types.go` and any
other error, carried as its message. -/
inductive Error where
  | ErrAccountNotFound
  | ErrDuplicateAccount
  | ErrInvalidAccountNumber
  | other (msg : String)
  deriving DecidableEq, Repr

/-- The Go struct `Account`. A timestamp is carried as the string that
`Format(time.RFC3339)` gives for it. -/
structure Account where
  ID : Int := 0
  AccountNumber : String := ""
  Name : String := ""
  Email : String := ""
  CreatedAt : String := ""
  LastLogin : String := ""
  IsActive : Bool := false
  deriving DecidableEq, Repr

/-! ## pkg/auth/database.go

The SQLite file is an in-memory table state. The statements of `database.go`
are given their SQL meaning on it, so the only failures here are the ones the
schema raises; errors of the driver itself (I/O) enter at the calls that
`Update` makes (see `Faults`). -/

/-- A row of table `accounts`. -/
structure AccountRow where
  id : Int
  account_number : String
  name : String
  email : String
  created_at : Option String
  last_login : Option String
  is_active : Bool
  deriving DecidableEq, Repr

/-- A row of table `account_progress`. -/
structure ProgressRow where
  id : Int
  account_id : Int
  module_id : String
  lesson_id : String
  completed_at : Option String
  deriving DecidableEq, Repr

/-- A row of table `account_sessions`. -/
structure SessionRow where
  id : Int
  account_id : Int
  session_start : Option String
  session_end : Option String
  duration_seconds : Option Int
  deriving DecidableEq, Repr

/-- The tables of `createTables` that the code below touches, rows in rowid
order, each with the counter that `AUTOINCREMENT` keeps for it. -/
structure Database where
  accounts : List AccountRow := []
  accountsSeq : Int := 0
  progress : List ProgressRow := []
  progressSeq : Int := 0
  sessions : List SessionRow := []
  sessionsSeq : Int := 0
  deriving DecidableEq, Repr

namespace Database

/-- The second query parameter of `GetAccountByNumber` and `AccountExists`:
`fmt.Sprintf("%s %s %s %s", n[0:4], n[4:8], n[8:12], n[12:16])` when
`len(n) == 16`, the empty string otherwise. -/
def formattedNumber (accountNumber : String) : Option String :=
  if len accountNumber = 16 then
    match byteSlice accountNumber 0 4, byteSlice accountNumber 4 8,
          byteSlice accountNumber 8 12, byteSlice accountNumber 12 16 with
    | some a, some b, some c, some d => some (a ++ " " ++ b ++ " " ++ c ++ " " ++ d)
    | _, _, _, _ => none
  else some ""

/-- The condition `account_number = ? OR account_number = ?` with the
parameters `accountNumber` and `formattedNumber accountNumber`. -/
def numberMatches (accountNumber : String) (row : AccountRow) : Bool :=
  row.account_number == accountNumber || some row.account_number == formattedNumber accountNumber

/-- The Go value scanned from a row by `GetAccountByNumber`. -/
def scanAccount (row : AccountRow) : Account :=
  { ID := row.id, AccountNumber := row.account_number, Name := row.name, Email := row.email,
    CreatedAt := row.created_at.getD "", LastLogin := row.last_login.getD "",
    IsActive := row.is_active }

/-- The rows selected by the query of `GetAccountByNumber`. -/
def selectByNumber (d : Database) (accountNumber : String) : List AccountRow :=
  d.accounts.filter (fun row => numberMatches accountNumber row && row.is_active)

/-- Go `(*Database).GetAccountByNumber`. `QueryRow(...).Scan` takes the first
row of the result; the query has no `ORDER BY`, and the rows are taken in rowid
order here. -/
def GetAccountByNumber (d : Database) (accountNumber : String) : Except Error Account :=
  match d.selectByNumber accountNumber with
  | [] => .error Error.ErrAccountNotFound
  | row :: _ => .ok (scanAccount row)

/-- Go `(*Database).AccountExists`: `COUNT(*) > 0` over the rows whose number is
one of the two parameters (active or not). -/
def AccountExists (d : Database) (accountNumber : String) : Bool :=
  decide (((d.accounts.filter (numberMatches accountNumber)).length : Int) > 0)

/-- Go `(*Database).CreateAccount`: the `INSERT` fails on the `UNIQUE`
constraint of `account_number`; otherwise the row gets the next id, the current
time as `created_at`, no `last_login`, and `is_active = 1`, and the id is
written back into the account. -/
def CreateAccount (d : Database) (now : String) (account : Account) :
    Except Error Account × Database :=
  if d.accounts.any (fun row => row.account_number == account.AccountNumber) then
    (.error (Error.other
      "failed to create account: UNIQUE constraint failed: accounts.account_number"), d)
  else
    let id := d.accountsSeq + 1
    (.ok { account with ID := id },
     { d with
       accounts := d.accounts ++
         [{ id := id, account_number := account.AccountNumber, name := account.Name,
            email := account.Email, created_at := some now, last_login := none,
            is_active := true }],
       accountsSeq := id })

/-- Go `(*Database).UpdateLastLogin`. -/
def UpdateLastLogin (d : Database) (now : String) (accountID : Int) : Database :=
  { d with
    accounts := d.accounts.map (fun row =>
      if row.id = accountID then { row with last_login := some now } else row) }

/-- Go `(*Database).GetAccountCount`. -/
def GetAccountCount (d : Database) : Int :=
  ((d.accounts.filter (fun row => row.is_active)).length : Int)

/-- Go `(*Database).SaveProgress`: `INSERT OR REPLACE` deletes the row that
holds the same `(account_id, module_id, lesson_id)` and inserts a new one with
the current time. -/
def SaveProgress (d : Database) (now : String) (accountID : Int) (moduleID lessonID : String) :
    Database :=
  let id := d.progressSeq + 1
  { d with
    progress :=
      d.progress.filter (fun row =>
        !(row.account_id == accountID && row.module_id == moduleID &&
          row.lesson_id == lessonID)) ++
        [{ id := id, account_id := accountID, module_id := moduleID, lesson_id := lessonID,
           completed_at := some now }],
    progressSeq := id }

/-- Go `(*Database).StartSession`: the new row id is returned. -/
def StartSession (d : Database) (now : String) (accountID : Int) : Except Error Int × Database :=
  let id := d.sessionsSeq + 1
  (.ok id,
   { d with
     sessions := d.sessions ++
       [{ id := id, account_id := accountID, session_start := some now, session_end := none,
          duration_seconds := none }],
     sessionsSeq := id })

end Database

/-! ## pkg/auth/store.go -/

/-- The Go struct `Store`; the mutex serialises calls and has no state of its
own in a sequential run. -/
structure Store where
  db : Database := {}
  deriving DecidableEq, Repr

namespace Store

/-- Go `(*Store).CreateAccount`: the result and the store after the call. -/
def CreateAccount (s : Store) (now : String) (name email accountNumber : String) :
    Except Error Account × Store :=
  if s.db.AccountExists accountNumber then
    (.error Error.ErrDuplicateAccount, s)
  else
    let account : Account :=
      { AccountNumber := accountNumber, Name := name, Email := email, IsActive := true }
    match s.db.CreateAccount now account with
    | (.error err, db) => (.error err, { s with db := db })
    | (.ok created, db) => (.ok created, { s with db := db })

/-- Go `(*Store).FindAccount`. -/
def FindAccount (s : Store) (accountNumber : String) : Except Error Account :=
  s.db.GetAccountByNumber accountNumber

/-- Go `(*Store).SignIn`: the account read before `last_login` is updated, and
the store after the update. -/
def SignIn (s : Store) (now : String) (accountNumber : String) : Except Error Account × Store :=
  match s.db.GetAccountByNumber accountNumber with
  | .error err => (.error err, s)
  | .ok account => (.ok account, { s with db := s.db.UpdateLastLogin now account.ID })

/-- The loop of `GenerateUniqueAccountNumber` with `fuel = 100 - attempts`
iterations left. `generator` is the closure passed in, `g` its state. The Go
result `(string, error)` is a pair, `none` being the `nil` error. -/
def generateLoop {γ : Type} (s : Store) (generator : γ → String × γ) :
    Nat → γ → (String × Option Error) × γ
  | 0, g =>
    (("", some (Error.other "failed to generate unique account number after 100 attempts")), g)
  | fuel + 1, g =>
    let r := generator g
    if s.db.AccountExists r.1 then generateLoop s generator fuel r.2
    else ((r.1, none), r.2)

/-- Go `(*Store).GenerateUniqueAccountNumber`: the result and the state of the
generator after the calls made to it. -/
def GenerateUniqueAccountNumber {γ : Type} (s : Store) (generator : γ → String × γ) (g : γ) :
    (String × Option Error) × γ :=
  generateLoop s generator 100 g

/-- Go `(*Store).GetAccountCount`. -/
def GetAccountCount (s : Store) : Int := s.db.GetAccountCount

/-- Go `(*Store).SaveProgress`. -/
def SaveProgress (s : Store) (now : String) (accountID : Int) (moduleID lessonID : String) :
    Store :=
  { s with db := s.db.SaveProgress now accountID moduleID lessonID }

/-- Go `(*Store).StartSession`. -/
def StartSession (s : Store) (now : String) (accountID : Int) : Except Error Int × Store :=
  let r := s.db.StartSession now accountID
  (r.1, { s with db := r.2 })

end Store

/-! ## Random numbers and `generateAccountNumber` (pkg/app/app.go, main.go) -/

/-- The global source of `math/rand`: `draws k` decides the outcome of the
`k`-th draw, `pos` counts the draws made so far. -/
structure Rand where
  draws : Nat → Nat
  pos : Nat

/-- Go `rand.Intn(n)`: a value in `[0, n)` decided by the next draw. -/
def Rand.Intn (r : Rand) (n : Nat) : Nat × Rand :=
  (r.draws r.pos % n, { r with pos := r.pos + 1 })

/-- The body of the loop `for i := 1; i < 16; i++` of `generateAccountNumber`,
run for the `count` values of `i` from `i` on; `b` is the `strings.Builder`. -/
def generateDigits : Nat → Nat → String → Rand → String × Rand
  | 0, _, b, r => (b, r)
  | count + 1, i, b, r =>
    let b1 := if i % 4 = 0 then b ++ " " else b
    let d := r.Intn 10
    generateDigits count (i + 1) (b1 ++ toString d.1) d.2

/-- Go `generateAccountNumber` (the same function in `pkg/app/app.go` and in
`main.go`): `fmt.Sprintf("%d", n)` is the decimal numeral of `n`. -/
def generateAccountNumber (r : Rand) : String × Rand :=
  let first := r.Intn 9
  generateDigits 15 1 ("" ++ toString (first.1 + 1)) first.2

/-! ## Key messages and text inputs (bubbletea, bubbles/textinput)

These two are external libraries. What follows is the part of their behaviour
that the sources rely on: a text input passes runes through its sanitiser
before it stores them, both when they are typed and in `SetValue`. -/

/-- A `tea.KeyMsg`: either typed runes (`tea.KeyRunes`, and the space key) or
one of the other keys, given by the name `String()` prints for it (`"enter"`,
`"tab"`, `"ctrl+c"`, ...). -/
inductive KeyMsg where
  | KeyRunes (runes : List Char)
  | special (name : String)
  deriving DecidableEq, Repr

/-- The method `String()` of a key message. -/
def KeyMsg.String : KeyMsg → String
  | .KeyRunes runes => String.mk runes
  | .special name => name

/-- The fields of `textinput.Model` that the application sets or reads. -/
structure TextInput where
  Placeholder : String := ""
  CharLimit : Int := 0
  Width : Int := 0
  Prompt : String := "> "
  value : List Char := []
  focus : Bool := false
  pos : Nat := 0
  deriving DecidableEq, Repr

namespace TextInput

/-- The constructor `textinput.New()`. -/
def New : TextInput := {}

/-- The method `Value()`. -/
def Value (t : TextInput) : String := String.mk t.value

/-- The method `Focus()`; it returns the blink command. -/
def Focus (t : TextInput) : TextInput := { t with focus := true }

/-- The method `Blur()`. -/
def Blur (t : TextInput) : TextInput := { t with focus := false }

/-- Go `unicode.IsControl`: the code points U+0000 to U+001F and U+007F to
U+009F. -/
def isControl (c : Char) : Bool :=
  decide (c.toNat ≤ 31) || (decide (127 ≤ c.toNat) && decide (c.toNat ≤ 159))

/-- What the sanitiser of a text input makes of one rune: U+FFFD (65533, the
rune of a decoding error) is dropped, a carriage return (13), a newline (10)
and a tab (9) become one space, every other control character is dropped, and
any other rune is kept. -/
def sanitizeRune (c : Char) : List Char :=
  if c.toNat = 65533 then []
  else if c.toNat = 13 ∨ c.toNat = 10 then [' ']
  else if c.toNat = 9 then [' ']
  else if isControl c then []
  else [c]

/-- The sanitiser of a text input, rune by rune. -/
def sanitize (runes : List Char) : List Char :=
  (runes.map sanitizeRune).flatten

/-- The method `SetValue(s)`: the runes are sanitised, the value is cut at
`CharLimit` and the cursor is kept inside it. -/
def SetValue (t : TextInput) (s : String) : TextInput :=
  let runes := if t.CharLimit > 0 ∧ ((sanitize s.data).length : Int) > t.CharLimit
    then (sanitize s.data).take t.CharLimit.toNat else sanitize s.data
  let pos := if (t.pos = 0 ∧ t.value.length = 0) ∨ t.pos > runes.length
    then runes.length else t.pos
  { t with value := runes, pos := pos }

/-- Typed runes are sanitised and inserted at the cursor, as far as
`CharLimit` leaves room. -/
def insertRunes (t : TextInput) (runes : List Char) : TextInput :=
  if t.CharLimit > 0 ∧ t.CharLimit - (t.value.length : Int) ≤ 0 then t
  else
    let paste := if t.CharLimit > 0
      then (sanitize runes).take (t.CharLimit - (t.value.length : Int)).toNat
      else sanitize runes
    { t with value := t.value.take t.pos ++ paste ++ t.value.drop t.pos,
             pos := t.pos + paste.length }

/-- The method `Update(msg)` for a key message: an input without focus ignores
it; runes are inserted; the editing keys move the cursor or delete; any other
key leaves the value alone. -/
def Update (t : TextInput) (msg : KeyMsg) : TextInput × Cmd :=
  if !t.focus then (t, Cmd.nil)
  else
    match msg with
    | .KeyRunes runes => (t.insertRunes runes, Cmd.input)
    | .special name =>
      if name = "backspace" ∨ name = "ctrl+h" then
        (if t.pos > 0 then { t with value := t.value.eraseIdx (t.pos - 1), pos := t.pos - 1 }
         else t, Cmd.input)
      else if name = "delete" ∨ name = "ctrl+d" then
        ({ t with value := t.value.eraseIdx t.pos }, Cmd.input)
      else if name = "left" ∨ name = "ctrl+b" then
        ({ t with pos := t.pos - 1 }, Cmd.input)
      else if name = "right" ∨ name = "ctrl+f" then
        (if t.pos < t.value.length then { t with pos := t.pos + 1 } else t, Cmd.input)
      else if name = "home" ∨ name = "ctrl+a" then
        ({ t with pos := 0 }, Cmd.input)
      else if name = "end" ∨ name = "ctrl+e" then
        ({ t with pos := t.value.length }, Cmd.input)
      else if name = "ctrl+k" then
        ({ t with value := t.value.take t.pos }, Cmd.input)
      else if name = "ctrl+u" then
        ({ t with value := t.value.drop t.pos, pos := 0 }, Cmd.input)
      else (t, Cmd.input)

end TextInput

/-! ## pkg/modules/types.go -/

/-- The Go struct `Lesson`; `Duration` in minutes. The exercise, which only
rendering fills in, is left out. -/
structure Lesson where
  ID : String := ""
  Title : String := ""
  Description : String := ""
  Content : String := ""
  CodeExample : String := ""
  IsCompleted : Bool := false
  Duration : Nat := 0
  deriving DecidableEq, Repr

/-- The Go struct `Module`; `Duration` in minutes. `Progress`, a float that is
zero in every module, is left out. -/
structure Module where
  ID : String := ""
  Title : String := ""
  Description : String := ""
  Category : String := ""
  Duration : Nat := 0
  Difficulty : String := ""
  Lessons : List Lesson := []
  IsCompleted : Bool := false
  Icon : String := ""
  deriving DecidableEq, Repr

/-- Go `GetAvailableModules`. -/
def GetAvailableModules : List Module :=
  [
    { ID := "basics", Title := "PowerShell Basics",
      Description := "Learn the fundamentals of PowerShell scripting",
      Category := "Foundation", Duration := 120, Difficulty := "Beginner", Icon := "📚",
      Lessons :=
        [
          { ID := "basics-1", Title := "Introduction to PowerShell",
            Description := "Understanding what PowerShell is and why it's powerful",
            Duration := 15 },
          { ID := "basics-2", Title := "Variables and Data Types",
            Description := "Working with variables, strings, numbers, and arrays",
            Duration := 20 },
          { ID := "basics-3", Title := "Basic Cmdlets",
            Description := "Essential PowerShell commands you need to know",
            Duration := 25 } ] },
    { ID := "active-directory", Title := "Active Directory Management",
      Description := "Master AD administration with PowerShell",
      Category := "On-Premise", Duration := 180, Difficulty := "Intermediate", Icon := "🏢",
      Lessons :=
        [
          { ID := "ad-1", Title := "AD Module Overview",
            Description := "Introduction to the Active Directory PowerShell module",
            Duration := 20 },
          { ID := "ad-2", Title := "User Management",
            Description := "Creating, modifying, and managing AD users",
            Duration := 30 },
          { ID := "ad-3", Title := "Group Management",
            Description := "Working with AD groups and memberships",
            Duration := 25 } ] },
    { ID := "msgraph", Title := "Microsoft Graph PowerShell",
      Description := "Modern cloud management with MS Graph",
      Category := "Cloud", Duration := 240, Difficulty := "Advanced", Icon := "☁️",
      Lessons :=
        [
          { ID := "graph-1", Title := "Graph API Fundamentals",
            Description := "Understanding Microsoft Graph and authentication",
            Duration := 30 },
          { ID := "graph-2", Title := "User and Group Management",
            Description := "Managing Azure AD/Entra ID resources",
            Duration := 35 } ] },
    { ID := "scripting", Title := "Advanced Scripting",
      Description := "Build robust PowerShell scripts and tools",
      Category := "Advanced", Duration := 300, Difficulty := "Advanced", Icon := "🚀",
      Lessons :=
        [
          { ID := "script-1", Title := "Functions and Modules",
            Description := "Creating reusable PowerShell code",
            Duration := 40 },
          { ID := "script-2", Title := "Error Handling",
            Description := "Implementing robust error handling",
            Duration := 30 } ] },
    { ID := "automation", Title := "Automation & DevOps",
      Description := "Automate everything with PowerShell",
      Category := "DevOps", Duration := 240, Difficulty := "Intermediate", Icon := "⚙️",
      Lessons :=
        [
          { ID := "auto-1", Title := "Scheduled Tasks",
            Description := "Automating scripts with Task Scheduler",
            Duration := 25 },
          { ID := "auto-2", Title := "CI/CD Pipelines",
            Description := "PowerShell in modern DevOps workflows",
            Duration := 35 } ] } ]

/-! ## pkg/views -/

/-- The Go struct `DashboardView`. -/
structure DashboardView where
  modules : List Module := []
  selectedModule : Int := 0
  width : Int := 0
  height : Int := 0
  UserName : String := ""
  deriving DecidableEq, Repr

/-- Go `NewDashboardView`. -/
def NewDashboardView (width height : Int) : DashboardView :=
  { modules := GetAvailableModules, width := width, height := height }

/-- Go `NewDashboardViewWithUser`. -/
def NewDashboardViewWithUser (width height : Int) (userName : String) : DashboardView :=
  { modules := GetAvailableModules, width := width, height := height, UserName := userName }

/-- Go `(*DashboardView).Update`. -/
def DashboardView.Update (d : DashboardView) (key : String) : DashboardView :=
  if key = "left" ∨ key = "h" then
    if d.selectedModule > 0 then { d with selectedModule := d.selectedModule - 1 } else d
  else if key = "right" ∨ key = "l" then
    if d.selectedModule < (d.modules.length : Int) - 1 then
      { d with selectedModule := d.selectedModule + 1 } else d
  else if key = "up" ∨ key = "k" then
    if d.selectedModule ≥ 3 then { d with selectedModule := d.selectedModule - 3 } else d
  else if key = "down" ∨ key = "j" then
    if d.selectedModule < (d.modules.length : Int) - 3 then
      { d with selectedModule := d.selectedModule + 3 } else d
  else d

/-- Go `(*DashboardView).GetSelectedModule`; `none` is the `nil` result. -/
def DashboardView.GetSelectedModule (d : DashboardView) : Option Module :=
  if d.selectedModule ≥ 0 ∧ d.selectedModule < (d.modules.length : Int) then
    d.modules[d.selectedModule.toNat]?
  else none

/-- The Go struct `LessonView`; `module` and `lesson` are pointers in the
source and are carried by value. -/
structure LessonView where
  module : Module
  currentLesson : Int := 0
  lesson : Lesson
  width : Int := 0
  height : Int := 0
  showHints : Bool := false
  currentHint : Int := 0
  userCode : String := ""
  outputBuffer : String := ""
  isRunning : Bool := false
  activeTab : Int := 0
  deriving DecidableEq, Repr

/-- Go `NewLessonView`; `none` is the run-time panic of `module.Lessons[0]` on
a module without lessons. -/
def NewLessonView (module : Module) (width height : Int) : Option LessonView :=
  match module.Lessons with
  | [] => none
  | first :: _ =>
    some { module := module, currentLesson := 0, lesson := first, width := width,
           height := height, activeTab := 0 }

/-- The element `l.module.Lessons[i]`; `none` is the run-time panic of an index
out of range. -/
def lessonAt (module : Module) (i : Int) : Option Lesson :=
  if i < 0 then none else module.Lessons[i.toNat]?

/-- Go `(*LessonView).Update`; `%` is Go's remainder, which truncates. `none`
is a run-time panic. -/
def LessonView.Update (l : LessonView) (key : String) : Option LessonView :=
  if key = "tab" then
    some { l with activeTab := Int.tmod (l.activeTab + 1) 3 }
  else if key = "shift+tab" then
    let t := l.activeTab - 1
    some { l with activeTab := if t < 0 then 2 else t }
  else if key = "?" then
    some { l with showHints := !l.showHints }
  else if key = "n" then
    if l.currentLesson < (l.module.Lessons.length : Int) - 1 then
      (lessonAt l.module (l.currentLesson + 1)).map (fun lesson =>
        { l with currentLesson := l.currentLesson + 1, lesson := lesson, showHints := false,
                 currentHint := 0 })
    else some l
  else if key = "p" then
    if l.currentLesson > 0 then
      (lessonAt l.module (l.currentLesson - 1)).map (fun lesson =>
        { l with currentLesson := l.currentLesson - 1, lesson := lesson, showHints := false,
                 currentHint := 0 })
    else some l
  else if key = "r" then
    some { l with
      isRunning := false,
      outputBuffer := "PS C:\\> " ++ l.userCode ++ "\n\n" ++
        "# Output will appear here when connected to PowerShell runtime\n" ++
        "# This is a simulation for now" }
  else some l

/-- The Go struct `SignInView`. -/
structure SignInView where
  AccountInput : TextInput
  width : Int := 0
  height : Int := 0
  error : String := ""
  deriving DecidableEq, Repr

/-- Go `NewSignInView`. -/
def NewSignInView (width height : Int) : SignInView :=
  let accountInput : TextInput := { TextInput.New with Placeholder := "1234 5678 9012 3456" }
  let accountInput := accountInput.Focus
  let accountInput : TextInput := { accountInput with CharLimit := 19, Width := 30, Prompt := "" }
  { AccountInput := accountInput, width := width, height := height }

/-- Go `(*SignInView).validateAccount`: the view with its error set or
cleared, and the verdict. -/
def SignInView.validateAccount (s : SignInView) : SignInView × Bool :=
  let cleaned := removeSpaces s.AccountInput.Value
  if len cleaned ≠ 16 then
    ({ s with error := "Account number must be exactly 16 digits" }, false)
  else if cleaned.data.any (fun c => c < '0' ∨ c > '9') then
    ({ s with error := "Account number must contain only digits" }, false)
  else ({ s with error := "" }, true)

/-- Go `(*SignInView).GetAccountNumber`. -/
def SignInView.GetAccountNumber (s : SignInView) : String :=
  removeSpaces s.AccountInput.Value

/-- Go `(*SignInView).SetError`. -/
def SignInView.SetError (s : SignInView) (err : String) : SignInView :=
  { s with error := err }

/-! ## pkg/app -/

/-- Go `FocusName`. -/
abbrev FocusName : Int := 0
/-- Go `FocusEmail`. -/
abbrev FocusEmail : Int := 1
/-- Go `FocusDisplayInfo`. -/
abbrev FocusDisplayInfo : Int := 2

/-- The Go struct `Model`. The objects behind its pointers (menu manager,
views, store, account) are carried by value. -/
structure Model where
  Flames : List String := []
  AppState : Int := 0
  PreviousState : Int := 0
  MenuCursor : Int := 0
  TerminalWidth : Int := 0
  TerminalHeight : Int := 0
  NameInput : TextInput := {}
  EmailInput : TextInput := {}
  GeneratedAccountNumber : String := ""
  FocusedField : Int := 0
  Quit : Bool := false
  ShowHelp : Bool := false
  MenuManager : MenuManager
  ModuleExplorerSidebarCursor : Int := 0
  ModuleExplorerSidebarOptions : List String := []
  ModuleExplorerContent : String := ""
  Dashboard : Option DashboardView := none
  LessonView : Option LessonView := none
  SignInView : Option SignInView := none
  CurrentModule : Option Module := none
  AnimationFrame : Int := 0
  ShowAccountWarning : Bool := false
  AccountStore : Option Store := none
  CurrentAccount : Option Account := none
  SessionID : Int := 0

/-- Errors of the SQLite driver (I/O, a file locked by another session) at the
store calls that `Update` makes: for each call the error it returns, `none`
where the statement runs as the tables say. A call that fails leaves the
tables as they were. -/
structure Faults where
  generate : Option Error := none
  createAccount : Option Error := none
  signIn : Option Error := none
  startSession : Option Error := none

/-- What one call of `Update` takes from outside the model: the random source,
the clock of the database, the random recolouring of a flame line (by line
index), the one point the Go specification leaves open: whether the
operand `m` of `return m, m.X.Focus()` is read after the call, which writes to
`m.X`, or before it, and the driver errors of this step. -/
structure Env where
  rand : Rand
  now : String
  paint : Nat → String → String
  readAfterCalls : Bool
  faults : Faults := {}

/-- The call `m.AccountStore.GenerateUniqueAccountNumber(generateAccountNumber)`
as `Update` sees it: a driver error in `AccountExists` is returned with the
empty string. -/
def callGenerate (env : Env) (store : Store) : String × Option Error :=
  match env.faults.generate with
  | some err => ("", some err)
  | none => (store.GenerateUniqueAccountNumber generateAccountNumber env.rand).1

/-- The call `m.AccountStore.CreateAccount(...)` as `Update` sees it. -/
def callCreateAccount (env : Env) (store : Store) (name email accountNumber : String) :
    Except Error Account × Store :=
  match env.faults.createAccount with
  | some err => (.error err, store)
  | none => store.CreateAccount env.now name email accountNumber

/-- The call `m.AccountStore.SignIn(accountNumber)` as `Update` sees it. -/
def callSignIn (env : Env) (store : Store) (accountNumber : String) :
    Except Error Account × Store :=
  match env.faults.signIn with
  | some err => (.error err, store)
  | none => store.SignIn env.now accountNumber

/-- The call `m.AccountStore.StartSession(account.ID)` as `Update` sees it. -/
def callStartSession (env : Env) (store : Store) (accountID : Int) :
    Except Error Int × Store :=
  match env.faults.startSession with
  | some err => (.error err, store)
  | none => store.StartSession env.now accountID

/-- A message to `Update`: the three kinds it handles and any other. -/
inductive Msg where
  | WindowSizeMsg (Width Height : Int)
  | tickMsg
  | KeyMsg (key : KeyMsg)
  | other

/-- Go `NewModel`. The coloured flame lines (random) and the outcome of
`auth.NewStore()` (`none` when it failed) are given. -/
def NewModel (colorizedFlames : List String) (accountStore : Option Store) : Model :=
  let nameInput : TextInput := { TextInput.New with Placeholder := "Your Name" }
  let nameInput := nameInput.Focus
  let nameInput : TextInput := { nameInput with CharLimit := 50, Width := 30, Prompt := "" }
  let emailInput : TextInput :=
    { TextInput.New with Placeholder := "Your Email", CharLimit := 100, Width := 30,
                         Prompt := "" }
  { Flames := colorizedFlames,
    AppState := StateIntro,
    MenuCursor := 0,
    NameInput := nameInput,
    EmailInput := emailInput,
    FocusedField := FocusName,
    MenuManager := MenuManager.NewMenuManager,
    ModuleExplorerSidebarOptions := ["Learn", "Studio", "Settings", "Exit"],
    ModuleExplorerSidebarCursor := 0,
    ModuleExplorerContent := "Welcome to PowerHell! Select a module from the sidebar.",
    AccountStore := accountStore }

/-- Go `animateFlames`: every line is stripped of its colours and recoloured
at random. -/
def animateFlames (env : Env) (currentFlames : List String) : List String :=
  currentFlames.enum.map (fun p => env.paint p.1 p.2)

/-- How the `switch m.AppState` of the key handler is left: by a `return`, or
by falling through to the common key handling below it. -/
inductive Flow where
  | ret (r : Model × Cmd)
  | next (m : Model)

/-- The statements `m.Quit = true; return m, tea.Quit`. -/
def quitNow (m : Model) : Model × Cmd := ({ m with Quit := true }, Cmd.quit)

/-- The value of `return m, m.X.Focus()`: `before` is `m` before the call,
`after` is `m` once `Focus` has written to it. -/
def returnWithFocus (env : Env) (before after : Model) : Model × Cmd :=
  (if env.readAfterCalls then after else before, Cmd.blink)

/-- The case `StateIntro` of `Update`. -/
def updateIntro (m : Model) (key : String) : Flow :=
  if key = "enter" then
    .ret ({ m with AppState := StateAuthMenu,
                   MenuManager := (m.MenuManager.SetCurrentMenu StateAuthMenu).2,
                   MenuCursor := 0 }, Cmd.nil)
  else if key = "ctrl+c" ∨ key = "q" then .ret (quitNow m)
  else if key = "h" then .next { m with ShowHelp := !m.ShowHelp }
  else .next m

/-- The end of case `StateAccountCreation`: the key goes to the focused
field. -/
def fieldInput (m : Model) (msg : KeyMsg) : Flow :=
  if m.FocusedField = FocusName then
    let r := m.NameInput.Update msg
    .ret ({ m with NameInput := r.1 }, r.2)
  else if m.FocusedField = FocusEmail then
    let r := m.EmailInput.Update msg
    .ret ({ m with EmailInput := r.1 }, r.2)
  else .ret (m, Cmd.nil)

/-- The statements that end a successful `enter` on the email field. -/
def showAccountInfo (m : Model) : Flow :=
  .ret ({ m with FocusedField := FocusDisplayInfo, NameInput := m.NameInput.Blur,
                 EmailInput := m.EmailInput.Blur }, Cmd.nil)

/-- The case `StateAccountCreation` of `Update`. -/
def updateAccountCreation (env : Env) (m : Model) (msg : KeyMsg) : Flow :=
  let key := msg.String
  if key = "ctrl+c" ∨ key = "q" then .ret (quitNow m)
  else if key = "enter" then
    if m.FocusedField = FocusDisplayInfo then
      let userName := match m.CurrentAccount with
        | some account => account.Name
        | none => m.NameInput.Value
      .ret ({ m with AppState := StateDashboard,
                     Dashboard := some (NewDashboardViewWithUser m.TerminalWidth
                       m.TerminalHeight userName),
                     ShowAccountWarning := false }, Cmd.nil)
    else if m.FocusedField = FocusEmail ∧ m.NameInput.Value ≠ "" ∧ m.EmailInput.Value ≠ "" then
      match m.AccountStore with
      | some store =>
        match callGenerate env store with
        | (_, some _) => .ret (m, Cmd.nil)
        | (accountNumber, none) =>
          let m1 := { m with GeneratedAccountNumber := accountNumber }
          match callCreateAccount env store m1.NameInput.Value m1.EmailInput.Value
              m1.GeneratedAccountNumber with
          | (.error _, store1) => .ret ({ m1 with AccountStore := some store1 }, Cmd.nil)
          | (.ok account, store1) =>
            showAccountInfo { m1 with AccountStore := some store1,
                                      CurrentAccount := some account }
      | none =>
        showAccountInfo { m with GeneratedAccountNumber := (generateAccountNumber env.rand).1 }
    else if m.FocusedField = FocusName then
      let m1 := { m with FocusedField := FocusEmail, NameInput := m.NameInput.Blur }
      .ret (returnWithFocus env m1 { m1 with EmailInput := m1.EmailInput.Focus })
    else fieldInput m msg
  else if key = "tab" ∨ key = "shift+tab" ∨ key = "up" ∨ key = "down" then
    if m.FocusedField = FocusDisplayInfo then .ret (m, Cmd.nil)
    else
      let f := if key = "up" ∨ key = "shift+tab" then m.FocusedField - 1 else m.FocusedField + 1
      let f := if f > FocusEmail then FocusName else if f < FocusName then FocusEmail else f
      if f = FocusName then
        .ret ({ m with FocusedField := f, EmailInput := m.EmailInput.Blur,
                       NameInput := m.NameInput.Focus }, Cmd.blink)
      else
        .ret ({ m with FocusedField := f, NameInput := m.NameInput.Blur,
                       EmailInput := m.EmailInput.Focus }, Cmd.blink)
  else fieldInput m msg

/-- The case `StateAuthMenu` of `Update`. -/
def updateAuthMenu (env : Env) (m : Model) (key : String) : Flow :=
  let m := if m.MenuManager.GetCurrentState ≠ StateAuthMenu then
      { m with MenuManager := (m.MenuManager.SetCurrentMenu StateAuthMenu).2, MenuCursor := 0 }
    else m
  if key = "ctrl+c" ∨ key = "q" then .ret (quitNow m)
  else if key = "h" then .next { m with ShowHelp := !m.ShowHelp }
  else if key = "up" ∨ key = "k" then
    .next (if m.MenuCursor > 0 then { m with MenuCursor := m.MenuCursor - 1 } else m)
  else if key = "down" ∨ key = "j" then
    let menuOptions := m.MenuManager.GetMenuOptionsAsStrings
    .next (if m.MenuCursor < (menuOptions.length : Int) - 1 then
      { m with MenuCursor := m.MenuCursor + 1 } else m)
  else if key = "enter" then
    let result := m.MenuManager.HandleSelection m.MenuCursor
    match result.Action with
    | ActionNavigate =>
      let m1 := { m with AppState := result.NextState, MenuCursor := 0 }
      if result.NextState = StateAccountCreation then
        let m2 := { m1 with FocusedField := FocusName,
                            NameInput := m1.NameInput.SetValue "",
                            EmailInput := m1.EmailInput.SetValue "",
                            GeneratedAccountNumber := "" }
        .ret (returnWithFocus env m2 { m2 with NameInput := m2.NameInput.Focus })
      else if result.NextState = StateSignInPlaceholder then
        .ret ({ m1 with AppState := StateSignIn,
                        SignInView := some (NewSignInView m1.TerminalWidth m1.TerminalHeight) },
              Cmd.nil)
      else .next m1
    | ActionExit => .ret (quitNow m)
    | _ => .next m
  else .next m

/-- The case `StateModuleExplorer` of `Update`; `none` is the run-time panic of
`m.ModuleExplorerSidebarOptions[m.ModuleExplorerSidebarCursor]` out of range. -/
def updateModuleExplorer (m : Model) (key : String) : Option Flow :=
  if key = "ctrl+c" ∨ key = "q" then some (.ret (quitNow m))
  else if key = "up" ∨ key = "k" then
    some (.next (if m.ModuleExplorerSidebarCursor > 0 then
      { m with ModuleExplorerSidebarCursor := m.ModuleExplorerSidebarCursor - 1 } else m))
  else if key = "down" ∨ key = "j" then
    some (.next (if m.ModuleExplorerSidebarCursor <
        (m.ModuleExplorerSidebarOptions.length : Int) - 1 then
      { m with ModuleExplorerSidebarCursor := m.ModuleExplorerSidebarCursor + 1 } else m))
  else if key = "enter" then
    if m.ModuleExplorerSidebarCursor < 0 then none
    else
      match m.ModuleExplorerSidebarOptions[m.ModuleExplorerSidebarCursor.toNat]? with
      | none => none
      | some selectedModule =>
        if selectedModule = "Learn" then
          some (.next { m with
            ModuleExplorerSidebarOptions :=
              ["On-Premise Learning", "MSGraph Module", "Exchange Module",
               "HTTP Client (Invoke-WebRequest, Graph API)",
               "Custom & Popular Modules (EntraExporter)", "PowerShell SDK Learning", "Exit"],
            ModuleExplorerSidebarCursor := 0,
            ModuleExplorerContent := "Select a learning module." })
        else if selectedModule = "Exit" then some (.ret (quitNow m))
        else
          some (.next { m with
            ModuleExplorerContent := "Selected: " ++ selectedModule ++ "\n(Press Q to quit)" })
  else some (.next m)

/-- The case `StateDashboard` of `Update`; `none` is the run-time panic of
`NewLessonView` on a module without lessons. -/
def updateDashboard (m : Model) (key : String) : Option Flow :=
  let dashboard := match m.Dashboard with
    | some d => d
    | none =>
      let userName := match m.CurrentAccount with
        | some account => account.Name
        | none => ""
      NewDashboardViewWithUser m.TerminalWidth m.TerminalHeight userName
  let m := { m with Dashboard := some dashboard }
  if key = "ctrl+c" ∨ key = "q" then some (.ret (quitNow m))
  else if key = "h" then some (.next { m with ShowHelp := !m.ShowHelp })
  else if key = "enter" then
    match dashboard.GetSelectedModule with
    | some selectedModule =>
      (NewLessonView selectedModule m.TerminalWidth m.TerminalHeight).map (fun lessonView =>
        .next { m with CurrentModule := some selectedModule, LessonView := some lessonView,
                       AppState := StateLesson })
    | none => some (.next m)
  else
    some (.next (if !m.ShowHelp then { m with Dashboard := some (dashboard.Update key) } else m))

/-- The case `StateLesson` of `Update`; `none` is a run-time panic inside
`LessonView.Update`. -/
def updateLesson (m : Model) (key : String) : Option Flow :=
  match m.LessonView with
  | none => some (.ret (m, Cmd.nil))
  | some lessonView =>
    if key = "ctrl+c" then some (.ret (quitNow m))
    else if key = "h" then some (.next { m with ShowHelp := !m.ShowHelp })
    else if key = "q" then some (.next { m with AppState := StateDashboard })
    else if !m.ShowHelp then
      (lessonView.Update key).map (fun l => .next { m with LessonView := some l })
    else some (.next m)

/-- The case `StateSignIn` of `Update`. -/
def updateSignIn (env : Env) (m : Model) (msg : KeyMsg) : Flow :=
  let key := msg.String
  let signInView := match m.SignInView with
    | some v => v
    | none => NewSignInView m.TerminalWidth m.TerminalHeight
  let m := { m with SignInView := some signInView }
  if key = "ctrl+c" then .ret (quitNow m)
  else if key = "esc" then .next { m with AppState := StateAuthMenu, SignInView := none }
  else if key = "enter" then
    let accountNumber := signInView.GetAccountNumber
    if accountNumber ≠ "" ∧ len accountNumber = 16 then
      match m.AccountStore with
      | some store =>
        match callSignIn env store accountNumber with
        | (.error Error.ErrAccountNotFound, store1) =>
          .next { m with AccountStore := some store1,
                         SignInView := some (signInView.SetError
                           "Account not found. Please check your account number.") }
        | (.error _, store1) =>
          .next { m with AccountStore := some store1,
                         SignInView := some (signInView.SetError
                           "Sign in failed. Please try again.") }
        | (.ok account, store1) =>
          let session := callStartSession env store1 account.ID
          let sessionID := match session.1 with
            | .ok id => id
            | .error _ => m.SessionID
          .next { m with AccountStore := some session.2,
                         CurrentAccount := some account,
                         SessionID := sessionID,
                         AppState := StateDashboard,
                         Dashboard := some (NewDashboardViewWithUser m.TerminalWidth
                           m.TerminalHeight account.Name) }
      | none =>
        .next { m with AppState := StateDashboard,
                       Dashboard := some (NewDashboardView m.TerminalWidth m.TerminalHeight) }
    else
      .next { m with SignInView := some (signInView.SetError
                "Please enter a valid 16-digit account number") }
  else
    let r := signInView.AccountInput.Update msg
    .ret ({ m with SignInView := some { signInView with AccountInput := r.1 } }, r.2)

/-- The `switch m.AppState` of the key handler; a state without a case falls
through. -/
def updateKeyState (env : Env) (m : Model) (msg : KeyMsg) : Option Flow :=
  if m.AppState = StateIntro then some (updateIntro m msg.String)
  else if m.AppState = StateAccountCreation then some (updateAccountCreation env m msg)
  else if m.AppState = StateAuthMenu then some (updateAuthMenu env m msg.String)
  else if m.AppState = StateModuleExplorer then updateModuleExplorer m msg.String
  else if m.AppState = StateDashboard then updateDashboard m msg.String
  else if m.AppState = StateLesson then updateLesson m msg.String
  else if m.AppState = StateSignIn then some (updateSignIn env m msg)
  else some (.next m)

/-- The common key handling after the `switch`, and the final
`return m, cmd`. -/
def commonKeys (m : Model) (key : String) : Model × Cmd :=
  if key = "q" ∨ key = "ctrl+c" then
    if m.AppState ≠ StateAccountCreation ∨ m.FocusedField = FocusDisplayInfo then quitNow m
    else (m, Cmd.nil)
  else (m, Cmd.nil)

/-- The case `tea.WindowSizeMsg` of `Update`; `none` is the run-time panic of
`NewLessonView` on a module without lessons. -/
def updateWindowSize (m : Model) (width height : Int) : Option (Model × Cmd) :=
  let m := { m with TerminalWidth := width, TerminalHeight := height }
  let m := match m.Dashboard with
    | some dashboard =>
      let userName := match m.CurrentAccount with
        | some account => account.Name
        | none => if dashboard.UserName ≠ "" then dashboard.UserName else ""
      { m with Dashboard := some (NewDashboardViewWithUser m.TerminalWidth m.TerminalHeight
                 userName) }
    | none => m
  match m.LessonView, m.CurrentModule with
  | some _, some currentModule =>
    (NewLessonView currentModule m.TerminalWidth m.TerminalHeight).map (fun lessonView =>
      ({ m with LessonView := some lessonView }, Cmd.nil))
  | _, _ => some (m, Cmd.nil)

/-- The value a Go `int` takes for the arithmetic result `x`: 64 bits in two's
complement, so a result past either end wraps around. -/
def wrapInt (x : Int) : Int := (x + 2 ^ 63) % 2 ^ 64 - 2 ^ 63

/-- The case `tickMsg` of `Update`; `m.AnimationFrame++` wraps like every Go
`int`. -/
def updateTick (env : Env) (m : Model) : Model × Cmd :=
  if m.AppState = StateIntro then
    ({ m with Flames := animateFlames env m.Flames }, Cmd.tick)
  else if m.ShowAccountWarning then
    ({ m with AnimationFrame := wrapInt (m.AnimationFrame + 1) }, Cmd.tick)
  else (m, Cmd.nil)

/-- Go `(Model).Update`: the model and the command it returns; `none` is a
run-time panic. -/
def Update (env : Env) (m : Model) (msg : Msg) : Option (Model × Cmd) :=
  match msg with
  | .WindowSizeMsg width height => updateWindowSize m width height
  | .tickMsg => some (updateTick env m)
  | .KeyMsg key =>
    (updateKeyState env m key).map (fun flow =>
      match flow with
      | .ret r => r
      | .next m1 => commonKeys m1 key.String)
  | .other => some (m, Cmd.nil)

/-- The models after each message of a run from `m`, one `Env` per message;
`none` when a step panics. -/
def run : Model → List (Env × Msg) → Option (List Model)
  | _, [] => some []
  | m, (env, msg) :: rest =>
    match Update env m msg with
    | none => none
    | some r =>
      match run r.1 rest with
      | none => none
      | some ms => some (r.1 :: ms)

/-! ## Vocabulary of the statements -/

/-- A string of exactly 16 ASCII digits. -/
def isSixteenDigits (d : String) : Prop :=
  d.data.length = 16 ∧ ∀ c ∈ d.data, c.isDigit = true

instance (d : String) : Decidable (isSixteenDigits d) := by
  unfold isSixteenDigits
  exact inferInstance

/-- The grouped form of a 16-digit number: four blocks of four digits separated
by single spaces. -/
def groupedForm (d : String) : String :=
  String.mk (d.data.take 4 ++ [' '] ++ (d.data.drop 4).take 4 ++ [' '] ++
    (d.data.drop 8).take 4 ++ [' '] ++ d.data.drop 12)

/-- The model a `Flow` carries. -/
def Flow.model : Flow → Model
  | .ret r => r.1
  | .next m => m

/-- The invariant of the navigation: the state is one of the six that the
key handler can enter, the menu manager holds the menus of `NewMenuManager` and
its current menu, once set, is the authentication menu, a dashboard shows the
available modules, the current module is one of them, and a lesson view points
at a lesson of its module. -/
structure navInv (m : Model) : Prop where
  state : m.AppState = StateIntro ∨ m.AppState = StateAccountCreation ∨
    m.AppState = StateAuthMenu ∨ m.AppState = StateSignIn ∨ m.AppState = StateDashboard ∨
    m.AppState = StateLesson
  menus : m.MenuManager.menus = MenuManager.NewMenuManager.menus
  current : m.MenuManager.currentMenu = none ∨ m.MenuManager.currentMenu = some NewAuthMenu
  dashboard : ∀ d, m.Dashboard = some d → d.modules = GetAvailableModules
  module : ∀ c, m.CurrentModule = some c → c ∈ GetAvailableModules
  lesson : ∀ l, m.LessonView = some l →
    0 ≤ l.currentLesson ∧ l.currentLesson < (l.module.Lessons.length : Int)

/-- An `Env` with constant draws, for concrete runs. -/
def envZero : Env :=
  { rand := { draws := fun _ => 0, pos := 0 }, now := "t", paint := fun _ line => line,
    readAfterCalls := true }

/-- The message of a key given by name. -/
def keyNamed (name : String) : Env × Msg := (envZero, Msg.KeyMsg (KeyMsg.special name))

/-- The message of one typed rune. -/
def keyRune (c : Char) : Env × Msg := (envZero, Msg.KeyMsg (KeyMsg.KeyRunes [c]))

/-- The keys of a sign-in attempt from the intro screen: `enter`, `down` to
"Login", `enter`, the text rune by rune, `enter`. -/
def signInSession (text : String) : List (Env × Msg) :=
  [keyNamed "enter", keyNamed "down", keyNamed "enter"] ++ text.data.map keyRune ++
    [keyNamed "enter"]

/-- What a run shows of its last model: the state, the error of the sign-in
view and the text in it, and whether a dashboard exists. -/
def signInOutcome (ms : Option (List Model)) :
    Option (Int × Option String × Option String × Bool) :=
  match ms with
  | none => none
  | some l =>
    match l.getLast? with
    | none => none
    | some m =>
      some (m.AppState, m.SignInView.map (fun v => v.error),
        m.SignInView.map (fun v => v.AccountInput.Value), m.Dashboard.isSome)

/-- The model after the last message of a run from `m`, one `Env` per
message; `none` when a step panics. -/
def runLast : Model → List (Env × Msg) → Option Model
  | m, [] => some m
  | m, (env, msg) :: rest =>
    match Update env m msg with
    | none => none
    | some r => runLast r.1 rest

/-- The key `enter`. -/
def enterKey : Msg := Msg.KeyMsg (KeyMsg.special "enter")

/-- The key of one typed rune. -/
def runeKey (c : Char) : Msg := Msg.KeyMsg (KeyMsg.KeyRunes [c])

/-- The messages of a text typed rune by rune. -/
def typeRunes (env : Env) (text : List Char) : List (Env × Msg) :=
  text.map (fun c => (env, runeKey c))

/-- The sign-up scenario from `m0`, key by key, with the model at each of its
seven stops: after `enter` (intro), after `enter` (menu, cursor on "Sign Up"),
after the name is typed, after `enter`, after the email is typed, after
`enter`, after the last `enter`. `none` when a step panics. -/
def signUpStops (env : Env) (m0 : Model) (name email : List Char) : Option (List Model) :=
  match Update env m0 enterKey with
  | none => none
  | some r1 =>
    match Update env r1.1 enterKey with
    | none => none
    | some r2 =>
      match runLast r2.1 (typeRunes env name) with
      | none => none
      | some m3 =>
        match Update env m3 enterKey with
        | none => none
        | some r4 =>
          match runLast r4.1 (typeRunes env email) with
          | none => none
          | some m5 =>
            match Update env m5 enterKey with
            | none => none
            | some r6 =>
              match Update env r6.1 enterKey with
              | none => none
              | some r7 => some [r1.1, r2.1, m3, r4.1, m5, r6.1, r7.1]

/-- A grouped account number: four blocks of four ASCII digits separated by
single spaces. -/
def isGroupedNumber (s : String) : Prop :=
  isSixteenDigits (removeSpaces s) ∧ s = groupedForm (removeSpaces s)

instance (s : String) : Decidable (isGroupedNumber s) := by
  unfold isGroupedNumber
  exact inferInstance

/-- The first rune is one of `'1'..'9'`. -/
def startsNonzero (s : String) : Bool :=
  match s.data with
  | c :: _ => decide ('1' ≤ c) && decide (c ≤ '9')
  | [] => false

/-- A sign-in view with `text` in the account field. -/
def signInViewWith (text : String) : SignInView :=
  { NewSignInView 80 24 with
    AccountInput := (NewSignInView 80 24).AccountInput.SetValue text }

/-- A model in state SignIn over the given store, with `text` in the account
field. -/
def signInModel (store : Option Store) (text : String) : Model :=
  { NewModel [] store with
    AppState := StateSignIn,
    SignInView := some (signInViewWith text) }

/-- A model in state AccountCreation over the given store, with the given
texts in the two fields and the given focus. -/
def accountCreationModel (store : Option Store) (name email : String) (focus : Int) : Model :=
  { NewModel [] store with
    AppState := StateAccountCreation,
    FocusedField := focus,
    NameInput := (NewModel [] store).NameInput.SetValue name,
    EmailInput := ((NewModel [] store).EmailInput.SetValue email).Focus }

/-- An `Env` like `envZero` in which the driver fails the `INSERT` of
`CreateAccount` because the database file is locked. -/
def envLocked : Env :=
  { envZero with faults := { createAccount := some (Error.other "database is locked") } }

/-- The names of the accounts in the store of a model, in row order. -/
def storedNames (m : Model) : List String :=
  match m.AccountStore with
  | some s => s.db.accounts.map (fun row => row.name)
  | none => []

/-- A store that holds one account, created under the grouped number
`"1234 5678 9012 3456"`. -/
def storeWithAnn : Store :=
  (({} : Store).CreateAccount "t0" "Ann" "a@b.com" "1234 5678 9012 3456").2

/-- The keys of the sign-up scenario from the intro screen up to the typed
email, all with `envZero`. -/
def signUpKeys (name email : String) : List (Env × Msg) :=
  [(envZero, enterKey), (envZero, enterKey)] ++ typeRunes envZero name.data ++
    [(envZero, enterKey)] ++ typeRunes envZero email.data

/-! ### Progress rows -/

/-- The `(account_id, module_id, lesson_id)` of a progress row. -/
def ProgressRow.triple (row : ProgressRow) : Int × String × String :=
  (row.account_id, row.module_id, row.lesson_id)

/-- The progress rows of a store that hold the triple `(a, m, l)`, in rowid
order. -/
def Store.progressFor (s : Store) (a : Int) (m l : String) : List ProgressRow :=
  s.db.progress.filter (fun row => decide (row.triple = (a, m, l)))

/-! ### Menus built call by call -/

/-- One call of the four methods that add to a menu. -/
inductive MenuCall (σ : Type) where
  | AddOption (option : MenuOption σ)
  | AddSimpleOption (label : String) (targetState : Int)
  | AddExecuteOption (label description : String) (handler : Option (σ → MenuResult × σ))
  | AddBackOption (label : String) (targetState : Int)

/-- The menu after one call. -/
def MenuCall.apply {σ : Type} (m : BaseMenu σ) : MenuCall σ → BaseMenu σ
  | .AddOption option => m.AddOption option
  | .AddSimpleOption label targetState => m.AddSimpleOption label targetState
  | .AddExecuteOption label description handler => m.AddExecuteOption label description handler
  | .AddBackOption label targetState => m.AddBackOption label targetState

/-- The option that a call inserts. -/
def MenuCall.inserted {σ : Type} : MenuCall σ → MenuOption σ
  | .AddOption option => option
  | .AddSimpleOption label targetState =>
    { Label := label, Action := ActionNavigate, Target := targetState }
  | .AddExecuteOption label description handler =>
    { Label := label, Description := description, Action := ActionExecute, Handler := handler }
  | .AddBackOption label targetState =>
    { Label := label, Action := ActionBack, Target := targetState }

/-- The menu obtained from `NewBaseMenu` by a sequence of calls. -/
def buildMenu {σ : Type} (title description : String) (calls : List (MenuCall σ)) :
    BaseMenu σ :=
  calls.foldl MenuCall.apply (BaseMenu.NewBaseMenu title description)

/-- The back index of a menu is -1 or the index of an option with action
`ActionBack`. -/
def backIndexOk {σ : Type} (m : BaseMenu σ) : Prop :=
  m.GetBackOption = -1 ∨
    (0 ≤ m.GetBackOption ∧ m.GetBackOption < (m.GetOptions.length : Int) ∧
      ∃ option, m.GetOptions[m.GetBackOption.toNat]? = some option ∧ option.Action = ActionBack)

/-! ### Key sequences in the views, and models for concrete resizes and selections -/

/-- The dashboard after a sequence of keys passed to `Update` one by one. -/
def DashboardView.UpdateAll (d : DashboardView) (keys : List String) : DashboardView :=
  keys.foldl DashboardView.Update d

/-- The lesson view after a sequence of keys passed to `Update` one by one;
`none` when a call panics. -/
def LessonView.UpdateAll : LessonView → List String → Option LessonView
  | l, [] => some l
  | l, key :: rest =>
    match l.Update key with
    | none => none
    | some l1 => LessonView.UpdateAll l1 rest

/-- What a lesson view keeps under `Update`: the index is one of a lesson of
the module, `lesson` is the lesson at that index, and the tab is 0, 1 or 2. -/
structure lessonViewOk (l : LessonView) : Prop where
  lower : 0 ≤ l.currentLesson
  upper : l.currentLesson < (l.module.Lessons.length : Int)
  lesson : lessonAt l.module l.currentLesson = some l.lesson
  tab : l.activeTab = 0 ∨ l.activeTab = 1 ∨ l.activeTab = 2

/-- The model after `enter` on the intro screen and `down` twice in the
authentication menu. -/
def exitSelected : Option Model :=
  runLast (NewModel [] none) [keyNamed "enter", keyNamed "down", keyNamed "down"]

/-- A model in state Lesson: the first module with its second lesson open on
the second tab, hints shown, code typed and run, over the dashboard of "Ann"
with the third module selected. -/
def lessonOpenModel : Model :=
  { NewModel [] none with
    AppState := StateLesson,
    Dashboard := some { NewDashboardViewWithUser 80 24 "Ann" with selectedModule := 2 },
    CurrentModule := some (GetAvailableModules.headD {}),
    LessonView := some { module := GetAvailableModules.headD {}, currentLesson := 1,
                         lesson := (GetAvailableModules.headD {}).Lessons.getD 1 {},
                         width := 80, height := 24, showHints := true, currentHint := 1,
                         userCode := "Get-Help", outputBuffer := "PS C:\\> Get-Help",
                         activeTab := 1 } }

/-- The user name that a window resize gives the rebuilt dashboard. -/
def resizeUserName (m : Model) (d : DashboardView) : String :=
  match m.CurrentAccount with
  | some account => account.Name
  | none => d.UserName

/-- What every step keeps besides `navInv`: the account warning is never
switched on, its animation frame never moves, and state Lesson has its lesson
view and its current module. -/
structure viewInv (m : Model) : Prop where
  warning : m.ShowAccountWarning = false
  frame : m.AnimationFrame = 0
  lessonView : m.AppState = StateLesson → m.LessonView ≠ none
  lessonModule : m.AppState = StateLesson → m.CurrentModule ≠ none

/-! ## Theorems: menu selection -/

/-- C2: for every menu and every index below 0 or at least the number of
options, `HandleSelection` returns `MenuResult{Action: ActionNone}` (next state
0, empty message, no data), runs no handler (the state the handlers act on is
untouched) and leaves title, description, options and back index as they
were. -/
theorem handleSelection_out_of_range {σ : Type} (m : BaseMenu σ) (index : Int) (w : σ)
    (h : index < 0 ∨ index ≥ (m.options.length : Int)) :
    (m.HandleSelection index w).1 =
        { Action := ActionNone, NextState := 0, Data := none, Message := "",
          TeaCmd := Cmd.nil } ∧
      (m.HandleSelection index w).2.2 = w ∧
      (m.HandleSelection index w).2.1.title = m.title ∧
      (m.HandleSelection index w).2.1.description = m.description ∧
      (m.HandleSelection index w).2.1.options = m.options ∧
      (m.HandleSelection index w).2.1.backIndex = m.backIndex := by
  unfold BaseMenu.HandleSelection
  rw [if_pos h]
  exact ⟨rfl, rfl, rfl, rfl, rfl, rfl⟩

/-- The instance of `handleSelection_out_of_range` at index 3 of the
authentication menu, which has the three options 0, 1 and 2. -/
theorem handleSelection_out_of_range_witness :
    ((3 : Int) < 0 ∨ (3 : Int) ≥ (NewAuthMenu.options.length : Int)) ∧
      (NewAuthMenu.HandleSelection 3 ()).1 =
        { Action := ActionNone, NextState := 0, Data := none, Message := "",
          TeaCmd := Cmd.nil } ∧
      (NewAuthMenu.HandleSelection 3 ()).2.2 = () ∧
      (NewAuthMenu.HandleSelection 3 ()).2.1.title = NewAuthMenu.title ∧
      (NewAuthMenu.HandleSelection 3 ()).2.1.description = NewAuthMenu.description ∧
      (NewAuthMenu.HandleSelection 3 ()).2.1.options = NewAuthMenu.options ∧
      (NewAuthMenu.HandleSelection 3 ()).2.1.backIndex = NewAuthMenu.backIndex :=
  ⟨by decide, handleSelection_out_of_range NewAuthMenu 3 () (by decide)⟩

/-- C3: for every menu and every index inside the option list, the selected
option exists; if it carries a handler, `HandleSelection` returns exactly what
the handler returns (data included) and leaves the handler state as the
handler left it; if it carries none, the result is built from the option:
its action, its target as next state, and the message `"Selected: "` followed
by its label. -/
theorem handleSelection_in_range {σ : Type} (m : BaseMenu σ) (index : Int) (w : σ)
    (h0 : 0 ≤ index) (h1 : index < (m.options.length : Int)) :
    ∃ option, m.options[index.toNat]? = some option ∧
      (∀ handler, option.Handler = some handler →
        (m.HandleSelection index w).1 = (handler w).1 ∧
        (m.HandleSelection index w).2.2 = (handler w).2) ∧
      (option.Handler = none →
        (m.HandleSelection index w).1 =
          { Action := option.Action, NextState := option.Target, Data := none,
            Message := "Selected: " ++ option.Label, TeaCmd := Cmd.nil } ∧
        (m.HandleSelection index w).2.2 = w) := by
  have hlt : index.toNat < m.options.length := by omega
  refine ⟨m.options[index.toNat], List.getElem?_eq_getElem hlt, ?_, ?_⟩
  · intro handler hh
    unfold BaseMenu.HandleSelection
    rw [if_neg (by omega), List.getElem?_eq_getElem hlt]
    simp [hh]
  · intro hh
    unfold BaseMenu.HandleSelection
    rw [if_neg (by omega), List.getElem?_eq_getElem hlt]
    simp [hh]

/-- The instance of `handleSelection_in_range` at the third option of the
authentication menu. -/
theorem handleSelection_in_range_witness :
    (0 : Int) ≤ 2 ∧ (2 : Int) < (NewAuthMenu.options.length : Int) ∧
    ∃ option, NewAuthMenu.options[(2 : Int).toNat]? = some option ∧
      (∀ handler, option.Handler = some handler →
        (NewAuthMenu.HandleSelection 2 ()).1 = (handler ()).1 ∧
        (NewAuthMenu.HandleSelection 2 ()).2.2 = (handler ()).2) ∧
      (option.Handler = none →
        (NewAuthMenu.HandleSelection 2 ()).1 =
          { Action := option.Action, NextState := option.Target, Data := none,
            Message := "Selected: " ++ option.Label, TeaCmd := Cmd.nil } ∧
        (NewAuthMenu.HandleSelection 2 ()).2.2 = ()) :=
  ⟨by decide, by decide, handleSelection_in_range NewAuthMenu 2 () (by decide) (by decide)⟩

/-! ## Theorems: the account store -/

/-- A row that holds exactly the number asked for makes `AccountExists`
true. -/
theorem accountExists_of_mem (d : Database) (n : String) (row : AccountRow)
    (hmem : row ∈ d.accounts) (hnum : row.account_number = n) :
    d.AccountExists n = true := by
  unfold Database.AccountExists
  have hin : row ∈ d.accounts.filter (Database.numberMatches n) := by
    rw [List.mem_filter]
    refine ⟨hmem, ?_⟩
    simp [Database.numberMatches, hnum]
  have hpos : 0 < (d.accounts.filter (Database.numberMatches n)).length :=
    List.length_pos_of_mem hin
  simp only [gt_iff_lt, decide_eq_true_eq]
  exact_mod_cast hpos

/-- C8: when an account with exactly the number `n` is already stored,
`Store.CreateAccount` with `n` returns `ErrDuplicateAccount` and no account,
the store is the one before the call, and so is `GetAccountCount`. -/
theorem createAccount_duplicate (s : Store) (now name email n : String)
    (h : ∃ row ∈ s.db.accounts, row.account_number = n) :
    (s.CreateAccount now name email n).1 = .error Error.ErrDuplicateAccount ∧
      (s.CreateAccount now name email n).2 = s ∧
      (s.CreateAccount now name email n).2.GetAccountCount = s.GetAccountCount := by
  obtain ⟨row, hmem, hnum⟩ := h
  have hex : s.db.AccountExists n = true := accountExists_of_mem s.db n row hmem hnum
  unfold Store.CreateAccount
  rw [if_pos hex]
  exact ⟨rfl, rfl, rfl⟩

/-- The instance of `createAccount_duplicate` at a store that holds
`"1111 2222 3333 4444"`: a second account with that number is refused and the
count stays 1. -/
theorem createAccount_duplicate_witness :
    ((({} : Store).CreateAccount "t" "Ann" "a@b.com" "1111 2222 3333 4444").2.CreateAccount
        "u" "Bob" "b@c.com" "1111 2222 3333 4444").1 = .error Error.ErrDuplicateAccount ∧
      ((({} : Store).CreateAccount "t" "Ann" "a@b.com" "1111 2222 3333 4444").2.CreateAccount
        "u" "Bob" "b@c.com" "1111 2222 3333 4444").2 =
        (({} : Store).CreateAccount "t" "Ann" "a@b.com" "1111 2222 3333 4444").2 ∧
      ((({} : Store).CreateAccount "t" "Ann" "a@b.com" "1111 2222 3333 4444").2.CreateAccount
        "u" "Bob" "b@c.com" "1111 2222 3333 4444").2.GetAccountCount =
        (({} : Store).CreateAccount "t" "Ann" "a@b.com"
          "1111 2222 3333 4444").2.GetAccountCount :=
  createAccount_duplicate
    (({} : Store).CreateAccount "t" "Ann" "a@b.com" "1111 2222 3333 4444").2
    "u" "Bob" "b@c.com" "1111 2222 3333 4444"
    ⟨{ id := 1, account_number := "1111 2222 3333 4444", name := "Ann", email := "a@b.com",
       created_at := some "t", last_login := none, is_active := true },
     by decide, rfl⟩

/-- While the generator keeps returning numbers that exist, the loop uses
them up: `k` colliding calls leave the loop with `fuel` iterations and the
generator advanced `k` times. -/
theorem generateLoop_skip {γ : Type} (s : Store) (generator : γ → String × γ) :
    ∀ (k fuel : Nat) (g : γ),
      (∀ i < k, s.db.AccountExists
        (generator ((fun x => (generator x).2)^[i] g)).1 = true) →
      Store.generateLoop s generator (k + fuel) g =
        Store.generateLoop s generator fuel ((fun x => (generator x).2)^[k] g) := by
  intro k
  induction k with
  | zero => intro fuel g _; simp
  | succ k ih =>
    intro fuel g h
    have h0 : s.db.AccountExists (generator g).1 = true := h 0 (Nat.succ_pos k)
    have hrest : ∀ i < k, s.db.AccountExists
        (generator ((fun x => (generator x).2)^[i] (generator g).2)).1 = true := by
      intro i hi
      have := h (i + 1) (Nat.succ_lt_succ hi)
      simpa [Function.iterate_succ_apply] using this
    have hfuel : k + 1 + fuel = (k + fuel) + 1 := by omega
    rw [hfuel]
    show (if s.db.AccountExists (generator g).1 = true
        then Store.generateLoop s generator (k + fuel) (generator g).2
        else (((generator g).1, none), (generator g).2)) = _
    rw [if_pos h0, ih fuel (generator g).2 hrest, Function.iterate_succ_apply]

/-- C9: `GenerateUniqueAccountNumber` against a store and any generator
(`generator` with start state `g`; the call number `i + 1` is made in state
`next^[i] g` and the state after `k` calls is `next^[k] g`). If each of the
first 100 numbers exists in the store, the result is the empty string with the
error, after exactly 100 calls. If call number `k + 1` (with `k < 100`) is the
first whose number does not exist, the result is that number with no error,
after exactly `k + 1` calls. -/
theorem generateUnique_attempts {γ : Type} (s : Store) (generator : γ → String × γ) (g : γ) :
    ((∀ i < 100, s.db.AccountExists
        (generator ((fun x => (generator x).2)^[i] g)).1 = true) →
      s.GenerateUniqueAccountNumber generator g =
        (("", some (Error.other
            "failed to generate unique account number after 100 attempts")),
         (fun x => (generator x).2)^[100] g)) ∧
    (∀ k < 100,
      (∀ i < k, s.db.AccountExists
        (generator ((fun x => (generator x).2)^[i] g)).1 = true) →
      s.db.AccountExists (generator ((fun x => (generator x).2)^[k] g)).1 = false →
      s.GenerateUniqueAccountNumber generator g =
        (((generator ((fun x => (generator x).2)^[k] g)).1, none),
         (fun x => (generator x).2)^[k + 1] g)) := by
  constructor
  · intro h
    unfold Store.GenerateUniqueAccountNumber
    have := generateLoop_skip s generator 100 0 g h
    simpa [Store.generateLoop] using this
  · intro k hk hcoll hfree
    unfold Store.GenerateUniqueAccountNumber
    have hsplit : 100 = k + ((99 - k) + 1) := by omega
    rw [hsplit, generateLoop_skip s generator k ((99 - k) + 1) g hcoll]
    show (if s.db.AccountExists (generator ((fun x => (generator x).2)^[k] g)).1 = true
        then _ else _) = _
    rw [if_neg (by simp [hfree]), Function.iterate_succ_apply']

/-- A store that holds the single number `"1111 2222 3333 4444"`. -/
theorem storeOne_exists :
    (({} : Store).CreateAccount "t" "Ann" "a@b.com" "1111 2222 3333 4444").2.db.AccountExists
      "1111 2222 3333 4444" = true := by
  decide

/-- The instance of `generateUnique_attempts` at a store that holds
`"1111 2222 3333 4444"`. A generator that counts its calls and always returns
that number gets the error after exactly 100 calls; one that returns it twice
and then `"5555 6666 7777 8888"` gets the new number after exactly 3 calls. -/
theorem generateUnique_attempts_witness :
    (({} : Store).CreateAccount "t" "Ann" "a@b.com" "1111 2222 3333 4444").2.GenerateUniqueAccountNumber
        (fun (n : Nat) => ("1111 2222 3333 4444", n + 1)) 0 =
      (("", some (Error.other
          "failed to generate unique account number after 100 attempts")), 100) ∧
    (({} : Store).CreateAccount "t" "Ann" "a@b.com" "1111 2222 3333 4444").2.GenerateUniqueAccountNumber
        (fun (n : Nat) =>
          (if n < 2 then "1111 2222 3333 4444" else "5555 6666 7777 8888", n + 1)) 0 =
      (("5555 6666 7777 8888", none), 3) := by
  have h := (generateUnique_attempts
    (({} : Store).CreateAccount "t" "Ann" "a@b.com" "1111 2222 3333 4444").2
    (fun (n : Nat) => ("1111 2222 3333 4444", n + 1)) 0).1
    (fun _ _ => storeOne_exists)
  have h2 := (generateUnique_attempts
    (({} : Store).CreateAccount "t" "Ann" "a@b.com" "1111 2222 3333 4444").2
    (fun (n : Nat) =>
      (if n < 2 then "1111 2222 3333 4444" else "5555 6666 7777 8888", n + 1)) 0).2
    2 (by decide) (by decide) (by decide)
  have hcount : ∀ k : Nat, (fun (x : Nat) => x + 1)^[k] 0 = k := by
    intro k
    induction k with
    | zero => rfl
    | succ k ih => rw [Function.iterate_succ_apply', ih]
  refine ⟨?_, ?_⟩
  · rw [h]
    exact congrArg (Prod.mk _) (hcount 100)
  · rw [h2]
    rfl

/-! ## Theorems: account numbers -/

/-- The decimal numeral of a number below ten is its digit character. -/
theorem toString_digit (n : Nat) (h : n < 10) :
    toString n = String.singleton (Nat.digitChar n) := by
  interval_cases n <;> rfl

/-- The digit character of a number below ten is an ASCII digit. -/
theorem digitChar_isDigit (n : Nat) (h : n < 10) : (Nat.digitChar n).isDigit = true := by
  interval_cases n <;> rfl

/-- The digit character of a number from 1 to 9 lies in `'1'..'9'`. -/
theorem digitChar_nonzero (n : Nat) (h : n < 9) :
    '1' ≤ Nat.digitChar (n + 1) ∧ Nat.digitChar (n + 1) ≤ '9' := by
  interval_cases n <;> decide

/-- The string `generateAccountNumber` builds, rune by rune: the draws
`p, p + 1, ..., p + 15` give the sixteen digits. -/
theorem generateAccountNumber_eq (r : Rand) :
    (generateAccountNumber r).1 = String.mk
      [Nat.digitChar (r.draws r.pos % 9 + 1), Nat.digitChar (r.draws (r.pos + 1) % 10),
       Nat.digitChar (r.draws (r.pos + 2) % 10), Nat.digitChar (r.draws (r.pos + 3) % 10), ' ',
       Nat.digitChar (r.draws (r.pos + 4) % 10), Nat.digitChar (r.draws (r.pos + 5) % 10),
       Nat.digitChar (r.draws (r.pos + 6) % 10), Nat.digitChar (r.draws (r.pos + 7) % 10), ' ',
       Nat.digitChar (r.draws (r.pos + 8) % 10), Nat.digitChar (r.draws (r.pos + 9) % 10),
       Nat.digitChar (r.draws (r.pos + 10) % 10), Nat.digitChar (r.draws (r.pos + 11) % 10), ' ',
       Nat.digitChar (r.draws (r.pos + 12) % 10), Nat.digitChar (r.draws (r.pos + 13) % 10),
       Nat.digitChar (r.draws (r.pos + 14) % 10), Nat.digitChar (r.draws (r.pos + 15) % 10)] := by
  have h9 : ∀ n : Nat, toString (n % 9 + 1) = String.singleton (Nat.digitChar (n % 9 + 1)) :=
    fun n => toString_digit _ (by omega)
  have h10 : ∀ n : Nat, toString (n % 10) = String.singleton (Nat.digitChar (n % 10)) :=
    fun n => toString_digit _ (Nat.mod_lt _ (by decide))
  apply String.ext
  simp [generateAccountNumber, generateDigits, Rand.Intn, h9, h10, String.singleton]

/-- The digit character of a number below ten takes one byte. -/
theorem digitChar_utf8Size (n : Nat) (h : n < 10) : (Nat.digitChar n).utf8Size = 1 := by
  interval_cases n <;> rfl

/-- The digit character of a number below ten is not a space. -/
theorem digitChar_ne_space (n : Nat) (h : n < 10) : Nat.digitChar n ≠ ' ' := by
  interval_cases n <;> decide

/-- C10: whatever the random draws are, `generateAccountNumber` returns 19
runes (19 bytes) with a space at each of the indices 4, 9 and 14 and an ASCII
digit at every other index, the first rune lies in `'1'..'9'`, and what is
left after the spaces are removed is exactly 16 digits. -/
theorem generateAccountNumber_format (r : Rand) :
    (generateAccountNumber r).1.data.length = 19 ∧
      len (generateAccountNumber r).1 = 19 ∧
      (∀ i : Nat, i = 4 ∨ i = 9 ∨ i = 14 → (generateAccountNumber r).1.data[i]? = some ' ') ∧
      (∀ i : Nat, i < 19 → i ≠ 4 → i ≠ 9 → i ≠ 14 →
        ∃ c, (generateAccountNumber r).1.data[i]? = some c ∧ c.isDigit = true) ∧
      (∃ c, (generateAccountNumber r).1.data[0]? = some c ∧ '1' ≤ c ∧ c ≤ '9') ∧
      (removeSpaces (generateAccountNumber r).1).data.length = 16 ∧
      len (removeSpaces (generateAccountNumber r).1) = 16 ∧
      (∀ c ∈ (removeSpaces (generateAccountNumber r).1).data, c.isDigit = true) := by
  have hd : ∀ n : Nat, (Nat.digitChar (n % 10)).isDigit = true :=
    fun n => digitChar_isDigit _ (Nat.mod_lt _ (by decide))
  have hd9 : ∀ n : Nat, (Nat.digitChar (n % 9 + 1)).isDigit = true :=
    fun n => digitChar_isDigit _ (by omega)
  have hs : ∀ n : Nat, Nat.digitChar (n % 10) ≠ ' ' :=
    fun n => digitChar_ne_space _ (Nat.mod_lt _ (by decide))
  have hs9 : ∀ n : Nat, Nat.digitChar (n % 9 + 1) ≠ ' ' :=
    fun n => digitChar_ne_space _ (by omega)
  have hu : ∀ n : Nat, (Nat.digitChar (n % 10)).utf8Size = 1 :=
    fun n => digitChar_utf8Size _ (Nat.mod_lt _ (by decide))
  have hu9 : ∀ n : Nat, (Nat.digitChar (n % 9 + 1)).utf8Size = 1 :=
    fun n => digitChar_utf8Size _ (by omega)
  have hsp : (' ' : Char).utf8Size = 1 := rfl
  rw [generateAccountNumber_eq]
  refine ⟨rfl, ?_, ?_, ?_, ?_, ?_, ?_, ?_⟩
  · simp [len, hu, hu9, hsp]
  · rintro i (rfl | rfl | rfl) <;> rfl
  · intro i hi h4 h9 h14
    interval_cases i <;> first | omega | simp [hd, hd9]
  · exact ⟨_, rfl, digitChar_nonzero _ (Nat.mod_lt _ (by decide))⟩
  · simp [removeSpaces, List.filter, hs, hs9]
  · simp [removeSpaces, List.filter, hs, hs9, len, hu, hu9]
  · simp [removeSpaces, List.filter, hs, hs9, hd, hd9]

/-- An ASCII digit takes one byte. -/
theorem utf8Size_of_isDigit (c : Char) (h : c.isDigit = true) : c.utf8Size = 1 := by
  simp only [Char.isDigit, Bool.and_eq_true, decide_eq_true_eq] at h
  have h57 : c.val.toNat ≤ 57 := h.2
  have h2 : c.val ≤ UInt32.ofNatCore 127 (by decide) := by
    show c.val.toNat ≤ 127
    omega
  unfold Char.utf8Size
  exact if_pos h2

/-- On one-byte runes the byte length is the number of runes. -/
theorem utf8Len_of_ascii (cs : List Char) (h : ∀ c ∈ cs, c.utf8Size = 1) :
    String.utf8Len cs = cs.length := by
  induction cs with
  | nil => rfl
  | cons c cs ih =>
    rw [String.utf8Len_cons, ih (fun x hx => h x (List.mem_cons_of_mem _ hx)),
      h c (List.mem_cons_self _ _), List.length_cons]

/-- On one-byte runes, skipping `n` bytes skips `n` runes. -/
theorem dropBytes_of_ascii (cs : List Char) (h : ∀ c ∈ cs, c.utf8Size = 1) :
    ∀ n, n ≤ cs.length → dropBytes cs n = some (cs.drop n) := by
  induction cs with
  | nil =>
    intro n hn
    have : n = 0 := by simpa using hn
    subst this
    rfl
  | cons c cs ih =>
    intro n hn
    cases n with
    | zero => rfl
    | succ n =>
      have hc : c.utf8Size = 1 := h c (List.mem_cons_self _ _)
      have hn2 : n ≤ cs.length := by simpa using hn
      simp only [dropBytes, hc, List.drop_succ_cons]
      rw [if_pos (by omega)]
      have : n + 1 - 1 = n := by omega
      rw [this]
      exact ih (fun x hx => h x (List.mem_cons_of_mem _ hx)) n hn2

/-- On one-byte runes, the first `n` bytes are the first `n` runes. -/
theorem takeBytes_of_ascii (cs : List Char) (h : ∀ c ∈ cs, c.utf8Size = 1) :
    ∀ n, n ≤ cs.length → takeBytes cs n = some (cs.take n) := by
  induction cs with
  | nil =>
    intro n hn
    have : n = 0 := by simpa using hn
    subst this
    rfl
  | cons c cs ih =>
    intro n hn
    cases n with
    | zero => rfl
    | succ n =>
      have hc : c.utf8Size = 1 := h c (List.mem_cons_self _ _)
      have hn2 : n ≤ cs.length := by simpa using hn
      simp only [takeBytes, hc, List.take_succ_cons]
      rw [if_pos (by omega)]
      have : n + 1 - 1 = n := by omega
      rw [this, ih (fun x hx => h x (List.mem_cons_of_mem _ hx)) n hn2]
      rfl

/-- On one-byte runes, the byte slice `s[i:j]` is the rune slice. -/
theorem byteSlice_of_ascii (s : String) (h : ∀ c ∈ s.data, c.utf8Size = 1) (i j : Nat)
    (hij : i ≤ j) (hj : j ≤ s.data.length) :
    byteSlice s i j = some (String.mk ((s.data.drop i).take (j - i))) := by
  unfold byteSlice
  rw [dropBytes_of_ascii s.data h i (by omega)]
  simp only [Option.some_bind]
  rw [takeBytes_of_ascii (s.data.drop i)
    (fun c hc => h c (List.mem_of_mem_drop hc)) (j - i) (by rw [List.length_drop]; omega)]
  rfl

/-- A string of 16 digits has 16 bytes. -/
theorem len_of_isSixteenDigits (d : String) (hd : isSixteenDigits d) : len d = 16 := by
  unfold len
  rw [show d.utf8ByteSize = String.utf8Len d.data from rfl,
    utf8Len_of_ascii d.data (fun c hc => utf8Size_of_isDigit c (hd.2 c hc)), hd.1]

/-- The number that the two queries add for a 16-digit parameter is its
grouped form. -/
theorem formattedNumber_of_isSixteenDigits (d : String) (hd : isSixteenDigits d) :
    Database.formattedNumber d = some (groupedForm d) := by
  have hascii : ∀ c ∈ d.data, c.utf8Size = 1 := fun c hc => utf8Size_of_isDigit c (hd.2 c hc)
  have hlen := hd.1
  unfold Database.formattedNumber
  rw [if_pos (len_of_isSixteenDigits d hd),
    byteSlice_of_ascii d hascii 0 4 (by omega) (by omega),
    byteSlice_of_ascii d hascii 4 8 (by omega) (by omega),
    byteSlice_of_ascii d hascii 8 12 (by omega) (by omega),
    byteSlice_of_ascii d hascii 12 16 (by omega) (by omega)]
  simp only [Option.some.injEq]
  apply String.ext
  have h16 : List.take 4 (List.drop 12 d.data) = List.drop 12 d.data := by
    apply List.take_of_length_le
    rw [List.length_drop]
    omega
  simp [groupedForm, h16]

/-- The grouped form of a 16-digit number has 19 bytes, so the queries add the
empty string for it. -/
theorem formattedNumber_groupedForm (d : String) (hd : isSixteenDigits d) :
    Database.formattedNumber (groupedForm d) = some "" := by
  have hne : len (groupedForm d) ≠ 16 := by
    have hascii : ∀ c ∈ (groupedForm d).data, c.utf8Size = 1 := by
      intro c hc
      simp only [groupedForm, List.mem_append, List.mem_singleton, or_assoc] at hc
      have hdig : ∀ x ∈ d.data, x.utf8Size = 1 :=
        fun x hx => utf8Size_of_isDigit x (hd.2 x hx)
      rcases hc with hc | rfl | hc | rfl | hc | rfl | hc
      · exact hdig c (List.mem_of_mem_take hc)
      · rfl
      · exact hdig c (List.mem_of_mem_drop (List.mem_of_mem_take hc))
      · rfl
      · exact hdig c (List.mem_of_mem_drop (List.mem_of_mem_take hc))
      · rfl
      · exact hdig c (List.mem_of_mem_drop hc)
    unfold len
    rw [show (groupedForm d).utf8ByteSize = String.utf8Len (groupedForm d).data from rfl,
      utf8Len_of_ascii _ hascii]
    have hlen := hd.1
    simp [groupedForm, List.length_take, List.length_drop, hlen]
  unfold Database.formattedNumber
  rw [if_neg hne]

/-- When `AccountExists` is false, no stored row holds the number. -/
theorem not_mem_of_accountExists_false (d : Database) (n : String)
    (h : d.AccountExists n = false) : ∀ row ∈ d.accounts, row.account_number ≠ n := by
  intro row hmem hnum
  rw [accountExists_of_mem d n row hmem hnum] at h
  exact Bool.noConfusion h

/-- What a successful `Store.CreateAccount` does: the number was free, the
account returned carries the next id, and one active row is appended. -/
theorem createAccount_ok (s : Store) (now name email n : String) (a : Account)
    (h : (s.CreateAccount now name email n).1 = .ok a) :
    s.db.AccountExists n = false ∧
      a = { ID := s.db.accountsSeq + 1, AccountNumber := n, Name := name, Email := email,
            IsActive := true } ∧
      (s.CreateAccount now name email n).2.db.accounts = s.db.accounts ++
        [{ id := s.db.accountsSeq + 1, account_number := n, name := name, email := email,
           created_at := some now, last_login := none, is_active := true }] := by
  unfold Store.CreateAccount at h ⊢
  cases hex : s.db.AccountExists n with
  | true => simp [hex] at h
  | false =>
    have hany : (s.db.accounts.any (fun row => row.account_number == n)) = false := by
      rw [List.any_eq_false]
      intro row hmem
      simpa using not_mem_of_accountExists_false s.db n hex row hmem
    simp only [hex, Bool.false_eq_true, if_false, Database.CreateAccount, hany] at h ⊢
    refine ⟨trivial, ?_, trivial⟩
    injection h with h
    exact h.symm

/-- Let `d` be 16 digits and `g` its grouped form. When
`Store.CreateAccount(name, email, g)` succeeds with account `a`, on a store in
which no active account holds the bare number `d` (so that the lookup query
selects one row only), then `a` carries `g`, the name
and the email, and both `Store.FindAccount(d)` and `Store.SignIn(d)` with the
bare number return that account, as read back from its row: `a` with its
creation time filled in. -/
theorem grouped_then_bare (s : Store) (now later name email d : String) (a : Account)
    (hd : isSixteenDigits d)
    (hcreate : (s.CreateAccount now name email (groupedForm d)).1 = .ok a)
    (hfresh : ∀ row ∈ s.db.accounts, row.is_active = true → row.account_number ≠ d) :
    a.AccountNumber = groupedForm d ∧ a.Name = name ∧ a.Email = email ∧
      (s.CreateAccount now name email (groupedForm d)).2.FindAccount d =
        .ok { a with CreatedAt := now } ∧
      ((s.CreateAccount now name email (groupedForm d)).2.SignIn later d).1 =
        .ok { a with CreatedAt := now } := by
  obtain ⟨hex, ha, hrows⟩ := createAccount_ok s now name email (groupedForm d) a hcreate
  have hfmt := formattedNumber_of_isSixteenDigits d hd
  have hold : s.db.accounts.filter
      (fun row => Database.numberMatches d row && row.is_active) = [] := by
    rw [List.filter_eq_nil_iff]
    intro row hmem hmatch
    simp only [Database.numberMatches, hfmt, Bool.and_eq_true, Bool.or_eq_true, beq_iff_eq,
      Option.some.injEq] at hmatch
    rcases hmatch with ⟨hnum | hnum, hact⟩
    · exact hfresh row hmem hact hnum
    · exact not_mem_of_accountExists_false s.db _ hex row hmem hnum
  have hsel : (s.CreateAccount now name email (groupedForm d)).2.db.selectByNumber d =
      [{ id := s.db.accountsSeq + 1, account_number := groupedForm d, name := name,
         email := email, created_at := some now, last_login := none, is_active := true }] := by
    unfold Database.selectByNumber
    rw [hrows, List.filter_append, hold]
    simp [Database.numberMatches, hfmt]
  have hget : (s.CreateAccount now name email (groupedForm d)).2.db.GetAccountByNumber d =
      .ok { a with CreatedAt := now } := by
    unfold Database.GetAccountByNumber
    rw [hsel, ha]
    rfl
  refine ⟨by rw [ha], by rw [ha], by rw [ha], hget, ?_⟩
  unfold Store.SignIn
  rw [hget]

/-- The instance of `grouped_then_bare` on the empty store: created with
`"1234 5678 9012 3456"`, looked up with `"1234567890123456"`. -/
theorem grouped_then_bare_witness :
    isSixteenDigits "1234567890123456" ∧
    (({} : Store).CreateAccount "t0" "Ann" "a@b.com" (groupedForm "1234567890123456")).1 =
      .ok { ID := 1, AccountNumber := "1234 5678 9012 3456", Name := "Ann",
            Email := "a@b.com", IsActive := true } ∧
    (({} : Store).CreateAccount "t0" "Ann" "a@b.com" "1234 5678 9012 3456").2.FindAccount
        "1234567890123456" =
      .ok { ID := 1, AccountNumber := "1234 5678 9012 3456", Name := "Ann",
            Email := "a@b.com", CreatedAt := "t0", LastLogin := "", IsActive := true } ∧
    ((({} : Store).CreateAccount "t0" "Ann" "a@b.com" "1234 5678 9012 3456").2.SignIn "t1"
        "1234567890123456").1 =
      .ok { ID := 1, AccountNumber := "1234 5678 9012 3456", Name := "Ann",
            Email := "a@b.com", CreatedAt := "t0", LastLogin := "", IsActive := true } :=
  ⟨by decide, rfl,
    (grouped_then_bare {} "t0" "t1" "Ann" "a@b.com" "1234567890123456"
      { ID := 1, AccountNumber := "1234 5678 9012 3456", Name := "Ann", Email := "a@b.com",
        IsActive := true }
      (by decide) rfl (by intro row hrow; cases hrow)).2.2.2⟩

/-- C5: an account is created under the bare number `"1234567890123456"` in
the empty store; `Store.FindAccount` with the grouped form
`"1234 5678 9012 3456"` then answers `ErrAccountNotFound`, while the lookup
with the bare number finds it. -/
theorem bare_then_grouped_not_found :
    (({} : Store).CreateAccount "t0" "Ann" "a@b.com" "1234567890123456").1 =
        .ok { ID := 1, AccountNumber := "1234567890123456", Name := "Ann",
              Email := "a@b.com", IsActive := true } ∧
      (({} : Store).CreateAccount "t0" "Ann" "a@b.com" "1234567890123456").2.FindAccount
          "1234 5678 9012 3456" = .error Error.ErrAccountNotFound ∧
      (({} : Store).CreateAccount "t0" "Ann" "a@b.com" "1234567890123456").2.FindAccount
          "1234567890123456" =
        .ok { ID := 1, AccountNumber := "1234567890123456", Name := "Ann",
              Email := "a@b.com", CreatedAt := "t0", LastLogin := "", IsActive := true } := by
  exact ⟨rfl, rfl, rfl⟩

/-- C7: from the empty store, `CreateAccount` with the bare number
`"1234567890123456"` and then with its grouped form `"1234 5678 9012 3456"`
both succeed: two active accounts whose numbers are equal once the spaces are
removed. In the other order the second call fails with
`ErrDuplicateAccount`. -/
theorem bare_then_grouped_both_created :
    ((({} : Store).CreateAccount "t0" "Ann" "a@b.com" "1234567890123456").2.CreateAccount
        "t1" "Bob" "b@c.com" "1234 5678 9012 3456").1 =
        .ok { ID := 2, AccountNumber := "1234 5678 9012 3456", Name := "Bob",
              Email := "b@c.com", IsActive := true } ∧
      ((({} : Store).CreateAccount "t0" "Ann" "a@b.com" "1234567890123456").2.CreateAccount
        "t1" "Bob" "b@c.com" "1234 5678 9012 3456").2.GetAccountCount = 2 ∧
      removeSpaces "1234 5678 9012 3456" = removeSpaces "1234567890123456" ∧
      ((({} : Store).CreateAccount "t0" "Ann" "a@b.com" "1234 5678 9012 3456").2.CreateAccount
        "t1" "Bob" "b@c.com" "1234567890123456").1 = .error Error.ErrDuplicateAccount := by
  exact ⟨rfl, rfl, rfl, rfl⟩

/-! ## Theorems: the key handler -/

/-- C4: the text `"abcdefghijklmnop"` has 16 runes, none of them a digit.
Typed into the sign-in view and confirmed with `enter`, it is not answered with
the format error: with a store the lookup is made and the view shows the
not-found message; without a store the application moves on to the dashboard.
The text `"12345"` is answered with the format error and stays in sign-in. -/
theorem signIn_sixteen_letters :
    ¬ isSixteenDigits "abcdefghijklmnop" ∧
      signInOutcome (run (NewModel [] (some {})) (signInSession "abcdefghijklmnop")) =
        some (StateSignIn, some "Account not found. Please check your account number.",
          some "abcdefghijklmnop", false) ∧
      signInOutcome (run (NewModel [] none) (signInSession "abcdefghijklmnop")) =
        some (StateDashboard, some "", some "abcdefghijklmnop", true) ∧
      signInOutcome (run (NewModel [] (some {})) (signInSession "12345")) =
        some (StateSignIn, some "Please enter a valid 16-digit account number",
          some "12345", false) := by
  refine ⟨by decide, ?_, ?_, ?_⟩ <;> rfl

/-- Selecting the authentication menu keeps the registered menus and makes
it the current menu. -/
theorem setCurrentMenu_auth (mm : MenuManager)
    (h : mm.menus = MenuManager.NewMenuManager.menus) :
    (mm.SetCurrentMenu StateAuthMenu).2.menus = MenuManager.NewMenuManager.menus ∧
      (mm.SetCurrentMenu StateAuthMenu).2.currentMenu = some NewAuthMenu := by
  have hl : mm.menus.lookup StateAuthMenu = some NewAuthMenu := by rw [h]; rfl
  unfold MenuManager.SetCurrentMenu
  rw [hl]
  exact ⟨h, rfl⟩

/-- A selection in the authentication menu that asks to navigate leads to
account creation or to the sign-in placeholder. -/
theorem authMenu_navigate (index : Int)
    (h : (NewAuthMenu.HandleSelection index ()).1.Action = ActionNavigate) :
    (NewAuthMenu.HandleSelection index ()).1.NextState = StateAccountCreation ∨
      (NewAuthMenu.HandleSelection index ()).1.NextState = StateSignInPlaceholder := by
  by_cases hr : index < 0 ∨ index ≥ 3
  · have hr2 : index < 0 ∨ index ≥ (NewAuthMenu.options.length : Int) := hr
    unfold BaseMenu.HandleSelection at h
    rw [if_pos hr2] at h
    exact MenuAction.noConfusion h
  · have h0 : 0 ≤ index := by omega
    have h3 : index < 3 := by omega
    interval_cases index
    · exact Or.inl rfl
    · exact Or.inr rfl
    · exact absurd h (by decide)

/-- A manager whose current menu is unset or the authentication menu answers
a navigation with account creation or the sign-in placeholder. -/
theorem manager_navigate (mm : MenuManager)
    (hc : mm.currentMenu = none ∨ mm.currentMenu = some NewAuthMenu) (index : Int)
    (h : (mm.HandleSelection index).Action = ActionNavigate) :
    (mm.HandleSelection index).NextState = StateAccountCreation ∨
      (mm.HandleSelection index).NextState = StateSignInPlaceholder := by
  unfold MenuManager.HandleSelection at h ⊢
  rcases hc with hc | hc
  · rw [hc] at h
    exact MenuAction.noConfusion h
  · rw [hc] at h ⊢
    exact authMenu_navigate index h

/-- Every available module has a first lesson, so `NewLessonView` does not
panic on it. -/
theorem newLessonView_available (c : Module) (hc : c ∈ GetAvailableModules) (w h : Int) :
    ∃ l, NewLessonView c w h = some l := by
  simp only [GetAvailableModules, List.mem_cons, List.mem_singleton, List.not_mem_nil,
    or_false] at hc
  rcases hc with rfl | rfl | rfl | rfl | rfl <;> exact ⟨_, rfl⟩

/-- The module `GetSelectedModule` returns is one of the dashboard. -/
theorem getSelectedModule_mem (d : DashboardView) (c : Module)
    (h : d.GetSelectedModule = some c) : c ∈ d.modules := by
  unfold DashboardView.GetSelectedModule at h
  split at h
  · exact List.getElem?_mem h
  · exact Option.noConfusion h

/-- Case `StateIntro` keeps the invariant. -/
theorem updateIntro_inv (m : Model) (key : String) (h : navInv m) :
    navInv (updateIntro m key).model := by
  unfold updateIntro
  split_ifs
  · exact ⟨Or.inr (Or.inr (Or.inl rfl)), (setCurrentMenu_auth _ h.menus).1,
      Or.inr (setCurrentMenu_auth _ h.menus).2, h.dashboard, h.module, h.lesson⟩
  · exact ⟨h.state, h.menus, h.current, h.dashboard, h.module, h.lesson⟩
  · exact ⟨h.state, h.menus, h.current, h.dashboard, h.module, h.lesson⟩
  · exact h

/-- The field input at the end of case `StateAccountCreation` keeps the
invariant. -/
theorem fieldInput_inv (m : Model) (msg : KeyMsg) (h : navInv m) :
    navInv (fieldInput m msg).model := by
  unfold fieldInput
  split_ifs <;> exact ⟨h.state, h.menus, h.current, h.dashboard, h.module, h.lesson⟩

/-- Case `StateAccountCreation` keeps the invariant. -/
theorem updateAccountCreation_inv (env : Env) (m : Model) (msg : KeyMsg) (h : navInv m) :
    navInv (updateAccountCreation env m msg).model := by
  unfold updateAccountCreation
  simp only []
  split_ifs <;> (try split) <;> (try split) <;> (try split) <;>
    first
    | exact ⟨h.state, h.menus, h.current, h.dashboard, h.module, h.lesson⟩
    | exact fieldInput_inv m msg h
    | exact ⟨Or.inr (Or.inr (Or.inr (Or.inr (Or.inl rfl)))), h.menus, h.current,
        fun d hd => by cases hd; rfl, h.module, h.lesson⟩
    | (unfold returnWithFocus
       cases env.readAfterCalls <;>
         exact ⟨h.state, h.menus, h.current, h.dashboard, h.module, h.lesson⟩)

/-- Case `StateAuthMenu` keeps the invariant. -/
theorem updateAuthMenu_inv (env : Env) (m : Model) (key : String) (h : navInv m) :
    navInv (updateAuthMenu env m key).model := by
  have hm : navInv (if m.MenuManager.GetCurrentState ≠ StateAuthMenu then
      { m with MenuManager := (m.MenuManager.SetCurrentMenu StateAuthMenu).2, MenuCursor := 0 }
      else m) := by
    split_ifs
    · exact ⟨h.state, (setCurrentMenu_auth _ h.menus).1,
        Or.inr (setCurrentMenu_auth _ h.menus).2, h.dashboard, h.module, h.lesson⟩
    · exact h
  unfold updateAuthMenu
  generalize (if m.MenuManager.GetCurrentState ≠ StateAuthMenu then
      { m with MenuManager := (m.MenuManager.SetCurrentMenu StateAuthMenu).2, MenuCursor := 0 }
      else m) = n at hm ⊢
  simp only []
  split_ifs <;> (try split) <;>
    first
    | exact ⟨hm.state, hm.menus, hm.current, hm.dashboard, hm.module, hm.lesson⟩
    | (unfold returnWithFocus
       cases env.readAfterCalls <;>
         exact ⟨Or.inr (Or.inl (by assumption)), hm.menus, hm.current, hm.dashboard,
           hm.module, hm.lesson⟩)
    | exact ⟨Or.inr (Or.inr (Or.inr (Or.inl rfl))), hm.menus, hm.current, hm.dashboard,
        hm.module, hm.lesson⟩
    | (exfalso
       have hact : (n.MenuManager.HandleSelection n.MenuCursor).Action = ActionNavigate := by
         assumption
       rcases manager_navigate n.MenuManager hm.current n.MenuCursor hact with hnav | hnav <;>
         contradiction)

/-- A fresh lesson view on a module with lessons points at its first
lesson. -/
theorem newLessonView_index (c : Module) (w h : Int) (l : LessonView)
    (hl : NewLessonView c w h = some l) :
    0 ≤ l.currentLesson ∧ l.currentLesson < (l.module.Lessons.length : Int) := by
  unfold NewLessonView at hl
  split at hl
  · exact Option.noConfusion hl
  · rename_i first rest hles
    injection hl with hl
    subst hl
    simp [hles]

/-- Case `StateDashboard` does not panic and keeps the invariant. -/
theorem updateDashboard_inv (m : Model) (key : String) (h : navInv m) :
    ∃ f, updateDashboard m key = some f ∧ navInv f.model := by
  have hd : ∀ d, (match m.Dashboard with
      | some d => d
      | none => NewDashboardViewWithUser m.TerminalWidth m.TerminalHeight
          (match m.CurrentAccount with
            | some account => account.Name
            | none => "")) = d → d.modules = GetAvailableModules := by
    intro d hd
    cases hdash : m.Dashboard with
    | none => rw [hdash] at hd; rw [← hd]; rfl
    | some d0 => rw [hdash] at hd; rw [← hd]; exact h.dashboard d0 hdash
  unfold updateDashboard
  generalize (match m.Dashboard with
      | some d => d
      | none => NewDashboardViewWithUser m.TerminalWidth m.TerminalHeight
          (match m.CurrentAccount with
            | some account => account.Name
            | none => "")) = dashboard at hd ⊢
  have hmods := hd dashboard rfl
  have hbase : navInv { m with Dashboard := some dashboard } :=
    ⟨h.state, h.menus, h.current, fun d hd2 => by cases hd2; exact hmods, h.module, h.lesson⟩
  simp only []
  split_ifs
  · exact ⟨_, rfl, hbase.state, hbase.menus, hbase.current, hbase.dashboard, hbase.module,
      hbase.lesson⟩
  · exact ⟨_, rfl, hbase.state, hbase.menus, hbase.current, hbase.dashboard, hbase.module,
      hbase.lesson⟩
  · split
    · rename_i selectedModule hsel
      have hmem : selectedModule ∈ GetAvailableModules := by
        rw [← hmods]
        exact getSelectedModule_mem dashboard selectedModule hsel
      obtain ⟨l, hl⟩ := newLessonView_available selectedModule hmem m.TerminalWidth
        m.TerminalHeight
      have hidx := newLessonView_index selectedModule m.TerminalWidth m.TerminalHeight l hl
      simp only [hl, Option.map_some']
      exact ⟨_, rfl, Or.inr (Or.inr (Or.inr (Or.inr (Or.inr rfl)))), h.menus, h.current,
        fun d hd2 => by cases hd2; exact hmods, fun c hc => by cases hc; exact hmem,
        fun l2 hl2 => by cases hl2; exact hidx⟩
    · exact ⟨_, rfl, hbase⟩
  · refine ⟨_, rfl, h.state, h.menus, h.current, fun d hd2 => ?_, h.module, h.lesson⟩
    cases hd2
    show (dashboard.Update key).modules = GetAvailableModules
    rw [← hmods]
    unfold DashboardView.Update
    split_ifs <;> rfl
  · exact ⟨_, rfl, hbase⟩

/-- A key in a lesson view that points at a lesson of its module does not
panic and leaves it pointing at a lesson of the same module. -/
theorem lessonView_update_index (l : LessonView) (key : String)
    (h : 0 ≤ l.currentLesson ∧ l.currentLesson < (l.module.Lessons.length : Int)) :
    ∃ l2, l.Update key = some l2 ∧
      0 ≤ l2.currentLesson ∧ l2.currentLesson < (l2.module.Lessons.length : Int) := by
  have hat : ∀ i : Int, 0 ≤ i → i < (l.module.Lessons.length : Int) →
      ∃ x, lessonAt l.module i = some x := by
    intro i h0 h1
    unfold lessonAt
    rw [if_neg (by omega)]
    exact ⟨_, List.getElem?_eq_getElem (by omega)⟩
  unfold LessonView.Update
  simp only []
  split_ifs with h1 h2 h3 h4 h5 h6 h7 h8
  · exact ⟨_, rfl, h⟩
  · exact ⟨_, rfl, h⟩
  · exact ⟨_, rfl, h⟩
  · exact ⟨_, rfl, h⟩
  · obtain ⟨x, hx⟩ := hat (l.currentLesson + 1) (by omega) (by omega)
    rw [hx]
    exact ⟨_, rfl, by show 0 ≤ l.currentLesson + 1; omega,
      by show l.currentLesson + 1 < (l.module.Lessons.length : Int); omega⟩
  · exact ⟨_, rfl, h⟩
  · obtain ⟨x, hx⟩ := hat (l.currentLesson - 1) (by omega) (by omega)
    rw [hx]
    exact ⟨_, rfl, by show 0 ≤ l.currentLesson - 1; omega,
      by show l.currentLesson - 1 < (l.module.Lessons.length : Int); omega⟩
  · exact ⟨_, rfl, h⟩
  · exact ⟨_, rfl, h⟩
  · exact ⟨_, rfl, h⟩

/-- Case `StateLesson` does not panic and keeps the invariant. -/
theorem updateLesson_inv (m : Model) (key : String) (h : navInv m) :
    ∃ f, updateLesson m key = some f ∧ navInv f.model := by
  unfold updateLesson
  split
  · exact ⟨_, rfl, h⟩
  · rename_i lessonView hlv
    split_ifs
    · exact ⟨_, rfl, h.state, h.menus, h.current, h.dashboard, h.module, h.lesson⟩
    · exact ⟨_, rfl, h.state, h.menus, h.current, h.dashboard, h.module, h.lesson⟩
    · exact ⟨_, rfl, Or.inr (Or.inr (Or.inr (Or.inr (Or.inl rfl)))), h.menus, h.current,
        h.dashboard, h.module, h.lesson⟩
    · obtain ⟨l2, hl2, hidx⟩ := lessonView_update_index lessonView key (h.lesson _ hlv)
      rw [hl2]
      exact ⟨_, rfl, h.state, h.menus, h.current, h.dashboard, h.module,
        fun l3 hl3 => by cases hl3; exact hidx⟩
    · exact ⟨_, rfl, h⟩

/-- Case `StateSignIn` keeps the invariant. -/
theorem updateSignIn_inv (env : Env) (m : Model) (msg : KeyMsg) (h : navInv m) :
    navInv (updateSignIn env m msg).model := by
  unfold updateSignIn
  generalize (match m.SignInView with
    | some v => v
    | none => NewSignInView m.TerminalWidth m.TerminalHeight) = signInView
  simp only []
  split_ifs <;> (try split) <;> (try split) <;>
    first
    | exact ⟨h.state, h.menus, h.current, h.dashboard, h.module, h.lesson⟩
    | exact ⟨Or.inr (Or.inr (Or.inl rfl)), h.menus, h.current, h.dashboard, h.module,
        h.lesson⟩
    | exact ⟨Or.inr (Or.inr (Or.inr (Or.inr (Or.inl rfl)))), h.menus, h.current,
        fun d hd => by cases hd; rfl, h.module, h.lesson⟩

/-- The common key handling keeps the invariant. -/
theorem commonKeys_inv (m : Model) (key : String) (h : navInv m) :
    navInv (commonKeys m key).1 := by
  unfold commonKeys
  split_ifs <;> exact ⟨h.state, h.menus, h.current, h.dashboard, h.module, h.lesson⟩

/-- The tick keeps the invariant. -/
theorem updateTick_inv (env : Env) (m : Model) (h : navInv m) :
    navInv (updateTick env m).1 := by
  unfold updateTick
  split_ifs <;> exact ⟨h.state, h.menus, h.current, h.dashboard, h.module, h.lesson⟩

/-- A window resize does not panic and keeps the invariant. -/
theorem updateWindowSize_inv (m : Model) (width height : Int) (h : navInv m) :
    ∃ r, updateWindowSize m width height = some r ∧ navInv r.1 := by
  unfold updateWindowSize
  simp only []
  have hn : navInv (match m.Dashboard with
      | some dashboard =>
        { m with TerminalWidth := width, TerminalHeight := height,
                 Dashboard := some (NewDashboardViewWithUser width height
                   (match m.CurrentAccount with
                    | some account => account.Name
                    | none => if dashboard.UserName ≠ "" then dashboard.UserName else "")) }
      | none => { m with TerminalWidth := width, TerminalHeight := height }) := by
    split
    · exact ⟨h.state, h.menus, h.current, fun d hd => by cases hd; rfl, h.module, h.lesson⟩
    · exact ⟨h.state, h.menus, h.current, h.dashboard, h.module, h.lesson⟩
  generalize (match m.Dashboard with
      | some dashboard =>
        { m with TerminalWidth := width, TerminalHeight := height,
                 Dashboard := some (NewDashboardViewWithUser width height
                   (match m.CurrentAccount with
                    | some account => account.Name
                    | none => if dashboard.UserName ≠ "" then dashboard.UserName else "")) }
      | none => { m with TerminalWidth := width, TerminalHeight := height }) = n at hn ⊢
  split
  · rename_i lv currentModule hlv hcm
    obtain ⟨l, hl⟩ := newLessonView_available currentModule (hn.module _ hcm)
      n.TerminalWidth n.TerminalHeight
    have hidx := newLessonView_index currentModule n.TerminalWidth n.TerminalHeight l hl
    simp only [hl, Option.map_some']
    exact ⟨_, rfl, hn.state, hn.menus, hn.current, hn.dashboard, hn.module,
      fun l2 hl2 => by cases hl2; exact hidx⟩
  · exact ⟨_, rfl, hn⟩

/-- One call of `Update` on a model under the invariant does not panic and
returns a model under the invariant. -/
theorem update_inv (env : Env) (m : Model) (msg : Msg) (h : navInv m) :
    ∃ r, Update env m msg = some r ∧ navInv r.1 := by
  have hflow : ∀ (f : Flow) (key : String), navInv f.model →
      navInv (match f with
        | .ret r => r
        | .next m1 => commonKeys m1 key).1 := by
    intro f key hf
    cases f with
    | ret r => exact hf
    | next m1 => exact commonKeys_inv m1 key hf
  cases msg with
  | WindowSizeMsg width height => exact updateWindowSize_inv m width height h
  | tickMsg => exact ⟨_, rfl, updateTick_inv env m h⟩
  | other => exact ⟨_, rfl, h⟩
  | KeyMsg key =>
    have hstate : ∃ f, updateKeyState env m key = some f ∧ navInv f.model := by
      unfold updateKeyState
      split_ifs with h1 h2 h3 h4 h5 h6 h7
      · exact ⟨_, rfl, updateIntro_inv m _ h⟩
      · exact ⟨_, rfl, updateAccountCreation_inv env m key h⟩
      · exact ⟨_, rfl, updateAuthMenu_inv env m _ h⟩
      · exfalso
        rcases h.state with hs | hs | hs | hs | hs | hs <;> rw [hs] at h4 <;>
          exact absurd h4 (by decide)
      · exact updateDashboard_inv m _ h
      · exact updateLesson_inv m _ h
      · exact ⟨_, rfl, updateSignIn_inv env m key h⟩
      · exact ⟨_, rfl, h⟩
    obtain ⟨f, hf, hinv⟩ := hstate
    simp only [Update, hf, Option.map_some']
    exact ⟨_, rfl, hflow f key.String hinv⟩

/-- A run from a model under the invariant does not panic, and every model of
it is under the invariant. -/
theorem run_inv : ∀ (steps : List (Env × Msg)) (m : Model), navInv m →
    ∃ ms, run m steps = some ms ∧ ms.length = steps.length ∧ ∀ x ∈ ms, navInv x := by
  intro steps
  induction steps with
  | nil => intro m _; exact ⟨[], rfl, rfl, fun x hx => by cases hx⟩
  | cons step rest ih =>
    intro m h
    obtain ⟨env, msg⟩ := step
    obtain ⟨r, hr, hinv⟩ := update_inv env m msg h
    obtain ⟨ms, hms, hlen, hall⟩ := ih r.1 hinv
    refine ⟨r.1 :: ms, ?_, by simp [hlen], ?_⟩
    · simp only [run, hr, hms]
    · intro x hx
      rcases List.mem_cons.mp hx with rfl | hx
      · exact hinv
      · exact hall x hx

/-- The initial model is under the invariant. -/
theorem newModel_inv (flames : List String) (store : Option Store) :
    navInv (NewModel flames store) :=
  ⟨Or.inl rfl, rfl, Or.inl rfl, fun _ hd => Option.noConfusion hd,
    fun _ hc => Option.noConfusion hc, fun _ hl => Option.noConfusion hl⟩

/-- C1: for every finite sequence of messages (key, tick, window size, or any
other) applied by `Update` from the initial model, whatever the store, the
random draws and the clock, no step panics, and after each step `AppState` is
one of Intro, AccountCreation, AuthMenu, SignIn, ModuleExplorer, Dashboard,
Lesson, and none of the legacy states MainMenu, LearnMenu, Studio, Settings,
SignInPlaceholder. -/
theorem appState_never_legacy (flames : List String) (store : Option Store)
    (steps : List (Env × Msg)) :
    ∃ ms, run (NewModel flames store) steps = some ms ∧ ms.length = steps.length ∧
      ∀ m ∈ ms,
        (m.AppState = StateIntro ∨ m.AppState = StateAccountCreation ∨
          m.AppState = StateAuthMenu ∨ m.AppState = StateSignIn ∨
          m.AppState = StateModuleExplorer ∨ m.AppState = StateDashboard ∨
          m.AppState = StateLesson) ∧
        m.AppState ≠ StateMainMenu ∧ m.AppState ≠ StateLearnMenu ∧
        m.AppState ≠ StateStudio ∧ m.AppState ≠ StateSettings ∧
        m.AppState ≠ StateSignInPlaceholder := by
  obtain ⟨ms, hms, hlen, hall⟩ := run_inv steps (NewModel flames store)
    (newModel_inv flames store)
  refine ⟨ms, hms, hlen, fun m hm => ?_⟩
  rcases (hall m hm).state with hs | hs | hs | hs | hs | hs <;> rw [hs] <;> decide

/-! ## Theorems: sign-up, sign-in and the quit keys -/

/-- A key in state AccountCreation is handled by its case alone. -/
theorem update_accountCreation (env : Env) (m : Model) (key : KeyMsg)
    (hs : m.AppState = StateAccountCreation) :
    Update env m (Msg.KeyMsg key) =
      some (match updateAccountCreation env m key with
        | .ret r => r
        | .next m1 => commonKeys m1 key.String) := by
  simp [Update, updateKeyState, hs]

/-- A number that the generation loop returns without error does not exist in
the store. -/
theorem generateLoop_free {γ : Type} (s : Store) (generator : γ → String × γ) (n : String) :
    ∀ (fuel : Nat) (g : γ), (Store.generateLoop s generator fuel g).1 = (n, none) →
      s.db.AccountExists n = false := by
  intro fuel
  induction fuel with
  | zero =>
    intro g h
    simp [Store.generateLoop] at h
  | succ fuel ih =>
    intro g h
    unfold Store.generateLoop at h
    simp only [] at h
    split_ifs at h with hex
    · exact ih _ h
    · simp only [Prod.mk.injEq, and_true] at h
      rw [← h]
      simpa using hex

/-- On a number that does not exist, `Store.CreateAccount` succeeds: the
account gets the next id and its row is appended. -/
theorem createAccount_of_free (s : Store) (now name email n : String)
    (h : s.db.AccountExists n = false) :
    s.CreateAccount now name email n =
      (.ok { ID := s.db.accountsSeq + 1, AccountNumber := n, Name := name, Email := email,
             IsActive := true },
       { s with db := { s.db with
           accounts := s.db.accounts ++
             [{ id := s.db.accountsSeq + 1, account_number := n, name := name,
                email := email, created_at := some now, last_login := none,
                is_active := true }],
           accountsSeq := s.db.accountsSeq + 1 } }) := by
  have hany : (s.db.accounts.any (fun row => row.account_number == n)) = false := by
    rw [List.any_eq_false]
    intro row hmem
    simpa using not_mem_of_accountExists_false s.db n h row hmem
  simp [Store.CreateAccount, h, Database.CreateAccount, hany]

/-- The key `enter` on the email field, both fields filled, over a store on
which the generation returns `n` and no driver error occurs. -/
theorem enterOnEmail_ok (env : Env) (m : Model) (key : KeyMsg) (s : Store) (n : String)
    (hs : m.AppState = StateAccountCreation) (hf : m.FocusedField = FocusEmail)
    (hname : m.NameInput.Value ≠ "") (hemail : m.EmailInput.Value ≠ "")
    (hstore : m.AccountStore = some s) (hk : key.String = "enter")
    (hfg : env.faults.generate = none) (hfc : env.faults.createAccount = none)
    (hgen : (s.GenerateUniqueAccountNumber generateAccountNumber env.rand).1 = (n, none)) :
    Update env m (Msg.KeyMsg key) =
      some ({ m with
        GeneratedAccountNumber := n,
        AccountStore := some { s with db := { s.db with
          accounts := s.db.accounts ++
            [{ id := s.db.accountsSeq + 1, account_number := n, name := m.NameInput.Value,
               email := m.EmailInput.Value, created_at := some env.now, last_login := none,
               is_active := true }],
          accountsSeq := s.db.accountsSeq + 1 } },
        CurrentAccount := some
          { ID := s.db.accountsSeq + 1, AccountNumber := n, Name := m.NameInput.Value,
            Email := m.EmailInput.Value, IsActive := true },
        FocusedField := FocusDisplayInfo,
        NameInput := m.NameInput.Blur,
        EmailInput := m.EmailInput.Blur }, Cmd.nil) := by
  have hfree : s.db.AccountExists n = false :=
    generateLoop_free s generateAccountNumber n 100 env.rand hgen
  have hg : callGenerate env s = (n, none) := by
    simp only [callGenerate, hfg]
    exact hgen
  have hc : callCreateAccount env s m.NameInput.Value m.EmailInput.Value n =
      s.CreateAccount env.now m.NameInput.Value m.EmailInput.Value n := by
    simp only [callCreateAccount, hfc]
  have hc2 := createAccount_of_free s env.now m.NameInput.Value m.EmailInput.Value n hfree
  rw [update_accountCreation env m key hs]
  unfold updateAccountCreation
  simp [hk, hf, hname, hemail, hstore, hg, hc, hc2, showAccountInfo]

/-- C12: in state AccountCreation with the focus on the email field, both
fields filled, over a store on which the generation returns the number `n` and
no driver error occurs, `enter` returns no command and a model whose
`GeneratedAccountNumber` is `n`, a number no account in the store held before;
the store has gained exactly one row, active, with that number and the entered
name and email; `CurrentAccount` is that account; `FocusedField` is
`FocusDisplayInfo` and `AppState` is still AccountCreation. -/
theorem enterOnEmail_creates (env : Env) (m : Model) (key : KeyMsg) (s : Store) (n : String)
    (hs : m.AppState = StateAccountCreation) (hf : m.FocusedField = FocusEmail)
    (hname : m.NameInput.Value ≠ "") (hemail : m.EmailInput.Value ≠ "")
    (hstore : m.AccountStore = some s) (hk : key.String = "enter")
    (hfg : env.faults.generate = none) (hfc : env.faults.createAccount = none)
    (hgen : (s.GenerateUniqueAccountNumber generateAccountNumber env.rand).1 = (n, none)) :
    ∃ r a row s1, Update env m (Msg.KeyMsg key) = some r ∧ r.2 = Cmd.nil ∧
      r.1.GeneratedAccountNumber = n ∧
      s.db.AccountExists n = false ∧ (∀ old ∈ s.db.accounts, old.account_number ≠ n) ∧
      r.1.AccountStore = some s1 ∧ s1.db.accounts = s.db.accounts ++ [row] ∧
      s1.GetAccountCount = s.GetAccountCount + 1 ∧
      row.account_number = n ∧ row.name = m.NameInput.Value ∧
      row.email = m.EmailInput.Value ∧ row.is_active = true ∧
      r.1.CurrentAccount = some a ∧ a.ID = row.id ∧ a.AccountNumber = n ∧
      a.Name = m.NameInput.Value ∧ a.Email = m.EmailInput.Value ∧ a.IsActive = true ∧
      r.1.FocusedField = FocusDisplayInfo ∧ r.1.AppState = StateAccountCreation := by
  have hfree : s.db.AccountExists n = false :=
    generateLoop_free s generateAccountNumber n 100 env.rand hgen
  refine ⟨_, _, _, _, enterOnEmail_ok env m key s n hs hf hname hemail hstore hk hfg hfc hgen,
    rfl, rfl, hfree, not_mem_of_accountExists_false s.db n hfree, rfl, rfl, ?_,
    rfl, rfl, rfl, rfl, rfl, rfl, rfl, rfl, rfl, rfl, rfl, hs⟩
  simp [Store.GetAccountCount, Database.GetAccountCount, List.filter_append]

/-- The instance of `enterOnEmail_creates` at the fields `"Ann"` and
`"a@b.com"` over the empty store, where the draws of `envZero` give the number
`"1000 0000 0000 0000"`. -/
theorem enterOnEmail_creates_witness :
    ∃ r a row s1,
      Update envZero (accountCreationModel (some {}) "Ann" "a@b.com" FocusEmail) enterKey =
        some r ∧ r.2 = Cmd.nil ∧
      r.1.GeneratedAccountNumber = "1000 0000 0000 0000" ∧
      ({} : Store).db.AccountExists "1000 0000 0000 0000" = false ∧
      (∀ old ∈ ({} : Store).db.accounts, old.account_number ≠ "1000 0000 0000 0000") ∧
      r.1.AccountStore = some s1 ∧ s1.db.accounts = ({} : Store).db.accounts ++ [row] ∧
      s1.GetAccountCount = ({} : Store).GetAccountCount + 1 ∧
      row.account_number = "1000 0000 0000 0000" ∧ row.name = "Ann" ∧
      row.email = "a@b.com" ∧ row.is_active = true ∧
      r.1.CurrentAccount = some a ∧ a.ID = row.id ∧ a.AccountNumber = "1000 0000 0000 0000" ∧
      a.Name = "Ann" ∧ a.Email = "a@b.com" ∧ a.IsActive = true ∧
      r.1.FocusedField = FocusDisplayInfo ∧ r.1.AppState = StateAccountCreation :=
  enterOnEmail_creates envZero (accountCreationModel (some {}) "Ann" "a@b.com" FocusEmail)
    (KeyMsg.special "enter") {} "1000 0000 0000 0000" rfl rfl (by decide) (by decide) rfl rfl
    rfl rfl rfl

/-- The key `enter` on the email field when the generation of a number fails:
the model is returned as it was. -/
theorem enterOnEmail_generation_fails (env : Env) (m : Model) (key : KeyMsg) (s : Store)
    (x : String) (err : Error)
    (hs : m.AppState = StateAccountCreation) (hf : m.FocusedField = FocusEmail)
    (hname : m.NameInput.Value ≠ "") (hemail : m.EmailInput.Value ≠ "")
    (hstore : m.AccountStore = some s) (hk : key.String = "enter")
    (hgen : callGenerate env s = (x, some err)) :
    Update env m (Msg.KeyMsg key) = some (m, Cmd.nil) := by
  rw [update_accountCreation env m key hs]
  unfold updateAccountCreation
  simp [hk, hf, hname, hemail, hstore, hgen]

/-- C13: the sign-up keys lead to the email field with `"Ann"` and `"a@b.com"`
typed and no number generated yet. When the driver then fails the `INSERT` of
`CreateAccount` (the file is locked), `enter` adds no account, keeps the focus
on the email field and sets no current account, but the model it returns
carries the number just generated in `GeneratedAccountNumber`. -/
theorem createAccount_failure_keeps_number :
    (runLast (NewModel [] (some {})) (signUpKeys "Ann" "a@b.com")).bind
      (fun m => (Update envLocked m enterKey).map (fun r =>
        (m.AppState, m.FocusedField, m.NameInput.Value, m.EmailInput.Value,
          m.GeneratedAccountNumber, r.1.GeneratedAccountNumber, r.1.FocusedField,
          r.1.AccountStore, r.1.CurrentAccount, r.2))) =
      some (StateAccountCreation, FocusEmail, "Ann", "a@b.com", "", "1000 0000 0000 0000",
        FocusEmail, some {}, none, Cmd.nil) := by
  rfl

/-- The sanitiser keeps a rune that is neither U+FFFD nor a control
character. -/
theorem sanitize_kept (c : Char) (hc : c.toNat ≠ 65533 ∧ TextInput.isControl c = false) :
    TextInput.sanitize [c] = [c] := by
  obtain ⟨h1, h2⟩ := hc
  have h3 := h2
  simp only [TextInput.isControl, Bool.or_eq_false_iff, Bool.and_eq_false_iff,
    decide_eq_false_iff_not] at h3
  have h13 : ¬(c.toNat = 13 ∨ c.toNat = 10) := by omega
  have h9 : ¬(c.toNat = 9) := by omega
  simp [TextInput.sanitize, TextInput.sanitizeRune, h1, h13, h9, h2]

/-- A rune that the sanitiser keeps, typed at the end of a focused text input
with room left, is appended. -/
theorem textInput_type (t : TextInput) (c : Char) (hfocus : t.focus = true)
    (hpos : t.pos = t.value.length) (hlim : (t.value.length : Int) < t.CharLimit)
    (hc : c.toNat ≠ 65533 ∧ TextInput.isControl c = false) :
    t.Update (KeyMsg.KeyRunes [c]) =
      ({ t with value := t.value ++ [c], pos := t.pos + 1 }, Cmd.input) := by
  have h1 : ¬(t.CharLimit > 0 ∧ t.CharLimit - (t.value.length : Int) ≤ 0) := by omega
  have h4 : ¬(t.CharLimit - (t.value.length : Int) ≤ 0) := by omega
  have h2 : t.CharLimit > 0 := by omega
  have h3 : (TextInput.sanitize [c]).take (t.CharLimit - (t.value.length : Int)).toNat =
      [c] := by
    rw [sanitize_kept c hc]
    have : 1 ≤ (t.CharLimit - (t.value.length : Int)).toNat := by omega
    exact List.take_of_length_le (by simpa using this)
  simp only [TextInput.Update, hfocus, TextInput.insertRunes, h1, h2, h3, hpos,
    List.take_length, List.drop_length, List.append_nil, List.length_singleton,
    Bool.not_true, if_true, if_false, Bool.false_eq_true, h4, and_false, true_and]

/-- The name a typed rune has as a key is not the name of any key that state
AccountCreation treats apart, unless the rune is `q`. -/
theorem rune_string (c : Char) (hc : c ≠ 'q') :
    (KeyMsg.KeyRunes [c]).String ≠ "ctrl+c" ∧ (KeyMsg.KeyRunes [c]).String ≠ "q" ∧
      (KeyMsg.KeyRunes [c]).String ≠ "enter" ∧ (KeyMsg.KeyRunes [c]).String ≠ "tab" ∧
      (KeyMsg.KeyRunes [c]).String ≠ "shift+tab" ∧ (KeyMsg.KeyRunes [c]).String ≠ "up" ∧
      (KeyMsg.KeyRunes [c]).String ≠ "down" := by
  have hlen : ∀ s : String, s.length ≠ 1 → (KeyMsg.KeyRunes [c]).String ≠ s := by
    intro s hs h
    apply hs
    rw [← h]
    rfl
  refine ⟨hlen _ (by decide), ?_, hlen _ (by decide), hlen _ (by decide), hlen _ (by decide),
    hlen _ (by decide), hlen _ (by decide)⟩
  intro h
  apply hc
  have := congrArg String.data h
  simpa [KeyMsg.String] using this

/-- A rune other than `q` typed in state AccountCreation goes to the focused
field. -/
theorem update_rune_accountCreation (env : Env) (m : Model) (c : Char) (hc : c ≠ 'q')
    (hs : m.AppState = StateAccountCreation) :
    Update env m (runeKey c) =
      some (match fieldInput m (KeyMsg.KeyRunes [c]) with
        | .ret r => r
        | .next m1 => commonKeys m1 (KeyMsg.KeyRunes [c]).String) := by
  obtain ⟨h1, h2, h3, h4, h5, h6, h7⟩ := rune_string c hc
  unfold runeKey
  rw [update_accountCreation env m _ hs]
  unfold updateAccountCreation
  simp only [h1, h2, h3, h4, h5, h6, h7, or_self, if_false]

/-- Runes typed into the name field. -/
theorem type_name (env : Env) : ∀ (text : List Char) (m : Model),
    m.AppState = StateAccountCreation → m.FocusedField = FocusName →
    m.NameInput.focus = true → m.NameInput.pos = m.NameInput.value.length →
    ((m.NameInput.value.length + text.length : Nat) : Int) ≤ m.NameInput.CharLimit →
    (∀ c ∈ text, c ≠ 'q') →
    (∀ c ∈ text, c.toNat ≠ 65533 ∧ TextInput.isControl c = false) →
    runLast m (typeRunes env text) =
      some { m with NameInput :=
        { m.NameInput with value := m.NameInput.value ++ text,
                           pos := m.NameInput.pos + text.length } } := by
  intro text
  induction text with
  | nil =>
    intro m _ _ _ _ _ _ _
    simp [typeRunes, runLast]
  | cons c rest ih =>
    intro m hs hf hfocus hpos hlim hq hk
    have hc : c ≠ 'q' := hq c (List.mem_cons_self _ _)
    have hkc := hk c (List.mem_cons_self _ _)
    have hlim1 : (m.NameInput.value.length : Int) < m.NameInput.CharLimit := by
      simp only [List.length_cons] at hlim
      omega
    have hstep : Update env m (runeKey c) =
        some ({ m with NameInput :=
          { m.NameInput with value := m.NameInput.value ++ [c],
                             pos := m.NameInput.pos + 1 } }, Cmd.input) := by
      rw [update_rune_accountCreation env m c hc hs]
      simp only [fieldInput, hf, if_true, textInput_type m.NameInput c hfocus hpos hlim1 hkc]
    simp only [typeRunes, List.map_cons, runLast, hstep]
    have := ih { m with NameInput :=
          { m.NameInput with value := m.NameInput.value ++ [c],
                             pos := m.NameInput.pos + 1 } } hs hf hfocus
      (by simp [hpos]) (by simp only [List.length_append, List.length_cons] at hlim ⊢
                           simp only [List.length_nil] at hlim ⊢
                           omega)
      (fun x hx => hq x (List.mem_cons_of_mem _ hx))
      (fun x hx => hk x (List.mem_cons_of_mem _ hx))
    simp only [typeRunes] at this
    rw [this]
    simp [List.append_assoc, Nat.add_assoc, Nat.add_comm 1]

/-- Runes typed into the email field. -/
theorem type_email (env : Env) : ∀ (text : List Char) (m : Model),
    m.AppState = StateAccountCreation → m.FocusedField = FocusEmail →
    m.EmailInput.focus = true → m.EmailInput.pos = m.EmailInput.value.length →
    ((m.EmailInput.value.length + text.length : Nat) : Int) ≤ m.EmailInput.CharLimit →
    (∀ c ∈ text, c ≠ 'q') →
    (∀ c ∈ text, c.toNat ≠ 65533 ∧ TextInput.isControl c = false) →
    runLast m (typeRunes env text) =
      some { m with EmailInput :=
        { m.EmailInput with value := m.EmailInput.value ++ text,
                            pos := m.EmailInput.pos + text.length } } := by
  intro text
  induction text with
  | nil =>
    intro m _ _ _ _ _ _ _
    simp [typeRunes, runLast]
  | cons c rest ih =>
    intro m hs hf hfocus hpos hlim hq hk
    have hc : c ≠ 'q' := hq c (List.mem_cons_self _ _)
    have hkc := hk c (List.mem_cons_self _ _)
    have hlim1 : (m.EmailInput.value.length : Int) < m.EmailInput.CharLimit := by
      simp only [List.length_cons] at hlim
      omega
    have hstep : Update env m (runeKey c) =
        some ({ m with EmailInput :=
          { m.EmailInput with value := m.EmailInput.value ++ [c],
                              pos := m.EmailInput.pos + 1 } }, Cmd.input) := by
      rw [update_rune_accountCreation env m c hc hs]
      simp [fieldInput, hf, textInput_type m.EmailInput c hfocus hpos hlim1 hkc]
    simp only [typeRunes, List.map_cons, runLast, hstep]
    have := ih { m with EmailInput :=
          { m.EmailInput with value := m.EmailInput.value ++ [c],
                              pos := m.EmailInput.pos + 1 } } hs hf hfocus
      (by simp [hpos]) (by simp only [List.length_append, List.length_cons] at hlim ⊢
                           simp only [List.length_nil] at hlim ⊢
                           omega)
      (fun x hx => hq x (List.mem_cons_of_mem _ hx))
      (fun x hx => hk x (List.mem_cons_of_mem _ hx))
    simp only [typeRunes] at this
    rw [this]
    simp [List.append_assoc, Nat.add_assoc, Nat.add_comm 1]

/-- Every number `generateAccountNumber` returns is grouped and starts with a
digit from 1 to 9. -/
theorem generateAccountNumber_grouped (r : Rand) :
    isGroupedNumber (generateAccountNumber r).1 ∧
      startsNonzero (generateAccountNumber r).1 = true := by
  have hd : ∀ n : Nat, (Nat.digitChar (n % 10)).isDigit = true :=
    fun n => digitChar_isDigit _ (Nat.mod_lt _ (by decide))
  have hd9 : ∀ n : Nat, (Nat.digitChar (n % 9 + 1)).isDigit = true :=
    fun n => digitChar_isDigit _ (by omega)
  have hs : ∀ n : Nat, Nat.digitChar (n % 10) ≠ ' ' :=
    fun n => digitChar_ne_space _ (Nat.mod_lt _ (by decide))
  have hs9 : ∀ n : Nat, Nat.digitChar (n % 9 + 1) ≠ ' ' :=
    fun n => digitChar_ne_space _ (by omega)
  have hnz := digitChar_nonzero (r.draws r.pos % 9) (Nat.mod_lt _ (by decide))
  rw [generateAccountNumber_eq]
  refine ⟨⟨⟨?_, ?_⟩, ?_⟩, ?_⟩
  · simp [removeSpaces, List.filter, hs, hs9]
  · simp [removeSpaces, List.filter, hs, hs9, hd, hd9]
  · simp [removeSpaces, List.filter, hs, hs9, groupedForm]
  · simp [startsNonzero, hnz.1, hnz.2]

/-- On the empty store the first generated number is taken. -/
theorem generate_on_empty (r : Rand) :
    (({} : Store).GenerateUniqueAccountNumber generateAccountNumber r).1 =
      ((generateAccountNumber r).1, none) := by
  rfl

/-- The key `enter` on the name field moves the focus to the email field; the
email input is focused in the returned model when `m` is read after the
call. -/
theorem enterOnName (env : Env) (m : Model) (key : KeyMsg)
    (hs : m.AppState = StateAccountCreation) (hf : m.FocusedField = FocusName)
    (hk : key.String = "enter") (hra : env.readAfterCalls = true) :
    Update env m (Msg.KeyMsg key) =
      some ({ m with FocusedField := FocusEmail, NameInput := m.NameInput.Blur,
                     EmailInput := m.EmailInput.Focus }, Cmd.blink) := by
  rw [update_accountCreation env m key hs]
  unfold updateAccountCreation
  simp [hk, hf, returnWithFocus, hra]

/-- The key `enter` on the account display moves to the dashboard. -/
theorem enterOnDisplayInfo (env : Env) (m : Model) (key : KeyMsg)
    (hs : m.AppState = StateAccountCreation) (hf : m.FocusedField = FocusDisplayInfo)
    (hk : key.String = "enter") :
    Update env m (Msg.KeyMsg key) =
      some ({ m with
        AppState := StateDashboard,
        Dashboard := some (NewDashboardViewWithUser m.TerminalWidth m.TerminalHeight
          (match m.CurrentAccount with
           | some account => account.Name
           | none => m.NameInput.Value)),
        ShowAccountWarning := false }, Cmd.nil) := by
  rw [update_accountCreation env m key hs]
  unfold updateAccountCreation
  simp [hk, hf]

/-- A string built from runes is empty only when there are none. -/
theorem mk_ne_empty (cs : List Char) (h : cs ≠ []) : String.mk cs ≠ "" := by
  intro he
  apply h
  have := congrArg String.data he
  simpa using this

/-- C11: the sign-up scenario from the initial model over an empty store, for
every name of 1 to 50 runes and every email of 1 to 100 runes, neither of them
containing `q`, U+FFFD or a control character, typed rune by rune, when no
driver error occurs and the operand `m` of `return m, m.EmailInput.Focus()` is
read after the call. The
seven stops of `enter; enter; name; enter; email; enter; enter` are: AuthMenu;
AccountCreation with focus Name; the same with the name in the field; focus
Email; the same with the email in the field; focus DisplayInfo, where
`GeneratedAccountNumber` is a grouped 16-digit number starting with a digit
from 1 to 9 and the store holds exactly one account, with that number and the
typed name and email; Dashboard, with the account count 1. -/
theorem signUp_scenario (env : Env) (flames : List String) (name email : List Char)
    (hn : name ≠ []) (he : email ≠ [])
    (hnl : name.length ≤ 50) (hel : email.length ≤ 100)
    (hnq : ∀ c ∈ name, c ≠ 'q') (heq : ∀ c ∈ email, c ≠ 'q')
    (hnk : ∀ c ∈ name, c.toNat ≠ 65533 ∧ TextInput.isControl c = false)
    (hek : ∀ c ∈ email, c.toNat ≠ 65533 ∧ TextInput.isControl c = false)
    (hra : env.readAfterCalls = true)
    (hfg : env.faults.generate = none) (hfc : env.faults.createAccount = none) :
    ∃ m1 m2 m3 m4 m5 m6 m7,
      signUpStops env (NewModel flames (some {})) name email =
        some [m1, m2, m3, m4, m5, m6, m7] ∧
      m1.AppState = StateAuthMenu ∧
      m2.AppState = StateAccountCreation ∧ m2.FocusedField = FocusName ∧
      m3.AppState = StateAccountCreation ∧ m3.FocusedField = FocusName ∧
      m3.NameInput.Value = String.mk name ∧
      m4.AppState = StateAccountCreation ∧ m4.FocusedField = FocusEmail ∧
      m5.AppState = StateAccountCreation ∧ m5.FocusedField = FocusEmail ∧
      m5.NameInput.Value = String.mk name ∧ m5.EmailInput.Value = String.mk email ∧
      m6.AppState = StateAccountCreation ∧ m6.FocusedField = FocusDisplayInfo ∧
      isGroupedNumber m6.GeneratedAccountNumber ∧
      startsNonzero m6.GeneratedAccountNumber = true ∧
      (∃ s row, m6.AccountStore = some s ∧ s.db.accounts = [row] ∧
        row.name = String.mk name ∧ row.email = String.mk email ∧
        row.account_number = m6.GeneratedAccountNumber ∧ row.is_active = true ∧
        s.GetAccountCount = 1) ∧
      m7.AppState = StateDashboard ∧
      (∃ s, m7.AccountStore = some s ∧ s.GetAccountCount = 1) := by
  obtain ⟨rand, now, paint, ra, ⟨fg, fc, fs, fss⟩⟩ := env
  simp only at hra hfg hfc
  subst hra hfg hfc
  generalize hE : (⟨rand, now, paint, true, ⟨none, none, fs, fss⟩⟩ : Env) = env
  have hra : env.readAfterCalls = true := by rw [← hE]
  have hfg : env.faults.generate = none := by rw [← hE]
  have hfc : env.faults.createAccount = none := by rw [← hE]
  have h1 : Update env (NewModel flames (some {})) enterKey =
      some ({ NewModel flames (some {}) with
        AppState := StateAuthMenu,
        MenuManager := ((NewModel flames (some {})).MenuManager.SetCurrentMenu
          StateAuthMenu).2,
        MenuCursor := 0 }, Cmd.nil) := rfl
  generalize hM1 : ({ NewModel flames (some {}) with
        AppState := StateAuthMenu,
        MenuManager := ((NewModel flames (some {})).MenuManager.SetCurrentMenu
          StateAuthMenu).2,
        MenuCursor := 0 } : Model) = M1 at h1
  have h2 : Update env M1 enterKey =
      some ({ M1 with
        AppState := StateAccountCreation, MenuCursor := 0, FocusedField := FocusName,
        NameInput := (M1.NameInput.SetValue "").Focus,
        EmailInput := M1.EmailInput.SetValue "",
        GeneratedAccountNumber := "" }, Cmd.blink) := by
    subst hM1 hE
    rfl
  generalize hM2 : ({ M1 with
        AppState := StateAccountCreation, MenuCursor := 0, FocusedField := FocusName,
        NameInput := (M1.NameInput.SetValue "").Focus,
        EmailInput := M1.EmailInput.SetValue "",
        GeneratedAccountNumber := "" } : Model) = M2 at h2
  have hM2s : M2.AppState = StateAccountCreation := by rw [← hM2]
  have hM2f : M2.FocusedField = FocusName := by rw [← hM2]
  have hM2n : M2.NameInput =
      { Placeholder := "Your Name", CharLimit := 50, Width := 30, Prompt := "", value := [],
        focus := true, pos := 0 } := by
    rw [← hM2, ← hM1]; rfl
  have hM2e : M2.EmailInput =
      { Placeholder := "Your Email", CharLimit := 100, Width := 30, Prompt := "", value := [],
        focus := false, pos := 0 } := by
    rw [← hM2, ← hM1]; rfl
  have hM2a : M2.AccountStore = some {} := by rw [← hM2, ← hM1]; rfl
  have hM2c : M2.CurrentAccount = none := by rw [← hM2, ← hM1]; rfl
  have h3 := type_name env name M2 hM2s hM2f (by rw [hM2n]) (by rw [hM2n]; rfl)
    (by rw [hM2n]; simp; omega) hnq hnk
  rw [hM2n] at h3
  simp only [List.nil_append, Nat.zero_add] at h3
  generalize hM3 : ({ M2 with NameInput :=
      { Placeholder := "Your Name", CharLimit := 50, Width := 30, Prompt := "", value := name,
        focus := true, pos := name.length } } : Model) = M3 at h3
  have hM3s : M3.AppState = StateAccountCreation := by rw [← hM3]; exact hM2s
  have hM3f : M3.FocusedField = FocusName := by rw [← hM3]; exact hM2f
  have hM3n : M3.NameInput.Value = String.mk name := by rw [← hM3]; rfl
  have hM3e : M3.EmailInput = M2.EmailInput := by rw [← hM3]
  have hM3a : M3.AccountStore = some {} := by rw [← hM3]; exact hM2a
  have hM3c : M3.CurrentAccount = none := by rw [← hM3]; exact hM2c
  have h4 := enterOnName env M3 (KeyMsg.special "enter") hM3s hM3f rfl hra
  generalize hM4 : ({ M3 with FocusedField := FocusEmail, NameInput := M3.NameInput.Blur,
                              EmailInput := M3.EmailInput.Focus } : Model) = M4 at h4
  have hM4s : M4.AppState = StateAccountCreation := by rw [← hM4]; exact hM3s
  have hM4f : M4.FocusedField = FocusEmail := by rw [← hM4]
  have hM4n : M4.NameInput.Value = String.mk name := by rw [← hM4]; exact hM3n
  have hM4e : M4.EmailInput =
      { Placeholder := "Your Email", CharLimit := 100, Width := 30, Prompt := "", value := [],
        focus := true, pos := 0 } := by
    rw [← hM4]
    show M3.EmailInput.Focus = _
    rw [hM3e, hM2e]
    rfl
  have hM4a : M4.AccountStore = some {} := by rw [← hM4]; exact hM3a
  have hM4c : M4.CurrentAccount = none := by rw [← hM4]; exact hM3c
  have h5 := type_email env email M4 hM4s hM4f (by rw [hM4e]) (by rw [hM4e]; rfl)
    (by rw [hM4e]; simp; omega) heq hek
  rw [hM4e] at h5
  simp only [List.nil_append, Nat.zero_add] at h5
  generalize hM5 : ({ M4 with EmailInput :=
      { Placeholder := "Your Email", CharLimit := 100, Width := 30, Prompt := "",
        value := email, focus := true, pos := email.length } } : Model) = M5 at h5
  have hM5s : M5.AppState = StateAccountCreation := by rw [← hM5]; exact hM4s
  have hM5f : M5.FocusedField = FocusEmail := by rw [← hM5]; exact hM4f
  have hM5n : M5.NameInput.Value = String.mk name := by rw [← hM5]; exact hM4n
  have hM5e : M5.EmailInput.Value = String.mk email := by rw [← hM5]; rfl
  have hM5a : M5.AccountStore = some {} := by rw [← hM5]; exact hM4a
  have h6 := enterOnEmail_ok env M5 (KeyMsg.special "enter") {}
    (generateAccountNumber env.rand).1 hM5s hM5f (by rw [hM5n]; exact mk_ne_empty name hn)
    (by rw [hM5e]; exact mk_ne_empty email he) hM5a rfl hfg hfc
    (generate_on_empty env.rand)
  rw [hM5n, hM5e] at h6
  generalize hM6 : ({ M5 with
        GeneratedAccountNumber := (generateAccountNumber env.rand).1,
        AccountStore := some { ({} : Store) with db := { ({} : Store).db with
          accounts := ({} : Store).db.accounts ++
            [{ id := ({} : Store).db.accountsSeq + 1,
               account_number := (generateAccountNumber env.rand).1, name := String.mk name,
               email := String.mk email, created_at := some env.now, last_login := none,
               is_active := true }],
          accountsSeq := ({} : Store).db.accountsSeq + 1 } },
        CurrentAccount := some
          { ID := ({} : Store).db.accountsSeq + 1,
            AccountNumber := (generateAccountNumber env.rand).1, Name := String.mk name,
            Email := String.mk email, IsActive := true },
        FocusedField := FocusDisplayInfo,
        NameInput := M5.NameInput.Blur,
        EmailInput := M5.EmailInput.Blur } : Model) = M6 at h6
  have hM6s : M6.AppState = StateAccountCreation := by rw [← hM6]; exact hM5s
  have hM6f : M6.FocusedField = FocusDisplayInfo := by rw [← hM6]
  have hM6g : M6.GeneratedAccountNumber = (generateAccountNumber env.rand).1 := by rw [← hM6]
  have hM6a : ∃ s row, M6.AccountStore = some s ∧ s.db.accounts = [row] ∧
      row.name = String.mk name ∧ row.email = String.mk email ∧
      row.account_number = M6.GeneratedAccountNumber ∧ row.is_active = true ∧
      s.GetAccountCount = 1 := by
    rw [← hM6]
    exact ⟨_, _, rfl, rfl, rfl, rfl, rfl, rfl, rfl⟩
  have h7 := enterOnDisplayInfo env M6 (KeyMsg.special "enter") hM6s hM6f rfl
  obtain ⟨M7, hM7⟩ : ∃ M7 : Model, M7 = { M6 with
        AppState := StateDashboard,
        Dashboard := some (NewDashboardViewWithUser M6.TerminalWidth M6.TerminalHeight
          (match M6.CurrentAccount with
           | some account => account.Name
           | none => M6.NameInput.Value)),
        ShowAccountWarning := false } := ⟨_, rfl⟩
  rw [← hM7] at h7
  have hM7s : M7.AppState = StateDashboard := by rw [hM7]
  have hM7a : M7.AccountStore = M6.AccountStore := by rw [hM7]
  obtain ⟨s6, row6, hs6, hrows, hrn, hre, hrnum, hract, hcount⟩ := hM6a
  refine ⟨M1, M2, M3, M4, M5, M6, M7, ?_, by rw [← hM1], hM2s, hM2f, hM3s, hM3f, hM3n, hM4s,
    hM4f, hM5s, hM5f, hM5n, hM5e, hM6s, hM6f, ?_, ?_,
    ⟨s6, row6, hs6, hrows, hrn, hre, hrnum, hract, hcount⟩, hM7s,
    ⟨s6, by rw [hM7a]; exact hs6, hcount⟩⟩
  · unfold signUpStops
    have h1e : Update env (NewModel flames (some {})) enterKey = some (M1, Cmd.nil) := h1
    have h2e : Update env M1 enterKey = some (M2, Cmd.blink) := h2
    have h4e : Update env M3 enterKey = some (M4, Cmd.blink) := h4
    have h6e : Update env M5 enterKey = some (M6, Cmd.nil) := h6
    have h7e : Update env M6 enterKey = some (M7, Cmd.nil) := h7
    simp only [h1e, h2e, h3, h4e, h5, h6e, h7e]
  · rw [hM6g]; exact (generateAccountNumber_grouped env.rand).1
  · rw [hM6g]; exact (generateAccountNumber_grouped env.rand).2


/-- C20: in state AccountCreation each of the keys `tab`, `shift+tab`, `up` and
`down` moves the focus from Name to Email and from Email to Name, never to
DisplayInfo, and the state stays AccountCreation; with the focus on
DisplayInfo the same keys return the model as it was, with no command. -/
theorem focus_cycle (env : Env) (m : Model) (key : KeyMsg)
    (hs : m.AppState = StateAccountCreation)
    (hk : key.String = "tab" ∨ key.String = "shift+tab" ∨ key.String = "up" ∨
      key.String = "down") :
    (m.FocusedField = FocusName →
      ∃ r, Update env m (Msg.KeyMsg key) = some r ∧ r.1.FocusedField = FocusEmail ∧
        r.1.AppState = StateAccountCreation) ∧
    (m.FocusedField = FocusEmail →
      ∃ r, Update env m (Msg.KeyMsg key) = some r ∧ r.1.FocusedField = FocusName ∧
        r.1.AppState = StateAccountCreation) ∧
    (m.FocusedField = FocusDisplayInfo →
      Update env m (Msg.KeyMsg key) = some (m, Cmd.nil)) := by
  have hq : ¬(key.String = "ctrl+c" ∨ key.String = "q") := by
    rcases hk with h | h | h | h <;> rw [h] <;> decide
  have he : ¬key.String = "enter" := by
    rcases hk with h | h | h | h <;> rw [h] <;> decide
  have hupd := update_accountCreation env m key hs
  refine ⟨?_, ?_, ?_⟩
  · intro hf
    rw [hupd]
    unfold updateAccountCreation
    simp only [hq, he, hk, hf, if_true, if_false]
    rcases hk with h | h | h | h <;> simp [h, hs]
  · intro hf
    rw [hupd]
    unfold updateAccountCreation
    simp only [hq, he, hk, hf, if_true, if_false]
    rcases hk with h | h | h | h <;> simp [h, hs]
  · intro hf
    rw [hupd]
    unfold updateAccountCreation
    simp only [hq, he, hk, hf, if_true, if_false]


/-- C15: each of the keys `q` and `ctrl+c` makes `Update` set `Quit` and
return the quit command, in every state, outside three cases: AccountCreation
with the focus not on DisplayInfo (the case the claim leaves out), the key `q`
in state SignIn, and state Lesson without a lesson view. -/
theorem quit_keys (env : Env) (m : Model) (key : KeyMsg)
    (hk : key.String = "q" ∨ key.String = "ctrl+c")
    (hac : ¬(m.AppState = StateAccountCreation ∧ m.FocusedField ≠ FocusDisplayInfo))
    (hsi : ¬(m.AppState = StateSignIn ∧ key.String = "q"))
    (hl : m.AppState = StateLesson → m.LessonView ≠ none) :
    ∃ r, Update env m (Msg.KeyMsg key) = some r ∧ r.1.Quit = true ∧ r.2 = Cmd.quit := by
  simp only [Update, updateKeyState]
  split_ifs with h1 h2 h3 h4 h5 h6 h7
  · rcases hk with hk | hk <;> simp [updateIntro, hk, quitNow]
  · rcases hk with hk | hk <;> simp [updateAccountCreation, hk, quitNow]
  · rcases hk with hk | hk <;> simp [updateAuthMenu, hk, quitNow]
  · rcases hk with hk | hk <;> simp [updateModuleExplorer, hk, quitNow]
  · rcases hk with hk | hk <;> simp [updateDashboard, hk, quitNow]
  · cases hlv : m.LessonView with
    | none => exact absurd hlv (hl h6)
    | some lv =>
      rcases hk with hk | hk <;>
        simp [updateLesson, hlv, hk, quitNow, commonKeys]
  · have hq : key.String = "ctrl+c" := by
      rcases hk with hk | hk
      · exact absurd ⟨h7, hk⟩ hsi
      · exact hk
    simp [updateSignIn, hq, quitNow]
  · rcases hk with hk | hk <;> simp [commonKeys, hk, quitNow, h2]

/-- C15, counterexample: in state SignIn, reached by `enter`, `down`, `enter`,
the key `q` does not quit: it is typed into the account field and the command
returned is the one of the text input. -/
theorem q_in_signIn_types :
    (runLast (NewModel [] (some {}))
      [(envZero, enterKey), (envZero, Msg.KeyMsg (KeyMsg.special "down")),
       (envZero, enterKey)]).bind
      (fun m => (Update envZero m (runeKey 'q')).map (fun r =>
        (m.AppState, r.1.AppState, r.1.Quit, r.2,
          r.1.SignInView.map (fun v => v.AccountInput.Value)))) =
      some (StateSignIn, StateSignIn, false, Cmd.input, some "q") := by
  rfl

/-- C14: in state AccountCreation the key `q` quits, with the focus on Email
(after `"a"` is typed there) and with the focus on Name (after `"An"` is typed
there): `Quit` is set, the quit command is returned, and the text of the
focused field is the same as before. -/
theorem q_in_accountCreation_quits :
    (runLast (NewModel [] (some {})) (signUpKeys "Ann" "a")).bind
      (fun m => (Update envZero m (runeKey 'q')).map (fun r =>
        (m.AppState, m.FocusedField, m.EmailInput.focus, m.EmailInput.Value,
          r.1.EmailInput.Value, r.1.Quit, r.2))) =
      some (StateAccountCreation, FocusEmail, true, "a", "a", true, Cmd.quit) ∧
    (runLast (NewModel [] (some {}))
      ([(envZero, enterKey), (envZero, enterKey)] ++ typeRunes envZero "An".data)).bind
      (fun m => (Update envZero m (runeKey 'q')).map (fun r =>
        (m.AppState, m.FocusedField, m.NameInput.focus, m.NameInput.Value,
          r.1.NameInput.Value, r.1.Quit, r.2))) =
      some (StateAccountCreation, FocusName, true, "An", "An", true, Cmd.quit) := by
  exact ⟨rfl, rfl⟩

/-- C16: the sign-up keys, `enter` twice and `enter` on the dashboard lead to
state Lesson with a lesson view. The key `q` there sets `AppState` to
Dashboard and leaves `SessionID` alone, but it also sets `Quit` and returns
the quit command. -/
theorem q_in_lesson_quits :
    (runLast (NewModel [] (some {}))
      (signUpKeys "Ann" "a@b.com" ++
        [(envZero, enterKey), (envZero, enterKey), (envZero, enterKey)])).bind
      (fun m => (Update envZero m (runeKey 'q')).map (fun r =>
        (m.AppState, m.LessonView.isSome, m.Quit, r.1.AppState, r.1.Quit, r.2,
          decide (r.1.SessionID = m.SessionID)))) =
      some (StateLesson, true, false, StateDashboard, true, Cmd.quit, true) := by
  rfl

/-- A key in state SignIn is handled by its case alone. -/
theorem update_signIn (env : Env) (m : Model) (key : KeyMsg)
    (hs : m.AppState = StateSignIn) :
    Update env m (Msg.KeyMsg key) =
      some (match updateSignIn env m key with
        | .ret r => r
        | .next m1 => commonKeys m1 key.String) := by
  simp [Update, updateKeyState, hs]

/-- A string of 16 bytes is not empty. -/
theorem ne_empty_of_len (s : String) (h : len s = 16) : s ≠ "" := by
  rintro rfl
  exact absurd h (by decide)

/-- C19: in state SignIn without a store, for every text in the account field
whose form without spaces has 16 bytes, `enter` moves to the dashboard: the
model returned differs from the one before in `AppState = Dashboard` and a
fresh dashboard only (so no account is current that was not, and `SessionID`
is the same), and no command is returned. -/
theorem signIn_without_store (env : Env) (m : Model) (key : KeyMsg) (v : SignInView)
    (hs : m.AppState = StateSignIn) (hstore : m.AccountStore = none)
    (hv : m.SignInView = some v) (hk : key.String = "enter")
    (hlen : len v.GetAccountNumber = 16) :
    Update env m (Msg.KeyMsg key) =
      some ({ m with AppState := StateDashboard,
                     Dashboard := some (NewDashboardView m.TerminalWidth m.TerminalHeight) },
            Cmd.nil) := by
  have hne := ne_empty_of_len _ hlen
  rw [update_signIn env m key hs]
  unfold updateSignIn
  simp [hk, hv, hne, hlen, hstore, commonKeys]

/-- C19, counterexample: in state SignIn without a store and with `"12345"` in
the account field, `enter` stays in SignIn with the format error and builds
no dashboard. -/
theorem signIn_without_store_short :
    (signInModel none "12345").AppState = StateSignIn ∧
    (signInModel none "12345").AccountStore = none ∧
    (Update envZero (signInModel none "12345") enterKey).map (fun r =>
        (r.1.AppState, r.1.Dashboard.isSome, r.1.SignInView.map (fun v => v.error), r.2)) =
      some (StateSignIn, false, some "Please enter a valid 16-digit account number",
        Cmd.nil) := by
  exact ⟨rfl, rfl, rfl⟩

/-- With no active row under the bare or the grouped number, the lookup finds
nothing. -/
theorem signIn_not_found (s : Store) (now d : String) (hd : isSixteenDigits d)
    (hnone : ∀ row ∈ s.db.accounts, row.is_active = true →
      row.account_number ≠ d ∧ row.account_number ≠ groupedForm d) :
    s.SignIn now d = (.error Error.ErrAccountNotFound, s) := by
  have hfmt := formattedNumber_of_isSixteenDigits d hd
  have hsel : s.db.selectByNumber d = [] := by
    unfold Database.selectByNumber
    rw [List.filter_eq_nil_iff]
    intro row hmem hmatch
    simp only [Database.numberMatches, hfmt, Bool.and_eq_true, Bool.or_eq_true, beq_iff_eq,
      Option.some.injEq] at hmatch
    rcases hmatch with ⟨hnum | hnum, hact⟩
    · exact (hnone row hmem hact).1 hnum
    · exact (hnone row hmem hact).2 hnum
  simp [Store.SignIn, Database.GetAccountByNumber, hsel]

/-- C17: in state SignIn with a store, for every text whose form without
spaces is 16 digits and for which the store holds no active account (under
the bare number or its grouped form), when no driver error occurs:
`Store.SignIn` returns `ErrAccountNotFound` and leaves the store as it was,
and `enter` leaves a view whose error is the not-found message, which is not
the generic one, and whose other fields are as before, stays in SignIn and
leaves `CurrentAccount`, `SessionID` and the store as they were. -/
theorem signIn_unknown_number (env : Env) (m : Model) (key : KeyMsg) (v : SignInView)
    (s : Store)
    (hs : m.AppState = StateSignIn) (hstore : m.AccountStore = some s)
    (hv : m.SignInView = some v) (hk : key.String = "enter")
    (hd : isSixteenDigits v.GetAccountNumber)
    (hnone : ∀ row ∈ s.db.accounts, row.is_active = true →
      row.account_number ≠ v.GetAccountNumber ∧
      row.account_number ≠ groupedForm v.GetAccountNumber)
    (hfault : env.faults.signIn = none) :
    s.SignIn env.now v.GetAccountNumber = (.error Error.ErrAccountNotFound, s) ∧
      (∃ r, Update env m (Msg.KeyMsg key) = some r ∧ r.2 = Cmd.nil ∧
        r.1.SignInView =
          some { v with error := "Account not found. Please check your account number." } ∧
        r.1.SignInView.map (fun view => view.error) =
          some "Account not found. Please check your account number." ∧
        r.1.AppState = StateSignIn ∧ r.1.CurrentAccount = m.CurrentAccount ∧
        r.1.SessionID = m.SessionID ∧ r.1.AccountStore = some s ∧ r.1.Quit = m.Quit) ∧
      "Account not found. Please check your account number." ≠
        "Sign in failed. Please try again." := by
  have hnf := signIn_not_found s env.now v.GetAccountNumber hd hnone
  have hlen := len_of_isSixteenDigits _ hd
  have hne := ne_empty_of_len _ hlen
  have hcall : callSignIn env s v.GetAccountNumber = (.error Error.ErrAccountNotFound, s) := by
    simp only [callSignIn, hfault]
    exact hnf
  refine ⟨hnf, ?_, by decide⟩
  rw [update_signIn env m key hs]
  unfold updateSignIn
  simp [hk, hv, hne, hlen, hstore, hcall, commonKeys, hs, SignInView.SetError]

/-- C18: in state SignIn with a store, for every text whose form without
spaces is 16 digits, when `Store.SignIn` returns the account `a` and
`StartSession` the session id `sid` (no driver error): `enter` sets
`CurrentAccount` to `a`, `SessionID` to `sid` and `AppState` to Dashboard, and
builds a dashboard whose user name is `a.Name`. -/
theorem signIn_known_number (env : Env) (m : Model) (key : KeyMsg) (v : SignInView)
    (s s1 : Store) (a : Account) (sid : Int)
    (hs : m.AppState = StateSignIn) (hstore : m.AccountStore = some s)
    (hv : m.SignInView = some v) (hk : key.String = "enter")
    (hd : isSixteenDigits v.GetAccountNumber)
    (hfs : env.faults.signIn = none) (hfn : env.faults.startSession = none)
    (hsign : s.SignIn env.now v.GetAccountNumber = (.ok a, s1))
    (hsess : (s1.StartSession env.now a.ID).1 = .ok sid) :
    ∃ r, Update env m (Msg.KeyMsg key) = some r ∧ r.2 = Cmd.nil ∧
      r.1.CurrentAccount = some a ∧ r.1.SessionID = sid ∧ r.1.AppState = StateDashboard ∧
      r.1.Dashboard = some (NewDashboardViewWithUser m.TerminalWidth m.TerminalHeight a.Name) ∧
      r.1.Dashboard.map (fun d => d.UserName) = some a.Name ∧
      r.1.AccountStore = some (s1.StartSession env.now a.ID).2 := by
  have hlen := len_of_isSixteenDigits _ hd
  have hne := ne_empty_of_len _ hlen
  have hcall : callSignIn env s v.GetAccountNumber = (.ok a, s1) := by
    simp only [callSignIn, hfs]
    exact hsign
  have hcall2 : callStartSession env s1 a.ID = s1.StartSession env.now a.ID := by
    simp only [callStartSession, hfn]
  rw [update_signIn env m key hs]
  unfold updateSignIn
  simp [hk, hv, hne, hlen, hstore, hcall, hcall2, hsess, commonKeys, NewDashboardViewWithUser]

/-- The instance of `signUp_scenario` at the name `"Ann"` and the email
`"a@b.com"`, with `envZero`. -/
theorem signUp_scenario_witness :
    ∃ m1 m2 m3 m4 m5 m6 m7,
      signUpStops envZero (NewModel [] (some {})) "Ann".data "a@b.com".data =
        some [m1, m2, m3, m4, m5, m6, m7] ∧
      m1.AppState = StateAuthMenu ∧
      m2.AppState = StateAccountCreation ∧ m2.FocusedField = FocusName ∧
      m3.AppState = StateAccountCreation ∧ m3.FocusedField = FocusName ∧
      m3.NameInput.Value = "Ann" ∧
      m4.AppState = StateAccountCreation ∧ m4.FocusedField = FocusEmail ∧
      m5.AppState = StateAccountCreation ∧ m5.FocusedField = FocusEmail ∧
      m5.NameInput.Value = "Ann" ∧ m5.EmailInput.Value = "a@b.com" ∧
      m6.AppState = StateAccountCreation ∧ m6.FocusedField = FocusDisplayInfo ∧
      isGroupedNumber m6.GeneratedAccountNumber ∧
      startsNonzero m6.GeneratedAccountNumber = true ∧
      (∃ s row, m6.AccountStore = some s ∧ s.db.accounts = [row] ∧
        row.name = "Ann" ∧ row.email = "a@b.com" ∧
        row.account_number = m6.GeneratedAccountNumber ∧ row.is_active = true ∧
        s.GetAccountCount = 1) ∧
      m7.AppState = StateDashboard ∧
      (∃ s, m7.AccountStore = some s ∧ s.GetAccountCount = 1) :=
  signUp_scenario envZero [] "Ann".data "a@b.com".data (by decide) (by decide) (by decide)
    (by decide) (by decide) (by decide) (by decide) (by decide) rfl rfl rfl

set_option maxRecDepth 100000 in
/-- C11, counterexample: with a name of 51 runes the scenario runs through,
but the 51st rune does not enter the name field, whose limit is 50: the one
account in the store carries a name of 50 runes, not the typed name. And with
the name of the one rune U+0085, a control character, the sanitiser of the
name field drops the rune: the name stays empty, the `enter` after the email
creates no account, and the last two stops are still AccountCreation with the
focus on Email. -/
theorem signUp_long_name_cut :
    (signUpStops envZero (NewModel [] (some {})) (List.replicate 51 'a') "a@b.com".data).map
        (fun ms => ms.map storedNames) =
      some [[], [], [], [], [], [String.mk (List.replicate 50 'a')],
        [String.mk (List.replicate 50 'a')]] ∧
    String.mk (List.replicate 50 'a') ≠ String.mk (List.replicate 51 'a') ∧
    (signUpStops envZero (NewModel [] (some {})) [Char.ofNat 133] "a@b.com".data).map
        (fun ms => ms.map (fun m =>
          (m.AppState, m.FocusedField, m.NameInput.Value, storedNames m))) =
      some [(StateAuthMenu, FocusName, "", []), (StateAccountCreation, FocusName, "", []),
        (StateAccountCreation, FocusName, "", []), (StateAccountCreation, FocusEmail, "", []),
        (StateAccountCreation, FocusEmail, "", []), (StateAccountCreation, FocusEmail, "", []),
        (StateAccountCreation, FocusEmail, "", [])] := by
  refine ⟨by rfl, fun h => ?_, by rfl⟩
  have hlen := congrArg String.length h
  simp [String.length] at hlen

/-- The instance of `quit_keys` at the initial model and the key `q`. -/
theorem quit_keys_witness :
    ∃ r, Update envZero (NewModel [] none) (Msg.KeyMsg (KeyMsg.KeyRunes ['q'])) = some r ∧
      r.1.Quit = true ∧ r.2 = Cmd.quit :=
  quit_keys envZero (NewModel [] none) (KeyMsg.KeyRunes ['q']) (Or.inl rfl) (by decide)
    (by decide) (by decide)

/-- The instance of `signIn_unknown_number` at the text `"1111222233334444"`
over the empty store. -/
theorem signIn_unknown_number_witness :
    ({} : Store).SignIn "t" "1111222233334444" = (.error Error.ErrAccountNotFound, {}) ∧
      (∃ r, Update envZero (signInModel (some {}) "1111222233334444") enterKey = some r ∧
        r.2 = Cmd.nil ∧
        r.1.SignInView =
          some { signInViewWith "1111222233334444" with
            error := "Account not found. Please check your account number." } ∧
        r.1.SignInView.map (fun view => view.error) =
          some "Account not found. Please check your account number." ∧
        r.1.AppState = StateSignIn ∧ r.1.CurrentAccount = none ∧
        r.1.SessionID = 0 ∧ r.1.AccountStore = some {} ∧ r.1.Quit = false) ∧
      "Account not found. Please check your account number." ≠
        "Sign in failed. Please try again." :=
  signIn_unknown_number envZero (signInModel (some {}) "1111222233334444")
    (KeyMsg.special "enter") (signInViewWith "1111222233334444") {} rfl rfl rfl rfl
    (by decide) (by intro row hrow; cases hrow) rfl

/-- The instance of `signIn_known_number`: the account created under
`"1234 5678 9012 3456"` signs in with `"1234567890123456"` and gets the
session id 1. -/
theorem signIn_known_number_witness :
    ∃ r, Update envZero (signInModel (some storeWithAnn) "1234567890123456") enterKey =
        some r ∧ r.2 = Cmd.nil ∧
      r.1.CurrentAccount = some
        { ID := 1, AccountNumber := "1234 5678 9012 3456", Name := "Ann",
          Email := "a@b.com", CreatedAt := "t0", LastLogin := "", IsActive := true } ∧
      r.1.SessionID = 1 ∧ r.1.AppState = StateDashboard ∧
      r.1.Dashboard = some (NewDashboardViewWithUser
        (signInModel (some storeWithAnn) "1234567890123456").TerminalWidth
        (signInModel (some storeWithAnn) "1234567890123456").TerminalHeight "Ann") ∧
      r.1.Dashboard.map (fun d => d.UserName) = some "Ann" ∧
      r.1.AccountStore =
        some ((storeWithAnn.SignIn "t" "1234567890123456").2.StartSession "t" 1).2 :=
  signIn_known_number envZero (signInModel (some storeWithAnn) "1234567890123456")
    (KeyMsg.special "enter") (signInViewWith "1234567890123456") storeWithAnn
    (storeWithAnn.SignIn "t" "1234567890123456").2
    { ID := 1, AccountNumber := "1234 5678 9012 3456", Name := "Ann", Email := "a@b.com",
      CreatedAt := "t0", LastLogin := "", IsActive := true }
    1 rfl rfl rfl rfl (by decide) rfl rfl rfl rfl

/-- The instance of `signIn_without_store` at the text `"1234 5678 9012 3456"`,
which has 16 bytes once the spaces are removed. -/
theorem signIn_without_store_witness :
    Update envZero (signInModel none "1234 5678 9012 3456") enterKey =
      some ({ signInModel none "1234 5678 9012 3456" with
        AppState := StateDashboard,
        Dashboard := some (NewDashboardView
          (signInModel none "1234 5678 9012 3456").TerminalWidth
          (signInModel none "1234 5678 9012 3456").TerminalHeight) }, Cmd.nil) :=
  signIn_without_store envZero (signInModel none "1234 5678 9012 3456")
    (KeyMsg.special "enter") (signInViewWith "1234 5678 9012 3456") rfl rfl rfl rfl rfl

/-- The instance of `focus_cycle` at the key `tab` in a fresh account
form. -/
theorem focus_cycle_witness :
    ((accountCreationModel none "" "" FocusName).FocusedField = FocusName →
      ∃ r, Update envZero (accountCreationModel none "" "" FocusName)
          (Msg.KeyMsg (KeyMsg.special "tab")) = some r ∧
        r.1.FocusedField = FocusEmail ∧ r.1.AppState = StateAccountCreation) ∧
    ((accountCreationModel none "" "" FocusName).FocusedField = FocusEmail →
      ∃ r, Update envZero (accountCreationModel none "" "" FocusName)
          (Msg.KeyMsg (KeyMsg.special "tab")) = some r ∧
        r.1.FocusedField = FocusName ∧ r.1.AppState = StateAccountCreation) ∧
    ((accountCreationModel none "" "" FocusName).FocusedField = FocusDisplayInfo →
      Update envZero (accountCreationModel none "" "" FocusName)
          (Msg.KeyMsg (KeyMsg.special "tab")) =
        some (accountCreationModel none "" "" FocusName, Cmd.nil)) :=
  focus_cycle envZero (accountCreationModel none "" "" FocusName) (KeyMsg.special "tab")
    rfl (Or.inl rfl)

/-! ## Theorems: progress rows -/

/-- The filter of `INSERT OR REPLACE` for a triple drops a row of that triple
appended after it was applied. -/
theorem filter_triple_append (rows : List ProgressRow) (a : Int) (m l : String)
    (row : ProgressRow) (h : row.triple = (a, m, l)) :
    (rows.filter (fun r => !(r.account_id == a && r.module_id == m && r.lesson_id == l)) ++
      [row]).filter (fun r => !(r.account_id == a && r.module_id == m && r.lesson_id == l)) =
    rows.filter (fun r => !(r.account_id == a && r.module_id == m && r.lesson_id == l)) := by
  simp only [ProgressRow.triple, Prod.mk.injEq] at h
  simp [List.filter_append, List.filter_filter, h.1, h.2.1, h.2.2]

/-- No row of a triple is left by the filter of `INSERT OR REPLACE` for it. -/
theorem filter_triple_none (rows : List ProgressRow) (a : Int) (m l : String) :
    (rows.filter (fun r => !(r.account_id == a && r.module_id == m && r.lesson_id == l))).filter
      (fun row => decide (row.triple = (a, m, l))) = [] := by
  rw [List.filter_filter, List.filter_eq_nil_iff]
  intro r _
  simp only [ProgressRow.triple, Prod.mk.injEq]
  by_cases h : r.account_id = a ∧ r.module_id = m ∧ r.lesson_id = l
  · simp [h.1, h.2.1, h.2.2]
  · simp [h]

/-- C21: for every store, account id, module id and lesson id, two calls of
`SaveProgress` in succession leave exactly one progress row for the triple,
its `completed_at` is the time of the later call, and the triples of the rows
are those after the first call, in the same order. -/
theorem saveProgress_twice (s : Store) (now1 now2 : String) (a : Int) (m l : String) :
    (∃ row, ((s.SaveProgress now1 a m l).SaveProgress now2 a m l).progressFor a m l = [row] ∧
      row.completed_at = some now2) ∧
    ((s.SaveProgress now1 a m l).SaveProgress now2 a m l).db.progress.map ProgressRow.triple =
      (s.SaveProgress now1 a m l).db.progress.map ProgressRow.triple ∧
    (∃ row, (s.SaveProgress now1 a m l).progressFor a m l = [row] ∧
      row.completed_at = some now1) := by
  have h1 : ((s.SaveProgress now1 a m l).SaveProgress now2 a m l).db.progress =
      s.db.progress.filter
        (fun r => !(r.account_id == a && r.module_id == m && r.lesson_id == l)) ++
      [{ id := s.db.progressSeq + 1 + 1, account_id := a, module_id := m, lesson_id := l,
         completed_at := some now2 }] := by
    simp only [Store.SaveProgress, Database.SaveProgress]
    rw [filter_triple_append s.db.progress a m l ⟨s.db.progressSeq + 1, a, m, l, some now1⟩ rfl]
  refine ⟨⟨⟨s.db.progressSeq + 1 + 1, a, m, l, some now2⟩, ?_, rfl⟩, ?_,
    ⟨⟨s.db.progressSeq + 1, a, m, l, some now1⟩, ?_, rfl⟩⟩
  · rw [Store.progressFor, h1, List.filter_append, filter_triple_none]
    simp [ProgressRow.triple]
  · rw [h1]
    simp [Store.SaveProgress, Database.SaveProgress, ProgressRow.triple]
  · rw [Store.progressFor]
    simp only [Store.SaveProgress, Database.SaveProgress]
    rw [List.filter_append, filter_triple_none]
    simp [ProgressRow.triple]

/-! ## Theorems: menus built call by call -/

/-- A call appends the option it inserts. -/
theorem apply_options {σ : Type} (m : BaseMenu σ) (c : MenuCall σ) :
    (MenuCall.apply m c).options = m.options ++ [c.inserted] := by
  cases c <;> rfl

/-- A sequence of calls appends the options they insert, in order. -/
theorem foldl_options {σ : Type} (calls : List (MenuCall σ)) (m : BaseMenu σ) :
    (calls.foldl MenuCall.apply m).options = m.options ++ calls.map MenuCall.inserted := by
  induction calls generalizing m with
  | nil => simp
  | cons c rest ih => simp [ih, apply_options]

/-- A call keeps the back index in order. -/
theorem apply_backIndexOk {σ : Type} (m : BaseMenu σ) (c : MenuCall σ) (h : backIndexOk m) :
    backIndexOk (MenuCall.apply m c) := by
  have keep : ∀ option : MenuOption σ, backIndexOk (m.AddOption option) := by
    intro option
    rcases h with h | ⟨h0, h1, o, ho, ha⟩
    · exact Or.inl h
    · refine Or.inr ⟨h0, ?_, o, ?_, ha⟩
      · simp only [BaseMenu.GetOptions, BaseMenu.GetBackOption, BaseMenu.AddOption,
          List.length_append, List.length_singleton] at h0 h1 ⊢
        push_cast
        omega
      · simp only [BaseMenu.GetOptions, BaseMenu.GetBackOption, BaseMenu.AddOption] at h0 h1 ho ⊢
        rw [List.getElem?_append_left (by omega)]
        exact ho
  cases c with
  | AddOption option => exact keep option
  | AddSimpleOption label targetState => exact keep _
  | AddExecuteOption label description handler => exact keep _
  | AddBackOption label targetState =>
    refine Or.inr ⟨?_, ?_,
      ({ Label := label, Action := ActionBack, Target := targetState } : MenuOption σ), ?_, rfl⟩
    · simp [MenuCall.apply, BaseMenu.AddBackOption, BaseMenu.AddOption, BaseMenu.GetBackOption]
    · simp [MenuCall.apply, BaseMenu.AddBackOption, BaseMenu.AddOption, BaseMenu.GetBackOption,
        BaseMenu.GetOptions]
    · simp [MenuCall.apply, BaseMenu.AddBackOption, BaseMenu.AddOption, BaseMenu.GetBackOption,
        BaseMenu.GetOptions]

/-- A sequence of calls keeps the back index in order. -/
theorem foldl_backIndexOk {σ : Type} (calls : List (MenuCall σ)) (m : BaseMenu σ)
    (h : backIndexOk m) : backIndexOk (calls.foldl MenuCall.apply m) := by
  induction calls generalizing m with
  | nil => exact h
  | cons c rest ih => exact ih _ (apply_backIndexOk m c h)

/-- C22: for every menu obtained from `NewBaseMenu` by a finite sequence of
`AddOption`, `AddSimpleOption`, `AddExecuteOption` and `AddBackOption` calls,
`GetBackOption` is -1 or an index below the number of options at which the
option has action `ActionBack`, and `GetOptions` lists the inserted options in
the order of the calls. -/
theorem buildMenu_backIndex {σ : Type} (title description : String)
    (calls : List (MenuCall σ)) :
    ((buildMenu title description calls).GetBackOption = -1 ∨
      (0 ≤ (buildMenu title description calls).GetBackOption ∧
        (buildMenu title description calls).GetBackOption <
          ((buildMenu title description calls).GetOptions.length : Int) ∧
        ∃ option,
          (buildMenu title description calls).GetOptions[
            (buildMenu title description calls).GetBackOption.toNat]? = some option ∧
          option.Action = ActionBack)) ∧
    (buildMenu title description calls).GetOptions = calls.map MenuCall.inserted := by
  refine ⟨foldl_backIndexOk calls _ (Or.inl rfl), ?_⟩
  simp [buildMenu, BaseMenu.GetOptions, foldl_options, BaseMenu.NewBaseMenu]

/-! ## Theorems: ticks, the dashboard and the lesson view -/

/-- Below the largest `int` an increment by 1 does not wrap; at the largest
`int` it gives the smallest. -/
theorem wrapInt_succ (x : Int) :
    (-2 ^ 63 ≤ x → x < 2 ^ 63 - 1 → wrapInt (x + 1) = x + 1) ∧
      (x = 2 ^ 63 - 1 → wrapInt (x + 1) = -2 ^ 63) := by
  unfold wrapInt
  constructor
  · intro h0 h1
    have h : (x + 1 + 2 ^ 63) % 2 ^ 64 = x + 1 + 2 ^ 63 :=
      Int.emod_eq_of_lt (by omega) (by omega)
    omega
  · intro h
    subst h
    decide

/-- C24: on a tick message `Update` returns the tick command exactly when the
state is Intro or `ShowAccountWarning` is set; otherwise it returns no command
and the model unchanged; in the warning case outside Intro the model returned
is the old one with `AnimationFrame` incremented as a Go `int` is, which is
`AnimationFrame + 1` for every frame below the largest `int` and the smallest
`int` at the largest; in state Intro only `Flames` changes. -/
theorem tick_rearms (env : Env) (m : Model) :
    (∃ r, Update env m Msg.tickMsg = some r ∧
      (r.2 = Cmd.tick ↔ (m.AppState = StateIntro ∨ m.ShowAccountWarning = true)) ∧
      (r.2 = Cmd.tick ∨ r.2 = Cmd.nil)) ∧
    (¬ (m.AppState = StateIntro ∨ m.ShowAccountWarning = true) →
      Update env m Msg.tickMsg = some (m, Cmd.nil)) ∧
    (m.AppState ≠ StateIntro → m.ShowAccountWarning = true →
      Update env m Msg.tickMsg =
        some ({ m with AnimationFrame := wrapInt (m.AnimationFrame + 1) }, Cmd.tick) ∧
      (-2 ^ 63 ≤ m.AnimationFrame → m.AnimationFrame < 2 ^ 63 - 1 →
        Update env m Msg.tickMsg =
          some ({ m with AnimationFrame := m.AnimationFrame + 1 }, Cmd.tick)) ∧
      (m.AnimationFrame = 2 ^ 63 - 1 →
        Update env m Msg.tickMsg =
          some ({ m with AnimationFrame := -2 ^ 63 }, Cmd.tick))) ∧
    (m.AppState = StateIntro →
      Update env m Msg.tickMsg =
        some ({ m with Flames := animateFlames env m.Flames }, Cmd.tick)) := by
  refine ⟨⟨updateTick env m, rfl, ?_, ?_⟩, ?_, ?_, ?_⟩
  · unfold updateTick
    split_ifs with h1 h2
    · simp [h1]
    · simp [h1, h2]
    · simp [h1, h2]
  · unfold updateTick
    split_ifs <;> simp
  · intro h
    simp only [not_or] at h
    simp [Update, updateTick, h.1, h.2]
  · intro h1 h2
    have hU : Update env m Msg.tickMsg =
        some ({ m with AnimationFrame := wrapInt (m.AnimationFrame + 1) }, Cmd.tick) := by
      simp [Update, updateTick, h1, h2]
    refine ⟨hU, fun h0 hlt => ?_, fun hmax => ?_⟩
    · rw [hU, (wrapInt_succ m.AnimationFrame).1 h0 hlt]
    · rw [hU, (wrapInt_succ m.AnimationFrame).2 hmax]
  · intro h1
    simp [Update, updateTick, h1]

/-- A key leaves the selected index of a dashboard over the available modules
in range, and the other fields as they were. -/
theorem dashboard_update_range (d : DashboardView) (key : String)
    (hm : d.modules = GetAvailableModules)
    (h : 0 ≤ d.selectedModule ∧ d.selectedModule < (d.modules.length : Int)) :
    (d.Update key).modules = GetAvailableModules ∧ (d.Update key).width = d.width ∧
      (d.Update key).height = d.height ∧ (d.Update key).UserName = d.UserName ∧
      0 ≤ (d.Update key).selectedModule ∧
      (d.Update key).selectedModule < ((d.Update key).modules.length : Int) := by
  have hlen : (d.modules.length : Int) = 5 := by rw [hm]; rfl
  unfold DashboardView.Update
  split_ifs <;> refine ⟨hm, rfl, rfl, rfl, ?_, ?_⟩ <;>
    first
    | exact h.1
    | exact h.2
    | (show 0 ≤ d.selectedModule - 1; omega)
    | (show 0 ≤ d.selectedModule + 1; omega)
    | (show 0 ≤ d.selectedModule - 3; omega)
    | (show 0 ≤ d.selectedModule + 3; omega)
    | (show d.selectedModule - 1 < (d.modules.length : Int); omega)
    | (show d.selectedModule + 1 < (d.modules.length : Int); omega)
    | (show d.selectedModule - 3 < (d.modules.length : Int); omega)
    | (show d.selectedModule + 3 < (d.modules.length : Int); omega)

/-- A sequence of keys leaves the selected index of a dashboard over the
available modules in range, and the other fields as they were. -/
theorem dashboard_updateAll_range (keys : List String) (d : DashboardView)
    (hm : d.modules = GetAvailableModules)
    (h : 0 ≤ d.selectedModule ∧ d.selectedModule < (d.modules.length : Int)) :
    (d.UpdateAll keys).modules = GetAvailableModules ∧ (d.UpdateAll keys).width = d.width ∧
      (d.UpdateAll keys).height = d.height ∧ (d.UpdateAll keys).UserName = d.UserName ∧
      0 ≤ (d.UpdateAll keys).selectedModule ∧
      (d.UpdateAll keys).selectedModule < ((d.UpdateAll keys).modules.length : Int) := by
  induction keys generalizing d with
  | nil => exact ⟨hm, rfl, rfl, rfl, h⟩
  | cons key rest ih =>
    obtain ⟨h1, h2, h3, h4, h5⟩ := dashboard_update_range d key hm h
    obtain ⟨k1, k2, k3, k4, k5⟩ := ih (d.Update key) h1 h5
    exact ⟨k1, k2.trans h2, k3.trans h3, k4.trans h4, k5⟩

/-- With the selected index in range `GetSelectedModule` returns the module
at that index. -/
theorem getSelectedModule_some (d : DashboardView)
    (h : 0 ≤ d.selectedModule ∧ d.selectedModule < (d.modules.length : Int)) :
    ∃ c, d.GetSelectedModule = some c ∧ d.modules[d.selectedModule.toNat]? = some c := by
  unfold DashboardView.GetSelectedModule
  rw [if_pos ⟨h.1, h.2⟩]
  have hlt : d.selectedModule.toNat < d.modules.length := by omega
  exact ⟨_, List.getElem?_eq_getElem hlt, List.getElem?_eq_getElem hlt⟩

/-- The key `enter` in state Dashboard on a selected module with a lesson
opens its lesson view. -/
theorem dashboard_enter (env : Env) (m : Model) (d : DashboardView) (c : Module)
    (l : LessonView) (hs : m.AppState = StateDashboard) (hd : m.Dashboard = some d)
    (hc : d.GetSelectedModule = some c)
    (hl : NewLessonView c m.TerminalWidth m.TerminalHeight = some l) :
    Update env m enterKey =
      some ({ m with CurrentModule := some c, LessonView := some l, AppState := StateLesson },
        Cmd.nil) := by
  have hk : updateKeyState env m (KeyMsg.special "enter") =
      some (.next { m with CurrentModule := some c, LessonView := some l,
                           AppState := StateLesson }) := by
    unfold updateKeyState
    rw [if_neg (by rw [hs]; decide), if_neg (by rw [hs]; decide), if_neg (by rw [hs]; decide),
      if_neg (by rw [hs]; decide), if_pos hs]
    simp [updateDashboard, hd, KeyMsg.String, hc, hl]
  simp only [enterKey, Update, hk, Option.map_some']
  simp [commonKeys, KeyMsg.String]

/-- C27: for every dashboard built by `NewDashboardView` or
`NewDashboardViewWithUser` and every finite sequence of keys passed to
`Update`, the selected index is afterwards at least 0 and below the number of
modules, `GetSelectedModule` returns the module at that index, which is one
of `GetAvailableModules`, and `enter` in state Dashboard on a model that holds
this dashboard opens the lesson view of that module. -/
theorem dashboard_selection_in_range (width height : Int) (userName : String)
    (d0 : DashboardView)
    (hd0 : d0 = NewDashboardView width height ∨
      d0 = NewDashboardViewWithUser width height userName)
    (keys : List String) :
    ∃ d, d = d0.UpdateAll keys ∧
      0 ≤ d.selectedModule ∧ d.selectedModule < (d.modules.length : Int) ∧
      ∃ c, d.GetSelectedModule = some c ∧ d.modules[d.selectedModule.toNat]? = some c ∧
        c ∈ GetAvailableModules ∧
        ∀ (env : Env) (m : Model), m.AppState = StateDashboard → m.Dashboard = some d →
          ∃ r l, Update env m enterKey = some r ∧ r.1.AppState = StateLesson ∧
            r.1.CurrentModule = some c ∧ r.1.LessonView = some l ∧ l.module = c ∧
            r.1.Quit = m.Quit := by
  refine ⟨_, rfl, ?_⟩
  have h00 : d0.modules = GetAvailableModules ∧ d0.selectedModule = 0 := by
    rcases hd0 with rfl | rfl <;> exact ⟨rfl, rfl⟩
  have hr := dashboard_updateAll_range keys d0 h00.1
    ⟨by rw [h00.2], by rw [h00.2, h00.1]; decide⟩
  generalize d0.UpdateAll keys = d at hr
  obtain ⟨hm, -, -, -, h0, h1⟩ := hr
  obtain ⟨c, hc, hget⟩ := getSelectedModule_some d ⟨h0, h1⟩
  have hmem : c ∈ GetAvailableModules := hm ▸ getSelectedModule_mem d c hc
  refine ⟨h0, h1, c, hc, hget, hmem, ?_⟩
  intro env m hs hdm
  obtain ⟨l, hl⟩ := newLessonView_available c hmem m.TerminalWidth m.TerminalHeight
  refine ⟨_, l, dashboard_enter env m d c l hs hdm hc hl, rfl, rfl, rfl, ?_, rfl⟩
  unfold NewLessonView at hl
  split at hl
  · exact Option.noConfusion hl
  · injection hl with hl
    subst hl
    rfl

/-- The instance of `dashboard_selection_in_range` at the dashboard of "Ann"
and the keys right, down, down, left, up. -/
theorem dashboard_selection_in_range_witness :
    ∃ d, d = (NewDashboardViewWithUser 80 24 "Ann").UpdateAll
        ["right", "down", "down", "left", "up"] ∧
      0 ≤ d.selectedModule ∧ d.selectedModule < (d.modules.length : Int) ∧
      ∃ c, d.GetSelectedModule = some c ∧ d.modules[d.selectedModule.toNat]? = some c ∧
        c ∈ GetAvailableModules ∧
        ∀ (env : Env) (m : Model), m.AppState = StateDashboard → m.Dashboard = some d →
          ∃ r l, Update env m enterKey = some r ∧ r.1.AppState = StateLesson ∧
            r.1.CurrentModule = some c ∧ r.1.LessonView = some l ∧ l.module = c ∧
            r.1.Quit = m.Quit :=
  dashboard_selection_in_range 80 24 "Ann" (NewDashboardViewWithUser 80 24 "Ann")
    (Or.inr rfl) ["right", "down", "down", "left", "up"]

/-- An index in range has a lesson. -/
theorem lessonAt_some (c : Module) (i : Int) (h0 : 0 ≤ i) (h1 : i < (c.Lessons.length : Int)) :
    ∃ x, lessonAt c i = some x := by
  unfold lessonAt
  rw [if_neg (by omega)]
  exact ⟨_, List.getElem?_eq_getElem (by omega)⟩

/-- A key in a lesson view in order does not panic and leaves it in order, on
the same module. -/
theorem lessonView_update_ok (l : LessonView) (key : String) (h : lessonViewOk l) :
    ∃ l2, l.Update key = some l2 ∧ lessonViewOk l2 ∧ l2.module = l.module := by
  have htab : Int.tmod (l.activeTab + 1) 3 = 0 ∨ Int.tmod (l.activeTab + 1) 3 = 1 ∨
      Int.tmod (l.activeTab + 1) 3 = 2 := by
    rcases h.tab with ht | ht | ht <;> rw [ht] <;> decide
  have hu := h.upper
  have hl := h.lower
  have ht := h.tab
  unfold LessonView.Update
  simp only []
  split_ifs <;> first
    | exact ⟨_, rfl, ⟨h.lower, h.upper, h.lesson, htab⟩, rfl⟩
    | exact ⟨_, rfl, ⟨h.lower, h.upper, h.lesson, Or.inr (Or.inr rfl)⟩, rfl⟩
    | exact ⟨_, rfl, ⟨h.lower, h.upper, h.lesson,
        by show l.activeTab - 1 = 0 ∨ l.activeTab - 1 = 1 ∨ l.activeTab - 1 = 2; omega⟩, rfl⟩
    | exact ⟨_, rfl, ⟨h.lower, h.upper, h.lesson, h.tab⟩, rfl⟩
    | exact ⟨_, rfl, h, rfl⟩
    | (obtain ⟨x, hx⟩ := lessonAt_some l.module (l.currentLesson + 1) (by omega) (by omega)
       rw [hx]
       exact ⟨_, rfl, ⟨by show 0 ≤ l.currentLesson + 1; omega,
         by show l.currentLesson + 1 < (l.module.Lessons.length : Int); omega, hx, h.tab⟩, rfl⟩)
    | (obtain ⟨x, hx⟩ := lessonAt_some l.module (l.currentLesson - 1) (by omega) (by omega)
       rw [hx]
       exact ⟨_, rfl, ⟨by show 0 ≤ l.currentLesson - 1; omega,
         by show l.currentLesson - 1 < (l.module.Lessons.length : Int); omega, hx, h.tab⟩, rfl⟩)

/-- A sequence of keys in a lesson view in order does not panic and leaves it
in order, on the same module. -/
theorem lessonView_updateAll_ok (keys : List String) (l : LessonView) (h : lessonViewOk l) :
    ∃ l2, l.UpdateAll keys = some l2 ∧ lessonViewOk l2 ∧ l2.module = l.module := by
  induction keys generalizing l with
  | nil => exact ⟨l, rfl, h, rfl⟩
  | cons key rest ih =>
    obtain ⟨l1, h1, hok, hmod⟩ := lessonView_update_ok l key h
    obtain ⟨l2, h2, hok2, hmod2⟩ := ih l1 hok
    refine ⟨l2, ?_, hok2, hmod2.trans hmod⟩
    simp only [LessonView.UpdateAll, h1, h2]

/-- A fresh lesson view is in order, on its module at the first lesson and the
first tab, with hints hidden and no code or output. -/
theorem newLessonView_ok (c : Module) (w h : Int) (l : LessonView)
    (hl : NewLessonView c w h = some l) :
    lessonViewOk l ∧ l.module = c ∧ l.currentLesson = 0 ∧ l.activeTab = 0 ∧
      l.showHints = false ∧ l.userCode = "" ∧ l.outputBuffer = "" ∧ l.width = w ∧
      l.height = h ∧ c.Lessons.head? = some l.lesson := by
  unfold NewLessonView at hl
  split at hl
  · exact Option.noConfusion hl
  · rename_i first rest hles
    injection hl with hl
    subst hl
    refine ⟨⟨le_refl _, ?_, ?_, Or.inl rfl⟩, rfl, rfl, rfl, rfl, rfl, rfl, rfl, rfl, ?_⟩
    · simp [hles]
    · simp [lessonAt, hles]
    · simp [hles]

/-- With the tab at 0, 1 or 2, `tab` followed by `shift+tab` gives the view
back. -/
theorem tab_back (l : LessonView) (h : l.activeTab = 0 ∨ l.activeTab = 1 ∨ l.activeTab = 2) :
    (l.Update "tab").bind (fun l1 => l1.Update "shift+tab") = some l := by
  have e : (if Int.tmod (l.activeTab + 1) 3 - 1 < 0 then (2 : Int)
      else Int.tmod (l.activeTab + 1) 3 - 1) = l.activeTab := by
    rcases h with ht | ht | ht <;> rw [ht] <;> decide
  simp only [LessonView.Update, if_true, Option.some_bind]
  rw [e, if_neg (by decide)]

/-- C28: for every module of `GetAvailableModules`, `NewLessonView` does not
panic (the module has a first lesson), and after every finite sequence of keys
passed to `Update` no call has panicked, the view is on the same module, the
index of the current lesson is at least 0 and below the number of lessons,
`lesson` is the lesson at that index, the tab is 0, 1 or 2, and `tab` followed
by `shift+tab` gives the view back. -/
theorem lessonView_in_range (c : Module) (hc : c ∈ GetAvailableModules) (width height : Int)
    (keys : List String) :
    ∃ l0 l, NewLessonView c width height = some l0 ∧ c.Lessons.head? = some l0.lesson ∧
      l0.currentLesson = 0 ∧ l0.UpdateAll keys = some l ∧ l.module = c ∧
      0 ≤ l.currentLesson ∧ l.currentLesson < (l.module.Lessons.length : Int) ∧
      lessonAt l.module l.currentLesson = some l.lesson ∧
      (l.activeTab = 0 ∨ l.activeTab = 1 ∨ l.activeTab = 2) ∧
      (l.Update "tab").bind (fun l1 => l1.Update "shift+tab") = some l := by
  obtain ⟨l0, hl0⟩ := newLessonView_available c hc width height
  obtain ⟨hok, hmod, hcur, -, -, -, -, -, -, hhead⟩ := newLessonView_ok c width height l0 hl0
  obtain ⟨l, hl, hokl, hmodl⟩ := lessonView_updateAll_ok keys l0 hok
  exact ⟨l0, l, hl0, hhead, hcur, hl, hmodl.trans hmod, hokl.lower, hokl.upper, hokl.lesson,
    hokl.tab, tab_back l hokl.tab⟩

/-- The instance of `lessonView_in_range` at the first module and the keys
n, tab, ?, n, n, p, shift+tab. -/
theorem lessonView_in_range_witness :
    ∃ l0 l, NewLessonView (GetAvailableModules.headD {}) 80 24 = some l0 ∧
      (GetAvailableModules.headD {}).Lessons.head? = some l0.lesson ∧
      l0.currentLesson = 0 ∧
      l0.UpdateAll ["n", "tab", "?", "n", "n", "p", "shift+tab"] = some l ∧
      l.module = GetAvailableModules.headD {} ∧
      0 ≤ l.currentLesson ∧ l.currentLesson < (l.module.Lessons.length : Int) ∧
      lessonAt l.module l.currentLesson = some l.lesson ∧
      (l.activeTab = 0 ∨ l.activeTab = 1 ∨ l.activeTab = 2) ∧
      (l.Update "tab").bind (fun l1 => l1.Update "shift+tab") = some l :=
  lessonView_in_range (GetAvailableModules.headD {}) (List.mem_cons_self _ _) 80 24
    ["n", "tab", "?", "n", "n", "p", "shift+tab"]

/-! ## Theorems: window resizes and the option "Exit" -/

/-- On a module with a lesson `NewLessonView` does not panic. -/
theorem newLessonView_some (c : Module) (w h : Int) (hc : c.Lessons ≠ []) :
    ∃ l, NewLessonView c w h = some l := by
  unfold NewLessonView
  split
  · rename_i hles
    exact absurd hles hc
  · exact ⟨_, rfl⟩

/-- The model that a window resize returns, field by field. -/
theorem updateWindowSize_eq (m : Model) (w h : Int) (r : Model × Cmd)
    (hr : updateWindowSize m w h = some r) :
    r.2 = Cmd.nil ∧
    r.1 = { m with
      TerminalWidth := w,
      TerminalHeight := h,
      Dashboard := m.Dashboard.map (fun d => NewDashboardViewWithUser w h (resizeUserName m d)),
      LessonView := r.1.LessonView } ∧
    (∀ l c, m.LessonView = some l → m.CurrentModule = some c →
      NewLessonView c w h = r.1.LessonView) ∧
    (m.LessonView = none ∨ m.CurrentModule = none → r.1.LessonView = m.LessonView) := by
  unfold updateWindowSize at hr
  simp only [] at hr
  cases hD : m.Dashboard with
  | none =>
    simp only [hD] at hr
    cases hL : m.LessonView with
    | none =>
      simp only [hL] at hr
      injection hr with hr
      subst hr
      refine ⟨rfl, ?_, fun l c hl => Option.noConfusion hl, fun _ => rfl⟩
      simp [hD, hL]
    | some l =>
      cases hC : m.CurrentModule with
      | none =>
        simp only [hL, hC] at hr
        injection hr with hr
        subst hr
        refine ⟨rfl, ?_, fun l c _ hc => Option.noConfusion hc, fun _ => rfl⟩
        simp [hD, hL]
      | some c =>
        simp only [hL, hC] at hr
        cases hN : NewLessonView c w h with
        | none => simp [hN] at hr
        | some l1 =>
          simp only [hN, Option.map_some'] at hr
          injection hr with hr
          subst hr
          refine ⟨rfl, ?_, ?_, ?_⟩
          · simp [hD]
          · intro l2 c2 _ hc2
            cases hc2
            exact hN
          · intro hor
            rcases hor with hor | hor <;> exact Option.noConfusion hor
  | some d =>
    have hname : ∀ u : Unit, (fun _ : Unit => if d.UserName ≠ "" then d.UserName else "") u =
        (fun _ : Unit => d.UserName) u := by
      intro _
      show (if d.UserName ≠ "" then d.UserName else "") = d.UserName
      split_ifs with hu
      · rfl
      · exact (not_not.mp hu).symm
    simp only [hD] at hr
    cases hL : m.LessonView with
    | none =>
      simp only [hL] at hr
      injection hr with hr
      subst hr
      refine ⟨rfl, ?_, fun l c hl => Option.noConfusion hl, fun _ => rfl⟩
      simp only [hD, hL, Option.map_some']
      congr
      exact funext hname
    | some l =>
      cases hC : m.CurrentModule with
      | none =>
        simp only [hL, hC] at hr
        injection hr with hr
        subst hr
        refine ⟨rfl, ?_, fun l c _ hc => Option.noConfusion hc, fun _ => rfl⟩
        simp only [hD, hL, Option.map_some']
        congr
        exact funext hname
      | some c =>
        simp only [hL, hC] at hr
        cases hN : NewLessonView c w h with
        | none => simp [hN] at hr
        | some l1 =>
          simp only [hN, Option.map_some'] at hr
          injection hr with hr
          subst hr
          refine ⟨rfl, ?_, ?_, ?_⟩
          · simp only [hD, Option.map_some']
            congr
            exact funext hname
          · intro l2 c2 _ hc2
            cases hc2
            exact hN
          · intro hor
            rcases hor with hor | hor <;> exact Option.noConfusion hor

/-- A window resize returns unless the model holds a lesson view and a
current module without lessons. -/
theorem updateWindowSize_some (m : Model) (w h : Int)
    (hles : ∀ c, m.LessonView ≠ none → m.CurrentModule = some c → c.Lessons ≠ []) :
    ∃ r, updateWindowSize m w h = some r := by
  cases hD : m.Dashboard <;> cases hL : m.LessonView <;> cases hC : m.CurrentModule <;>
    first
    | exact ⟨_, by simp only [updateWindowSize, hD, hL, hC]; rfl⟩
    | (rename_i lv c
       obtain ⟨l, hl⟩ := newLessonView_some c w h (hles c (by simp [hL]) hC)
       exact ⟨_, by simp only [updateWindowSize, hD, hL, hC, hl, Option.map_some']; rfl⟩)

/-- A second resize to the same size returns what the first returned. -/
theorem updateWindowSize_twice (m : Model) (w h : Int) (r : Model × Cmd)
    (hr : updateWindowSize m w h = some r) : updateWindowSize r.1 w h = some r := by
  obtain ⟨h2, hE, hLv, hNo⟩ := updateWindowSize_eq m w h r hr
  obtain ⟨M, cmd⟩ := r
  simp only at h2 hE hLv hNo ⊢
  subst h2
  generalize hX : M.LessonView = X at hE hLv hNo
  subst hE
  cases hD : m.Dashboard <;> cases hC : m.CurrentModule <;> cases hL : m.LessonView <;>
    cases X <;> cases hA : m.CurrentAccount <;>
    simp [hD, hC, hL] at hLv hNo <;>
    simp [updateWindowSize, hD, hC, hL, hA, resizeUserName, NewDashboardViewWithUser, hLv] <;>
    (intro hu; exact hu.symm)

/-- C23: a window resize is idempotent and is no state transition: when
`Update` returns on a `WindowSizeMsg`, `Update` on the returned model with the
same message returns the same model and command, and `AppState`,
`CurrentAccount`, `CurrentModule` and `SessionID` are those of the model
before; and it returns whenever the current module of a model with a lesson
view has a lesson. -/
theorem resize_idempotent (env : Env) (m : Model) (width height : Int) :
    (∀ r, Update env m (Msg.WindowSizeMsg width height) = some r →
      Update env r.1 (Msg.WindowSizeMsg width height) = some r ∧
      r.1.AppState = m.AppState ∧ r.1.CurrentAccount = m.CurrentAccount ∧
      r.1.CurrentModule = m.CurrentModule ∧ r.1.SessionID = m.SessionID ∧
      r.1.TerminalWidth = width ∧ r.1.TerminalHeight = height ∧ r.2 = Cmd.nil) ∧
    ((∀ c, m.LessonView ≠ none → m.CurrentModule = some c → c.Lessons ≠ []) →
      ∃ r, Update env m (Msg.WindowSizeMsg width height) = some r) := by
  refine ⟨fun r hr => ?_, fun hles => updateWindowSize_some m width height hles⟩
  have hr2 : updateWindowSize m width height = some r := hr
  obtain ⟨h2, hE, -, -⟩ := updateWindowSize_eq m width height r hr2
  refine ⟨updateWindowSize_twice m width height r hr2, ?_, ?_, ?_, ?_, ?_, ?_, h2⟩ <;> rw [hE]

/-- C30: on a `WindowSizeMsg`, for a model whose current module (when it has a
lesson view) has a lesson, `Update` returns; a dashboard is rebuilt with
`selectedModule = 0`, the new size, and the user name `CurrentAccount.Name`
when an account is current, else the user name it had; a lesson view with a
current module is rebuilt on that module at its first lesson, with
`currentLesson = 0`, `activeTab = 0`, hints hidden and empty user code and
output; `CurrentModule` is unchanged. -/
theorem resize_rebuilds (env : Env) (m : Model) (width height : Int)
    (hles : ∀ c, m.LessonView ≠ none → m.CurrentModule = some c → c.Lessons ≠ []) :
    ∃ r, Update env m (Msg.WindowSizeMsg width height) = some r ∧ r.2 = Cmd.nil ∧
      r.1.CurrentModule = m.CurrentModule ∧ r.1.CurrentAccount = m.CurrentAccount ∧
      (∀ d, m.Dashboard = some d →
        ∃ d1, r.1.Dashboard = some d1 ∧ d1.selectedModule = 0 ∧
          d1.modules = GetAvailableModules ∧ d1.width = width ∧ d1.height = height ∧
          d1.UserName = (match m.CurrentAccount with
            | some account => account.Name
            | none => d.UserName)) ∧
      (m.Dashboard = none → r.1.Dashboard = none) ∧
      (∀ l c, m.LessonView = some l → m.CurrentModule = some c →
        ∃ l1, r.1.LessonView = some l1 ∧ l1.module = c ∧
          c.Lessons.head? = some l1.lesson ∧ l1.currentLesson = 0 ∧ l1.activeTab = 0 ∧
          l1.showHints = false ∧ l1.userCode = "" ∧ l1.outputBuffer = "" ∧
          l1.width = width ∧ l1.height = height) ∧
      (m.LessonView = none ∨ m.CurrentModule = none → r.1.LessonView = m.LessonView) := by
  obtain ⟨r, hr⟩ := updateWindowSize_some m width height hles
  obtain ⟨h2, hE, hLv, hNo⟩ := updateWindowSize_eq m width height r hr
  refine ⟨r, hr, h2, by rw [hE], by rw [hE], ?_, ?_, ?_, hNo⟩
  · intro d hd
    refine ⟨NewDashboardViewWithUser width height (resizeUserName m d), ?_, rfl, rfl, rfl, rfl,
      rfl⟩
    rw [hE]
    simp only [hd, Option.map_some']
  · intro hd
    rw [hE]
    simp only [hd, Option.map_none']
  · intro l c hl hc
    obtain ⟨l1, hl1⟩ := newLessonView_some c width height
      (hles c (by rw [hl]; exact Option.some_ne_none l) hc)
    have hlv := hLv l c hl hc
    rw [hl1] at hlv
    obtain ⟨-, f1, f2, f3, f4, f5, f6, f7, f8, f9⟩ := newLessonView_ok c width height l1 hl1
    exact ⟨l1, hlv.symm, f1, f9, f2, f3, f4, f5, f6, f7, f8⟩

/-- The instance of `resize_rebuilds` at a model with the third module selected
on the dashboard of "Ann" and the second lesson of the first module open on
the second tab. -/
theorem resize_rebuilds_witness :
    ∃ r, Update envZero lessonOpenModel (Msg.WindowSizeMsg 100 30) = some r ∧ r.2 = Cmd.nil ∧
      r.1.CurrentModule = lessonOpenModel.CurrentModule ∧
      r.1.CurrentAccount = lessonOpenModel.CurrentAccount ∧
      (∀ d, lessonOpenModel.Dashboard = some d →
        ∃ d1, r.1.Dashboard = some d1 ∧ d1.selectedModule = 0 ∧
          d1.modules = GetAvailableModules ∧ d1.width = 100 ∧ d1.height = 30 ∧
          d1.UserName = (match lessonOpenModel.CurrentAccount with
            | some account => account.Name
            | none => d.UserName)) ∧
      (lessonOpenModel.Dashboard = none → r.1.Dashboard = none) ∧
      (∀ l c, lessonOpenModel.LessonView = some l → lessonOpenModel.CurrentModule = some c →
        ∃ l1, r.1.LessonView = some l1 ∧ l1.module = c ∧
          c.Lessons.head? = some l1.lesson ∧ l1.currentLesson = 0 ∧ l1.activeTab = 0 ∧
          l1.showHints = false ∧ l1.userCode = "" ∧ l1.outputBuffer = "" ∧
          l1.width = 100 ∧ l1.height = 30) ∧
      (lessonOpenModel.LessonView = none ∨ lessonOpenModel.CurrentModule = none →
        r.1.LessonView = lessonOpenModel.LessonView) :=
  resize_rebuilds envZero lessonOpenModel 100 30
    (fun c _ hc => by
      have e : c = GetAvailableModules.headD {} := (Option.some.inj hc).symm
      rw [e]
      exact List.cons_ne_nil _ _)

/-- C25: from the initial model, `enter` and `down` twice put the cursor of
the authentication menu on its third option "Exit", whose selection has action
`ActionBack` and target `StateExit`; `enter` there returns the model as it was
and no command: `Quit` stays false and the application does not quit. -/
theorem authMenu_exit_ignored :
    ∃ m, exitSelected = some m ∧ m.AppState = StateAuthMenu ∧ m.MenuCursor = 2 ∧
      m.MenuManager.GetMenuOptionsAsStrings = ["Sign Up", "Login", "Exit"] ∧
      (m.MenuManager.HandleSelection 2).Action = ActionBack ∧
      (m.MenuManager.HandleSelection 2).NextState = StateExit ∧
      m.Quit = false ∧
      Update envZero m enterKey = some (m, Cmd.nil) :=
  ⟨_, rfl, rfl, rfl, rfl, rfl, rfl, rfl, rfl⟩

/-! ## Theorems: what every run keeps -/

/-- A model outside state Lesson with the warning off and the frame at 0 is
under `viewInv`. -/
theorem viewInv_outside (n : Model) (hw : n.ShowAccountWarning = false)
    (hf : n.AnimationFrame = 0) (hs : n.AppState ≠ StateLesson) : viewInv n :=
  ⟨hw, hf, fun hl => absurd hl hs, fun hl => absurd hl hs⟩

/-- State AuthMenu is not state Lesson. -/
theorem authMenu_ne_lesson : StateAuthMenu ≠ StateLesson := by decide

/-- State Dashboard is not state Lesson. -/
theorem dashboard_ne_lesson : StateDashboard ≠ StateLesson := by decide

/-- State SignIn is not state Lesson. -/
theorem signIn_ne_lesson : StateSignIn ≠ StateLesson := by decide

/-- Case `StateIntro` keeps `viewInv`. -/
theorem updateIntro_view (m : Model) (key : String) (h : viewInv m) :
    viewInv (updateIntro m key).model := by
  unfold updateIntro
  split_ifs <;>
    first
    | exact ⟨h.warning, h.frame, h.lessonView, h.lessonModule⟩
    | exact viewInv_outside _ h.warning h.frame authMenu_ne_lesson

/-- The field input at the end of case `StateAccountCreation` keeps
`viewInv`. -/
theorem fieldInput_view (m : Model) (msg : KeyMsg) (h : viewInv m) :
    viewInv (fieldInput m msg).model := by
  unfold fieldInput
  split_ifs <;> exact ⟨h.warning, h.frame, h.lessonView, h.lessonModule⟩

/-- Case `StateAccountCreation` keeps `viewInv`. -/
theorem updateAccountCreation_view (env : Env) (m : Model) (msg : KeyMsg) (h : viewInv m) :
    viewInv (updateAccountCreation env m msg).model := by
  unfold updateAccountCreation
  simp only []
  split_ifs <;> (try split) <;> (try split) <;> (try split) <;>
    first
    | exact ⟨h.warning, h.frame, h.lessonView, h.lessonModule⟩
    | exact fieldInput_view m msg h
    | exact viewInv_outside _ rfl h.frame dashboard_ne_lesson
    | (unfold returnWithFocus
       cases env.readAfterCalls <;>
         exact ⟨h.warning, h.frame, h.lessonView, h.lessonModule⟩)

/-- Case `StateAuthMenu` keeps `viewInv`. -/
theorem updateAuthMenu_view (env : Env) (m : Model) (key : String) (hn : navInv m)
    (h : viewInv m) : viewInv (updateAuthMenu env m key).model := by
  have hm : navInv (if m.MenuManager.GetCurrentState ≠ StateAuthMenu then
      { m with MenuManager := (m.MenuManager.SetCurrentMenu StateAuthMenu).2, MenuCursor := 0 }
      else m) ∧ viewInv (if m.MenuManager.GetCurrentState ≠ StateAuthMenu then
      { m with MenuManager := (m.MenuManager.SetCurrentMenu StateAuthMenu).2, MenuCursor := 0 }
      else m) := by
    split_ifs
    · exact ⟨⟨hn.state, (setCurrentMenu_auth _ hn.menus).1,
        Or.inr (setCurrentMenu_auth _ hn.menus).2, hn.dashboard, hn.module, hn.lesson⟩,
        ⟨h.warning, h.frame, h.lessonView, h.lessonModule⟩⟩
    · exact ⟨hn, h⟩
  unfold updateAuthMenu
  generalize (if m.MenuManager.GetCurrentState ≠ StateAuthMenu then
      { m with MenuManager := (m.MenuManager.SetCurrentMenu StateAuthMenu).2, MenuCursor := 0 }
      else m) = n at hm ⊢
  obtain ⟨hm, hv⟩ := hm
  simp only []
  split_ifs <;> (try split) <;>
    first
    | exact ⟨hv.warning, hv.frame, hv.lessonView, hv.lessonModule⟩
    | (unfold returnWithFocus
       have hacc : (n.MenuManager.HandleSelection n.MenuCursor).NextState =
           StateAccountCreation := by assumption
       have hne : (n.MenuManager.HandleSelection n.MenuCursor).NextState ≠ StateLesson := by
         rw [hacc]; decide
       cases env.readAfterCalls <;> exact viewInv_outside _ hv.warning hv.frame hne)
    | exact viewInv_outside _ hv.warning hv.frame signIn_ne_lesson
    | (exfalso
       have hact : (n.MenuManager.HandleSelection n.MenuCursor).Action = ActionNavigate := by
         assumption
       rcases manager_navigate n.MenuManager hm.current n.MenuCursor hact with hnav | hnav <;>
         contradiction)

/-- Case `StateDashboard` keeps `viewInv`. -/
theorem updateDashboard_view (m : Model) (key : String) (h : viewInv m)
    (hs : m.AppState = StateDashboard) (f : Flow) (hf : updateDashboard m key = some f) :
    viewInv f.model := by
  have hne : m.AppState ≠ StateLesson := by rw [hs]; decide
  unfold updateDashboard at hf
  generalize (match m.Dashboard with
      | some d => d
      | none => NewDashboardViewWithUser m.TerminalWidth m.TerminalHeight
          (match m.CurrentAccount with
            | some account => account.Name
            | none => "")) = dashboard at hf
  simp only [] at hf
  split_ifs at hf
  · cases hf
    exact ⟨h.warning, h.frame, h.lessonView, h.lessonModule⟩
  · cases hf
    exact ⟨h.warning, h.frame, h.lessonView, h.lessonModule⟩
  · split at hf
    · rename_i selectedModule hsel
      cases hN : NewLessonView selectedModule m.TerminalWidth m.TerminalHeight with
      | none => rw [hN] at hf; exact Option.noConfusion hf
      | some l =>
        rw [hN] at hf
        cases hf
        exact ⟨h.warning, h.frame, fun _ => Option.some_ne_none _,
          fun _ => Option.some_ne_none _⟩
    · cases hf
      exact ⟨h.warning, h.frame, h.lessonView, h.lessonModule⟩
  · cases hf
    exact ⟨h.warning, h.frame, h.lessonView, h.lessonModule⟩
  · cases hf
    exact ⟨h.warning, h.frame, h.lessonView, h.lessonModule⟩

/-- Case `StateLesson` keeps `viewInv`. -/
theorem updateLesson_view (m : Model) (key : String) (h : viewInv m)
    (f : Flow) (hf : updateLesson m key = some f) : viewInv f.model := by
  unfold updateLesson at hf
  split at hf
  · cases hf
    exact h
  · rename_i lessonView hlv
    split_ifs at hf
    · cases hf
      exact ⟨h.warning, h.frame, h.lessonView, h.lessonModule⟩
    · cases hf
      exact ⟨h.warning, h.frame, h.lessonView, h.lessonModule⟩
    · cases hf
      exact viewInv_outside _ h.warning h.frame dashboard_ne_lesson
    · cases hU : lessonView.Update key with
      | none => rw [hU] at hf; exact Option.noConfusion hf
      | some l =>
        rw [hU] at hf
        cases hf
        exact ⟨h.warning, h.frame, fun _ => Option.some_ne_none _, h.lessonModule⟩
    · cases hf
      exact h

/-- Case `StateSignIn` keeps `viewInv`. -/
theorem updateSignIn_view (env : Env) (m : Model) (msg : KeyMsg) (h : viewInv m) :
    viewInv (updateSignIn env m msg).model := by
  unfold updateSignIn
  generalize (match m.SignInView with
    | some v => v
    | none => NewSignInView m.TerminalWidth m.TerminalHeight) = signInView
  simp only []
  split_ifs <;> (try split) <;> (try split) <;>
    first
    | exact ⟨h.warning, h.frame, h.lessonView, h.lessonModule⟩
    | exact viewInv_outside _ h.warning h.frame dashboard_ne_lesson
    | exact viewInv_outside _ h.warning h.frame authMenu_ne_lesson

/-- The common key handling keeps `viewInv`. -/
theorem commonKeys_view (m : Model) (key : String) (h : viewInv m) :
    viewInv (commonKeys m key).1 := by
  unfold commonKeys
  split_ifs <;> exact ⟨h.warning, h.frame, h.lessonView, h.lessonModule⟩

/-- The tick keeps `viewInv`: with the warning off it does not move the
frame. -/
theorem updateTick_view (env : Env) (m : Model) (h : viewInv m) :
    viewInv (updateTick env m).1 := by
  unfold updateTick
  split_ifs with h1 h2
  · exact ⟨h.warning, h.frame, h.lessonView, h.lessonModule⟩
  · rw [h.warning] at h2
    exact absurd h2 (by decide)
  · exact h

/-- A window resize keeps `viewInv`. -/
theorem updateWindowSize_view (m : Model) (width height : Int) (h : viewInv m)
    (r : Model × Cmd) (hr : updateWindowSize m width height = some r) : viewInv r.1 := by
  cases hD : m.Dashboard <;> cases hL : m.LessonView <;> cases hC : m.CurrentModule <;>
    simp only [updateWindowSize, hD, hL, hC] at hr <;>
    first
    | (cases hr
       exact ⟨h.warning, h.frame, fun hl => hL ▸ h.lessonView hl, fun hl => hC ▸ h.lessonModule hl⟩)
    | (rename_i lv c
       cases hN : NewLessonView c width height with
       | none => rw [hN] at hr; exact Option.noConfusion hr
       | some l =>
         rw [hN] at hr
         cases hr
         exact ⟨h.warning, h.frame, fun _ => Option.some_ne_none _,
           fun _ => Option.some_ne_none _⟩)

/-- One call of `Update` on a model under both invariants returns a model
under `viewInv`. -/
theorem update_view (env : Env) (m : Model) (msg : Msg) (hn : navInv m) (h : viewInv m)
    (r : Model × Cmd) (hr : Update env m msg = some r) : viewInv r.1 := by
  cases msg with
  | WindowSizeMsg width height => exact updateWindowSize_view m width height h r hr
  | tickMsg =>
    cases hr
    exact updateTick_view env m h
  | other =>
    cases hr
    exact h
  | KeyMsg key =>
    have hstate : ∀ f, updateKeyState env m key = some f → viewInv f.model := by
      intro f hf
      unfold updateKeyState at hf
      split_ifs at hf with h1 h2 h3 h4 h5 h6 h7
      · cases hf
        exact updateIntro_view m _ h
      · cases hf
        exact updateAccountCreation_view env m key h
      · cases hf
        exact updateAuthMenu_view env m _ hn h
      · exfalso
        rcases hn.state with hs | hs | hs | hs | hs | hs <;> rw [hs] at h4 <;>
          exact absurd h4 (by decide)
      · exact updateDashboard_view m _ h h5 f hf
      · exact updateLesson_view m _ h f hf
      · cases hf
        exact updateSignIn_view env m key h
      · cases hf
        exact h
    cases hk : updateKeyState env m key with
    | none => simp [Update, hk] at hr
    | some f =>
      simp only [Update, hk, Option.map_some', Option.some.injEq] at hr
      subst hr
      have hv := hstate f hk
      cases f with
      | ret r => exact hv
      | next m1 => exact commonKeys_view m1 _ hv

/-- Every model that a run from a model under both invariants ends in is
under both. -/
theorem runLast_inv : ∀ (steps : List (Env × Msg)) (m : Model), navInv m → viewInv m →
    ∃ m2, runLast m steps = some m2 ∧ navInv m2 ∧ viewInv m2 := by
  intro steps
  induction steps with
  | nil => intro m hn hv; exact ⟨m, rfl, hn, hv⟩
  | cons step rest ih =>
    intro m hn hv
    obtain ⟨env, msg⟩ := step
    obtain ⟨r, hr, hinv⟩ := update_inv env m msg hn
    obtain ⟨m2, hm2, h2⟩ := ih r.1 hinv (update_view env m msg hn hv r hr)
    exact ⟨m2, by simp only [runLast, hr, hm2], h2⟩

/-- The initial model is under `viewInv`. -/
theorem newModel_view (flames : List String) (store : Option Store) :
    viewInv (NewModel flames store) :=
  viewInv_outside _ rfl rfl (show StateIntro ≠ StateLesson by decide)

/-- An option that is not `none` holds a value. -/
theorem exists_of_ne_none {α : Type} (o : Option α) (h : o ≠ none) : ∃ x, o = some x := by
  cases o with
  | none => exact absurd rfl h
  | some x => exact ⟨x, rfl⟩

/-- In state Lesson with a lesson view, and in every other state, `ctrl+c`
quits. -/
theorem ctrlC_quits (env : Env) (m : Model) (key : KeyMsg) (hk : key.String = "ctrl+c")
    (hl : m.AppState = StateLesson → m.LessonView ≠ none) :
    ∃ r, Update env m (Msg.KeyMsg key) = some r ∧ r.1.Quit = true ∧ r.2 = Cmd.quit := by
  simp only [Update, updateKeyState]
  split_ifs with h1 h2 h3 h4 h5 h6 h7
  · simp [updateIntro, hk, quitNow]
  · simp [updateAccountCreation, hk, quitNow]
  · simp [updateAuthMenu, hk, quitNow]
  · simp [updateModuleExplorer, hk, quitNow]
  · simp [updateDashboard, hk, quitNow]
  · cases hlv : m.LessonView with
    | none => exact absurd hlv (hl h6)
    | some lv => simp [updateLesson, hlv, hk, quitNow, commonKeys]
  · simp [updateSignIn, hk, quitNow]
  · simp [commonKeys, hk, quitNow, h2]

/-- C26: every run of `Update` from the initial model, whatever the messages,
the store, the random draws and the clock, ends without a panic in a model
in which state Lesson has a lesson view and a current module, so that the
guard of the early return of case Lesson is false, and on which `ctrl+c` sets
`Quit` and returns the quit command. -/
theorem lesson_has_view (flames : List String) (store : Option Store)
    (steps : List (Env × Msg)) :
    ∃ m, runLast (NewModel flames store) steps = some m ∧
      (m.AppState = StateLesson →
        (∃ l, m.LessonView = some l) ∧ ∃ c, m.CurrentModule = some c) ∧
      ∀ (env : Env) (key : KeyMsg), key.String = "ctrl+c" →
        ∃ r, Update env m (Msg.KeyMsg key) = some r ∧ r.1.Quit = true ∧ r.2 = Cmd.quit := by
  obtain ⟨m, hm, hn, hv⟩ := runLast_inv steps (NewModel flames store)
    (newModel_inv flames store) (newModel_view flames store)
  refine ⟨m, hm, fun hs => ⟨exists_of_ne_none _ (hv.lessonView hs),
    exists_of_ne_none _ (hv.lessonModule hs)⟩,
    fun env key hk => ctrlC_quits env m key hk hv.lessonView⟩

/-- C29: every run of `Update` from the initial model, whatever the messages,
the store, the random draws and the clock, ends without a panic in a model
with `ShowAccountWarning` false and `AnimationFrame` 0; on such a model a tick
returns the tick command exactly in state Intro and leaves `AnimationFrame`
at 0. -/
theorem warning_never_set (flames : List String) (store : Option Store)
    (steps : List (Env × Msg)) :
    ∃ m, runLast (NewModel flames store) steps = some m ∧
      m.ShowAccountWarning = false ∧ m.AnimationFrame = 0 ∧
      ∀ env : Env, ∃ r, Update env m Msg.tickMsg = some r ∧
        (r.2 = Cmd.tick ↔ m.AppState = StateIntro) ∧
        (m.AppState ≠ StateIntro → r = (m, Cmd.nil)) ∧
        r.1.ShowAccountWarning = false ∧ r.1.AnimationFrame = 0 := by
  obtain ⟨m, hm, hn, hv⟩ := runLast_inv steps (NewModel flames store)
    (newModel_inv flames store) (newModel_view flames store)
  refine ⟨m, hm, hv.warning, hv.frame, fun env => ⟨updateTick env m, rfl, ?_, ?_,
    (updateTick_view env m hv).warning, (updateTick_view env m hv).frame⟩⟩
  · unfold updateTick
    split_ifs with h1 h2
    · simp [h1]
    · rw [hv.warning] at h2
      exact absurd h2 (by decide)
    · simp [h1]
  · intro h1
    unfold updateTick
    rw [if_neg h1, hv.warning]
    rfl

end PowerHell
